import Mathlib

/-! ReactOS HID parser library: status translator, usage-transition engine,
collection descriptions, report-type dispatchers and scan-code translation.

A shallow embedding of parts of `lib/drivers/hidparser/hidparser.c`.

Memory model.  A C array reached through a pointer is a `List`; index `i` of the
list is element `i` of the array.  Every read and every write is bounds checked:
an access outside the list makes the whole call return `none`.  The four buffers
of a difference call are taken to be pairwise disjoint objects.

Loops.  Each `do { ... } while (Index < UsageListLength)` loop is a recursive
function taking the loop variables as arguments, plus a fuel argument on which the
recursion is structural; the callers pass `UsageListLength` as fuel, and running
out of fuel yields `none` as well.  `ULONG` indices are natural numbers: an index
is only ever incremented while it is below `UsageListLength`, so it cannot wrap.
`USAGE` (an unsigned 16 bit integer) is only compared, never computed with, and is
a natural number too.

Code outside `hidparser.c`.  The routines of the descriptor parser proper, the
callbacks of the parser handle and the constants of headers that are not among
the given sources are parameters of the definitions that use them.
-/

namespace HidParser

/-! ## Status vocabularies -/

/-- Internal parser status `HIDPARSER_STATUS`: the named constants used by
`hidparser.c`, and `UNRECOGNIZED` for every other value of the underlying integer
type. -/
inductive HIDPARSER_STATUS where
  | SUCCESS
  | INSUFFICIENT_RESOURCES
  | NOT_IMPLEMENTED
  | REPORT_NOT_FOUND
  | COLLECTION_NOT_FOUND
  | INVALID_REPORT_LENGTH
  | INVALID_REPORT_TYPE
  | BUFFER_TOO_SMALL
  | USAGE_NOT_FOUND
  | I8042_TRANS_UNKNOWN
  | UNRECOGNIZED (code : Int)
  deriving DecidableEq, Repr

/-- Public `NTSTATUS` values returned by `hidparser.c`. -/
inductive NTSTATUS where
  | HIDP_STATUS_SUCCESS
  | HIDP_STATUS_INTERNAL_ERROR
  | HIDP_STATUS_NOT_IMPLEMENTED
  | HIDP_STATUS_REPORT_DOES_NOT_EXIST
  | HIDP_STATUS_INVALID_REPORT_LENGTH
  | HIDP_STATUS_INVALID_REPORT_TYPE
  | HIDP_STATUS_BUFFER_TOO_SMALL
  | HIDP_STATUS_USAGE_NOT_FOUND
  | HIDP_STATUS_I8042_TRANS_UNKNOWN
  | STATUS_SUCCESS
  | STATUS_NO_DATA_DETECTED
  | STATUS_INSUFFICIENT_RESOURCES
  | STATUS_NOT_IMPLEMENTED
  deriving DecidableEq, Repr

open NTSTATUS

/-- `TranslateHidParserStatus` (hidparser.c, lines 13-40): a `switch` over nine
case labels; every other value falls out of the `switch`, is reported through
`DPRINT1` and yields `HIDP_STATUS_NOT_IMPLEMENTED`. -/
def TranslateHidParserStatus (Status : HIDPARSER_STATUS) : NTSTATUS :=
  match Status with
  | .INSUFFICIENT_RESOURCES => HIDP_STATUS_INTERNAL_ERROR
  | .NOT_IMPLEMENTED => HIDP_STATUS_NOT_IMPLEMENTED
  | .REPORT_NOT_FOUND => HIDP_STATUS_REPORT_DOES_NOT_EXIST
  | .INVALID_REPORT_LENGTH => HIDP_STATUS_INVALID_REPORT_LENGTH
  | .INVALID_REPORT_TYPE => HIDP_STATUS_INVALID_REPORT_TYPE
  | .BUFFER_TOO_SMALL => HIDP_STATUS_BUFFER_TOO_SMALL
  | .USAGE_NOT_FOUND => HIDP_STATUS_USAGE_NOT_FOUND
  | .I8042_TRANS_UNKNOWN => HIDP_STATUS_I8042_TRANS_UNKNOWN
  | .COLLECTION_NOT_FOUND => HIDP_STATUS_NOT_IMPLEMENTED
  | _ => HIDP_STATUS_NOT_IMPLEMENTED

/-! ## Buffers -/

/-- Array store `Buffer[Index] = Value`; `none` when `Index` is outside the
buffer. -/
def store {α : Type} (Buffer : List α) (Index : Nat) (Value : α) : Option (List α) :=
  if Index < Buffer.length then some (Buffer.set Index Value) else none

/-- `RtlZeroMemory(&Buffer[Start], sizeof(elem) * Count)`: overwrites the `Count`
elements from `Start` on with the all-zero element; `none` when the range leaves
the buffer. -/
def RtlZeroMemory {α : Type} (zero : α) (Buffer : List α) (Start Count : Nat) :
    Option (List α) :=
  if Start + Count ≤ Buffer.length then
    some (Buffer.take Start ++ List.replicate Count zero ++ Buffer.drop (Start + Count))
  else none

/-! ## Plain usage lists -/

/-- A `USAGE` is an unsigned 16 bit identifier; `0` ends a usage list. -/
abbrev USAGE := Nat

/-- Inner `do`/`while` loop of `HidParser_UsageListDifference` (lines 429-448 and
477-496): looks for `CurrentUsage` in `UsageList`, from `SubIndex` on, and yields
`bFound`.  The scan ends at a zero entry, at a match, or when `SubIndex` reaches
`UsageListLength`. -/
def searchUsage (UsageList : List USAGE) (UsageListLength : Nat) (CurrentUsage : USAGE) :
    Nat → Nat → Option Bool
  | 0, _ => none
  | fuel + 1, SubIndex =>
    match UsageList[SubIndex]? with
    | none => none
    | some Usage =>
      if Usage = 0 then some false
      else if CurrentUsage = Usage then some true
      else if SubIndex + 1 < UsageListLength then
        searchUsage UsageList UsageListLength CurrentUsage fuel (SubIndex + 1)
      else some false

/-- First outer loop of `HidParser_UsageListDifference` (lines 417-461): walks
`PreviousUsageList` from `Index`, storing each usage that is not found in
`CurrentUsageList` at `BreakUsageList[BreakUsageIndex]`.  Yields the final
`BreakUsageIndex` and buffer. -/
def breakLoop (PreviousUsageList CurrentUsageList : List USAGE) (UsageListLength : Nat) :
    Nat → Nat → Nat → List USAGE → Option (Nat × List USAGE)
  | 0, _, _, _ => none
  | fuel + 1, Index, BreakUsageIndex, BreakUsageList =>
    match PreviousUsageList[Index]? with
    | none => none
    | some CurrentUsage =>
      if CurrentUsage = 0 then some (BreakUsageIndex, BreakUsageList)
      else
        match searchUsage CurrentUsageList UsageListLength CurrentUsage UsageListLength 0 with
        | none => none
        | some bFound =>
          let stored : Option (Nat × List USAGE) :=
            if bFound then some (BreakUsageIndex, BreakUsageList)
            else (store BreakUsageList BreakUsageIndex CurrentUsage).map
                  (fun b => (BreakUsageIndex + 1, b))
          match stored with
          | none => none
          | some (BreakUsageIndex1, BreakUsageList1) =>
            if Index + 1 < UsageListLength then
              breakLoop PreviousUsageList CurrentUsageList UsageListLength fuel (Index + 1)
                BreakUsageIndex1 BreakUsageList1
            else some (BreakUsageIndex1, BreakUsageList1)

/-- Second outer loop of `HidParser_UsageListDifference` (lines 465-509): walks
`CurrentUsageList` from `Index`, storing each usage that is not found in
`PreviousUsageList` at `MakeUsageList[MakeUsageIndex]`. -/
def makeLoop (PreviousUsageList CurrentUsageList : List USAGE) (UsageListLength : Nat) :
    Nat → Nat → Nat → List USAGE → Option (Nat × List USAGE)
  | 0, _, _, _ => none
  | fuel + 1, Index, MakeUsageIndex, MakeUsageList =>
    match CurrentUsageList[Index]? with
    | none => none
    | some CurrentUsage =>
      if CurrentUsage = 0 then some (MakeUsageIndex, MakeUsageList)
      else
        match searchUsage PreviousUsageList UsageListLength CurrentUsage UsageListLength 0 with
        | none => none
        | some bFound =>
          let stored : Option (Nat × List USAGE) :=
            if bFound then some (MakeUsageIndex, MakeUsageList)
            else (store MakeUsageList MakeUsageIndex CurrentUsage).map
                  (fun b => (MakeUsageIndex + 1, b))
          match stored with
          | none => none
          | some (MakeUsageIndex1, MakeUsageList1) =>
            if Index + 1 < UsageListLength then
              makeLoop PreviousUsageList CurrentUsageList UsageListLength fuel (Index + 1)
                MakeUsageIndex1 MakeUsageList1
            else some (MakeUsageIndex1, MakeUsageList1)

/-- Result of a difference call: the returned status and the final contents of the
two output buffers. -/
structure DiffResult (α : Type) where
  Status : NTSTATUS
  BreakUsageList : List α
  MakeUsageList : List α
  deriving DecidableEq, Repr

/-- `HidParser_UsageListDifference` (lines 401-528).  `BreakUsageList` and
`MakeUsageList` are the caller's output buffers as found on entry. -/
def HidParser_UsageListDifference (PreviousUsageList CurrentUsageList : List USAGE)
    (BreakUsageList MakeUsageList : List USAGE) (UsageListLength : Nat) :
    Option (DiffResult USAGE) := do
  let (BreakUsageIndex, BreakUsageList1, MakeUsageIndex, MakeUsageList1) ←
    (if UsageListLength ≠ 0 then do
      let (BreakUsageIndex, BreakUsageList1) ←
        breakLoop PreviousUsageList CurrentUsageList UsageListLength UsageListLength 0 0
          BreakUsageList
      let (MakeUsageIndex, MakeUsageList1) ←
        makeLoop PreviousUsageList CurrentUsageList UsageListLength UsageListLength 0 0
          MakeUsageList
      pure (BreakUsageIndex, BreakUsageList1, MakeUsageIndex, MakeUsageList1)
    else pure (0, BreakUsageList, 0, MakeUsageList) : Option (Nat × List USAGE × Nat × List USAGE))
  let BreakUsageList2 ←
    if BreakUsageIndex < UsageListLength then
      RtlZeroMemory 0 BreakUsageList1 BreakUsageIndex (UsageListLength - BreakUsageIndex)
    else pure BreakUsageList1
  let MakeUsageList2 ←
    if MakeUsageIndex < UsageListLength then
      RtlZeroMemory 0 MakeUsageList1 MakeUsageIndex (UsageListLength - MakeUsageIndex)
    else pure MakeUsageList1
  pure ⟨HIDP_STATUS_SUCCESS, BreakUsageList2, MakeUsageList2⟩

/-! ## Usage and page lists -/

/-- `USAGE_AND_PAGE`: a usage together with its usage page, both unsigned 16 bit
identifiers.  The entry with both fields zero ends a list. -/
structure USAGE_AND_PAGE where
  Usage : USAGE
  UsagePage : USAGE
  deriving DecidableEq, Repr

/-- The all-zero `USAGE_AND_PAGE`, as left by `RtlZeroMemory`. -/
def USAGE_AND_PAGE.zero : USAGE_AND_PAGE := ⟨0, 0⟩

/-- Inner `do`/`while` loop of `HidParser_UsageAndPageListDifference` (lines
771-790 and 819-838): scans `UsageList` from `SubIndex` up to its first all-zero
entry or `UsageListLength`, setting `bFound` at every entry equal to
`CurrentUsage` in both fields.  A match does not end the scan. -/
def searchUsageAndPage (UsageList : List USAGE_AND_PAGE) (UsageListLength : Nat)
    (CurrentUsage : USAGE_AND_PAGE) : Nat → Nat → Bool → Option Bool
  | 0, _, _ => none
  | fuel + 1, SubIndex, bFound =>
    match UsageList[SubIndex]? with
    | none => none
    | some Usage =>
      if Usage.Usage = 0 ∧ Usage.UsagePage = 0 then some bFound
      else
        let bFound1 : Bool :=
          if Usage.Usage = CurrentUsage.Usage ∧ Usage.UsagePage = CurrentUsage.UsagePage
          then true else bFound
        if SubIndex + 1 < UsageListLength then
          searchUsageAndPage UsageList UsageListLength CurrentUsage fuel (SubIndex + 1) bFound1
        else some bFound1

/-- Storing one entry of the pair variant (lines 795-797, 843-845): the two
fields of `Buffer[Index]` are assigned one after the other. -/
def storeUsageAndPage (Buffer : List USAGE_AND_PAGE) (Index : Nat)
    (CurrentUsage : USAGE_AND_PAGE) : Option (List USAGE_AND_PAGE) :=
  match Buffer[Index]? with
  | none => none
  | some Old =>
    match store Buffer Index { Old with Usage := CurrentUsage.Usage } with
    | none => none
    | some Buffer1 =>
      match Buffer1[Index]? with
      | none => none
      | some Old1 => store Buffer1 Index { Old1 with UsagePage := CurrentUsage.UsagePage }

/-- First outer loop of `HidParser_UsageAndPageListDifference` (lines 759-803). -/
def breakLoopEx (PreviousUsageList CurrentUsageList : List USAGE_AND_PAGE)
    (UsageListLength : Nat) :
    Nat → Nat → Nat → List USAGE_AND_PAGE → Option (Nat × List USAGE_AND_PAGE)
  | 0, _, _, _ => none
  | fuel + 1, Index, BreakUsageListIndex, BreakUsageList =>
    match PreviousUsageList[Index]? with
    | none => none
    | some CurrentUsage =>
      if CurrentUsage.Usage = 0 ∧ CurrentUsage.UsagePage = 0 then
        some (BreakUsageListIndex, BreakUsageList)
      else
        match searchUsageAndPage CurrentUsageList UsageListLength CurrentUsage
            UsageListLength 0 false with
        | none => none
        | some bFound =>
          let stored : Option (Nat × List USAGE_AND_PAGE) :=
            if bFound then some (BreakUsageListIndex, BreakUsageList)
            else (storeUsageAndPage BreakUsageList BreakUsageListIndex CurrentUsage).map
                  (fun b => (BreakUsageListIndex + 1, b))
          match stored with
          | none => none
          | some (BreakUsageListIndex1, BreakUsageList1) =>
            if Index + 1 < UsageListLength then
              breakLoopEx PreviousUsageList CurrentUsageList UsageListLength fuel (Index + 1)
                BreakUsageListIndex1 BreakUsageList1
            else some (BreakUsageListIndex1, BreakUsageList1)

/-- Second outer loop of `HidParser_UsageAndPageListDifference` (lines 807-850). -/
def makeLoopEx (PreviousUsageList CurrentUsageList : List USAGE_AND_PAGE)
    (UsageListLength : Nat) :
    Nat → Nat → Nat → List USAGE_AND_PAGE → Option (Nat × List USAGE_AND_PAGE)
  | 0, _, _, _ => none
  | fuel + 1, Index, MakeUsageListIndex, MakeUsageList =>
    match CurrentUsageList[Index]? with
    | none => none
    | some CurrentUsage =>
      if CurrentUsage.Usage = 0 ∧ CurrentUsage.UsagePage = 0 then
        some (MakeUsageListIndex, MakeUsageList)
      else
        match searchUsageAndPage PreviousUsageList UsageListLength CurrentUsage
            UsageListLength 0 false with
        | none => none
        | some bFound =>
          let stored : Option (Nat × List USAGE_AND_PAGE) :=
            if bFound then some (MakeUsageListIndex, MakeUsageList)
            else (storeUsageAndPage MakeUsageList MakeUsageListIndex CurrentUsage).map
                  (fun b => (MakeUsageListIndex + 1, b))
          match stored with
          | none => none
          | some (MakeUsageListIndex1, MakeUsageList1) =>
            if Index + 1 < UsageListLength then
              makeLoopEx PreviousUsageList CurrentUsageList UsageListLength fuel (Index + 1)
                MakeUsageListIndex1 MakeUsageList1
            else some (MakeUsageListIndex1, MakeUsageList1)

/-- `HidParser_UsageAndPageListDifference` (lines 742-869). -/
def HidParser_UsageAndPageListDifference
    (PreviousUsageList CurrentUsageList : List USAGE_AND_PAGE)
    (BreakUsageList MakeUsageList : List USAGE_AND_PAGE) (UsageListLength : Nat) :
    Option (DiffResult USAGE_AND_PAGE) := do
  let (BreakUsageListIndex, BreakUsageList1, MakeUsageListIndex, MakeUsageList1) ←
    (if UsageListLength ≠ 0 then do
      let (BreakUsageListIndex, BreakUsageList1) ←
        breakLoopEx PreviousUsageList CurrentUsageList UsageListLength UsageListLength 0 0
          BreakUsageList
      let (MakeUsageListIndex, MakeUsageList1) ←
        makeLoopEx PreviousUsageList CurrentUsageList UsageListLength UsageListLength 0 0
          MakeUsageList
      pure (BreakUsageListIndex, BreakUsageList1, MakeUsageListIndex, MakeUsageList1)
    else pure (0, BreakUsageList, 0, MakeUsageList) :
      Option (Nat × List USAGE_AND_PAGE × Nat × List USAGE_AND_PAGE))
  let BreakUsageList2 ←
    if BreakUsageListIndex < UsageListLength then
      RtlZeroMemory USAGE_AND_PAGE.zero BreakUsageList1 BreakUsageListIndex
        (UsageListLength - BreakUsageListIndex)
    else pure BreakUsageList1
  let MakeUsageList2 ←
    if MakeUsageListIndex < UsageListLength then
      RtlZeroMemory USAGE_AND_PAGE.zero MakeUsageList1 MakeUsageListIndex
        (UsageListLength - MakeUsageListIndex)
    else pure MakeUsageList1
  pure ⟨HIDP_STATUS_SUCCESS, BreakUsageList2, MakeUsageList2⟩

/-! ## Reference description of a difference, in the words of the specification -/

section Reference

variable {α : Type}

/-- The effective entries of a snapshot of capacity `N`: the entries of its first
`N` positions that come before the first sentinel entry (all `N` when there is no
sentinel). -/
def effective (isEnd : α → Bool) (N : Nat) (Snapshot : List α) : List α :=
  (Snapshot.take N).takeWhile (fun x => !isEnd x)

/-- The effective entries of `A` that do not occur among the effective entries of
`B`, in their order in `A`. -/
def absentFrom [DecidableEq α] (isEnd : α → Bool) (N : Nat) (A B : List α) : List α :=
  (effective isEnd N A).filter (fun x => decide (x ∉ effective isEnd N B))

/-- Extends `Entries` with copies of `zero` up to length `N`. -/
def zeroFilled (zero : α) (N : Nat) (Entries : List α) : List α :=
  Entries ++ List.replicate (N - Entries.length) zero

/-- Sentinel test of the plain variant: the usage is zero. -/
def isZeroUsage (Usage : USAGE) : Bool := decide (Usage = 0)

/-- Sentinel test of the pair variant: usage and usage page are both zero. -/
def isZeroUsageAndPage (Entry : USAGE_AND_PAGE) : Bool :=
  decide (Entry.Usage = 0 ∧ Entry.UsagePage = 0)

end Reference

/-! ## The common shape of the four outer loops -/

/-- The outer loops of both variants, with the sentinel test, the inner search and
the store operation abstracted.  Used only to reason about the four loops at
once; each of them is shown equal to an instance of it. -/
def scanLoop {α : Type} (isEnd : α → Bool) (search : α → Option Bool)
    (put : List α → Nat → α → Option (List α)) (Source : List α) (N : Nat) :
    Nat → Nat → Nat → List α → Option (Nat × List α)
  | 0, _, _, _ => none
  | fuel + 1, Index, OutIndex, Out =>
    match Source[Index]? with
    | none => none
    | some Current =>
      if isEnd Current then some (OutIndex, Out)
      else
        match search Current with
        | none => none
        | some bFound =>
          let stored : Option (Nat × List α) :=
            if bFound then some (OutIndex, Out)
            else (put Out OutIndex Current).map (fun b => (OutIndex + 1, b))
          match stored with
          | none => none
          | some (OutIndex1, Out1) =>
            if Index + 1 < N then scanLoop isEnd search put Source N fuel (Index + 1) OutIndex1 Out1
            else some (OutIndex1, Out1)

/-! ## Reference predicates on snapshots -/

/-- Snapshots `A` and `A1` agree up to and including the first sentinel entry of
`A`: they hold the same entry at every position all of whose predecessors in `A`
are non-sentinel entries. -/
def agreeToSentinel {α : Type} (isEnd : α → Bool) (A A1 : List α) : Prop :=
  ∀ i : Nat, (∀ j : Nat, j < i → ∃ x, A[j]? = some x ∧ isEnd x = false) → A[i]? = A1[i]?

/-- The first `N` positions of `Buffer` are a packed snapshot with `k` produced
entries: positions below `k` hold non-sentinel entries, positions from `k` up to
`N - 1` hold the zero entry. -/
def packedSnapshot {α : Type} (isEnd : α → Bool) (zero : α) (N k : Nat)
    (Buffer : List α) : Prop :=
  k ≤ N ∧ (∀ i : Nat, i < k → ∃ x, Buffer[i]? = some x ∧ isEnd x = false) ∧
    (∀ i : Nat, k ≤ i → i < N → Buffer[i]? = some zero)


/-! ## Collection descriptions

The routines of this part talk to code that is not in `hidparser.c`: the callbacks
of the parser handle (`Alloc`, `Free`, `Zero`, `Copy`, `Debug`), the routines of the
descriptor parser proper (`HidParser_ParseReportDescriptor`, `HidParser_GetReportLength`,
...) and `ExFreePool`.  What they answer is a parameter, collected in `HID_PARSER`;
that they are called, in which order and with which arguments, is recorded in a
list of `Call`s.  Integer fields are natural numbers: the record types are
declared in headers outside the given sources, and the values stored here are
taken to fit their fields.  `ASSERT` is checked when `Checked` is `true` (a build
with assertions): a failed assertion stops the call, which then yields `none`. -/

/-- Internal report type constants. -/
inductive HID_REPORT_TYPE where
  | HID_REPORT_TYPE_INPUT
  | HID_REPORT_TYPE_OUTPUT
  | HID_REPORT_TYPE_FEATURE
  deriving DecidableEq, Repr

open HID_REPORT_TYPE

/-- One entry of `DeviceDescription->ReportIDs`. -/
structure HIDP_REPORT_IDS where
  ReportID : Nat
  CollectionNumber : Nat
  InputLength : Nat
  OutputLength : Nat
  FeatureLength : Nat
  deriving DecidableEq, Repr

/-- One entry of `DeviceDescription->CollectionDesc`; `PreparsedData` is the address
of the blob, `0` for `NULL`. -/
structure HIDP_COLLECTION_DESC where
  UsagePage : USAGE
  Usage : USAGE
  CollectionNumber : Nat
  InputLength : Nat
  OutputLength : Nat
  FeatureLength : Nat
  PreparsedDataLength : Nat
  PreparsedData : Nat
  deriving DecidableEq, Repr

/-- The caller's `HIDP_DEVICE_DESC` record; the two pointers are addresses, `0` for
`NULL`. -/
structure HIDP_DEVICE_DESC where
  CollectionDesc : Nat
  CollectionDescLength : Nat
  ReportIDs : Nat
  ReportIDsLength : Nat
  deriving DecidableEq, Repr

/-- A call that leaves `hidparser.c`, with the arguments that matter here.
`Alloc` carries the requested size and the address returned (`0` for `NULL`). -/
inductive Call where
  | ParseReportDescriptor
  | Debug
  | NumberOfTopCollections
  | Zero
  | Alloc (Size Pointer : Nat)
  | Free (Pointer : Nat)
  | GetReportLength (ReportType : HID_REPORT_TYPE)
  | GetCollectionUsagePage (CollectionIndex : Nat)
  | GetContextSize
  | Copy (Destination Length : Nat)
  | FreeContext (Context ContextLength : Nat)
  | ExFreePool (Pointer : Nat)
  deriving DecidableEq, Repr

/-- What the world outside `hidparser.c` answers during one call: the results of
the parser routines for the descriptor at hand, the bytes of `Parser->ParserContext`,
whether the allocation number `n` (of `Size` bytes) succeeds, the two `sizeof`
constants, and the unspecified contents of freshly allocated array entries. -/
structure HID_PARSER where
  ParseReportDescriptor : List Nat → Nat → HIDPARSER_STATUS
  NumberOfTopCollections : Nat
  GetReportLength : HID_REPORT_TYPE → Nat
  GetCollectionUsagePage : Nat → USAGE → USAGE → HIDPARSER_STATUS × USAGE × USAGE
  GetContextSize : Nat
  ParserContext : Nat → Nat
  AllocSucceeds : Nat → Nat → Bool
  sizeofCollectionDesc : Nat
  sizeofReportIDs : Nat
  FreshCollectionDesc : Nat → HIDP_COLLECTION_DESC
  FreshReportIDs : Nat → HIDP_REPORT_IDS

/-- The memory a call works on: the calls made so far (oldest first), the number of
`Parser->Alloc` calls so far, the caller's record, the contents of the two blocks
its pointers refer to (empty when there is no such block), and the blobs written
so far (address and bytes, newest first). -/
structure Memory where
  Calls : List Call
  Allocations : Nat
  Description : HIDP_DEVICE_DESC
  CollectionDescArray : List HIDP_COLLECTION_DESC
  ReportIDsArray : List HIDP_REPORT_IDS
  Blobs : List (Nat × List Nat)
  deriving DecidableEq, Repr

/-- Records one call. -/
def Memory.log (m : Memory) (c : Call) : Memory :=
  { m with Calls := m.Calls ++ [c] }

/-- `Parser->Alloc(Size)`: allocation number `n` returns the fresh address `n + 1`
when it succeeds and `NULL` when it fails. -/
def Alloc (Parser : HID_PARSER) (Size : Nat) (m : Memory) : Nat × Memory :=
  let Pointer := if Parser.AllocSucceeds m.Allocations Size then m.Allocations + 1 else 0
  (Pointer, { m with Calls := m.Calls ++ [Call.Alloc Size Pointer],
                     Allocations := m.Allocations + 1 })

/-- Body of the `for` loop of `HidParser_GetCollectionDescription` (lines 117-159)
for one `Index`.  Yields `some Status` when the body returns from the function. -/
def populateEntry (Parser : HID_PARSER) (Index : Nat) (m : Memory) :
    Option (Option NTSTATUS × Memory) :=
  match m.ReportIDsArray[Index]?, m.CollectionDescArray[Index]? with
  | some r, some e =>
    let r1 : HIDP_REPORT_IDS :=
      { r with CollectionNumber := Index + 1, ReportID := Index,
               InputLength := Parser.GetReportLength HID_REPORT_TYPE_INPUT,
               OutputLength := Parser.GetReportLength HID_REPORT_TYPE_OUTPUT,
               FeatureLength := Parser.GetReportLength HID_REPORT_TYPE_FEATURE }
    let page := Parser.GetCollectionUsagePage Index e.Usage e.UsagePage
    let e1 : HIDP_COLLECTION_DESC :=
      { e with CollectionNumber := Index + 1, Usage := page.2.1, UsagePage := page.2.2,
               InputLength := if r1.InputLength > 0 then r1.InputLength + 1 else 0,
               OutputLength := if r1.OutputLength > 0 then r1.OutputLength + 1 else 0,
               FeatureLength := if r1.FeatureLength > 0 then r1.FeatureLength + 1 else 0,
               PreparsedDataLength := Parser.GetContextSize }
    let m1 : Memory :=
      { m with Calls := m.Calls ++ [Call.GetReportLength HID_REPORT_TYPE_INPUT,
                  Call.GetReportLength HID_REPORT_TYPE_OUTPUT,
                  Call.GetReportLength HID_REPORT_TYPE_FEATURE,
                  Call.GetCollectionUsagePage Index, Call.GetContextSize] }
    let a := Alloc Parser e1.PreparsedDataLength m1
    let m2 : Memory :=
      { a.2 with ReportIDsArray := m.ReportIDsArray.set Index r1,
                 CollectionDescArray :=
                   m.CollectionDescArray.set Index { e1 with PreparsedData := a.1 } }
    if a.1 = 0 then some (some STATUS_INSUFFICIENT_RESOURCES, m2)
    else
      some (none,
        { m2 with Calls := m2.Calls ++ [Call.Copy a.1 e1.PreparsedDataLength],
                  Blobs := (a.1, (List.range e1.PreparsedDataLength).map Parser.ParserContext)
                            :: m2.Blobs })
  | _, _ => none

/-- The `for (Index = 0; Index < CollectionCount; Index++)` loop of
`HidParser_GetCollectionDescription` (lines 115-160), from `Index` on. -/
def populateLoop (Parser : HID_PARSER) (CollectionCount : Nat) :
    Nat → Nat → Memory → Option (Option NTSTATUS × Memory)
  | 0, Index, m => if Index < CollectionCount then none else some (none, m)
  | fuel + 1, Index, m =>
    if Index < CollectionCount then
      match populateEntry Parser Index m with
      | none => none
      | some (some Status, m1) => some (some Status, m1)
      | some (none, m1) => populateLoop Parser CollectionCount fuel (Index + 1) m1
    else some (none, m)

/-- `HidParser_GetCollectionDescription` (lines 42-172).  The `PoolType` argument is
not used by the source and is left out.  Yields the returned status and the
memory left behind; `none` when an assertion fails or an array access leaves its
block. -/
def HidParser_GetCollectionDescription (Checked : Bool) (Parser : HID_PARSER)
    (ReportDesc : List Nat) (DescLength : Nat) (m : Memory) : Option (NTSTATUS × Memory) :=
  let m0 := m.log Call.ParseReportDescriptor
  let ParserStatus := Parser.ParseReportDescriptor ReportDesc DescLength
  if ParserStatus ≠ HIDPARSER_STATUS.SUCCESS then
    some (TranslateHidParserStatus ParserStatus, m0.log Call.Debug)
  else
    let m1 := m0.log Call.NumberOfTopCollections
    let CollectionCount := Parser.NumberOfTopCollections
    if Checked = true ∧ ¬ CollectionCount ≤ 1 then none
    else if CollectionCount = 0 then some (STATUS_NO_DATA_DETECTED, m1)
    else
      let m2 : Memory :=
        { m1.log Call.Zero with Description := ⟨0, 0, 0, 0⟩, CollectionDescArray := [],
                                ReportIDsArray := [] }
      let a := Alloc Parser (Parser.sizeofCollectionDesc * CollectionCount) m2
      let m3 : Memory :=
        { a.2 with Description := { a.2.Description with CollectionDesc := a.1 },
                   CollectionDescArray :=
                     if a.1 = 0 then []
                     else (List.range CollectionCount).map Parser.FreshCollectionDesc }
      if a.1 = 0 then some (STATUS_INSUFFICIENT_RESOURCES, m3)
      else
        let b := Alloc Parser (Parser.sizeofReportIDs * CollectionCount) m3
        let m4 : Memory :=
          { b.2 with Description := { b.2.Description with ReportIDs := b.1 },
                     ReportIDsArray :=
                       if b.1 = 0 then []
                       else (List.range CollectionCount).map Parser.FreshReportIDs }
        if b.1 = 0 then
          some (STATUS_INSUFFICIENT_RESOURCES,
            { m4.log (Call.Free m4.Description.CollectionDesc) with CollectionDescArray := [] })
        else
          match populateLoop Parser CollectionCount CollectionCount 0 m4 with
          | none => none
          | some (some Status, m5) => some (Status, m5)
          | some (none, m5) =>
            some (STATUS_SUCCESS,
              { m5 with Description :=
                  { m5.Description with CollectionDescLength := CollectionCount,
                                        ReportIDsLength := CollectionCount } })

/-- The `for` loop of `HidParser_FreeCollectionDescription` (lines 185-191), from
`Index` on: one `HidParser_FreeContext` call per entry. -/
def freeContextLoop : Nat → Nat → Memory → Option Memory
  | 0, Index, m => if Index < m.Description.CollectionDescLength then none else some m
  | fuel + 1, Index, m =>
    if Index < m.Description.CollectionDescLength then
      match m.CollectionDescArray[Index]? with
      | none => none
      | some e =>
        freeContextLoop fuel (Index + 1)
          (m.log (Call.FreeContext e.PreparsedData e.PreparsedDataLength))
    else some m

/-- `HidParser_FreeCollectionDescription` (lines 174-202): the blobs go to
`HidParser_FreeContext`, the capability array to `Parser->Free`, the identity array
to `ExFreePool`. -/
def HidParser_FreeCollectionDescription (m : Memory) : Option Memory :=
  match freeContextLoop m.Description.CollectionDescLength 0 m with
  | none => none
  | some m1 =>
    let m2 : Memory := { m1.log (Call.Free m1.Description.CollectionDesc) with
                          CollectionDescArray := [] }
    some { m2.log (Call.ExFreePool m2.Description.ReportIDs) with ReportIDsArray := [] }

/-- The blocks that the injected allocator (`Parser->Alloc`, `Parser->Free`) has
handed out and not got back after the calls `Calls`, oldest first.
`HidParser_FreeContext` is not among the given sources: whether a call of it hands
its block back to `Parser->Free` is the parameter `FreeContextReleases`.
`ExFreePool` does not go through the injected allocator. -/
def outstanding (FreeContextReleases : Bool) (Calls : List Call) : List Nat :=
  Calls.foldl (fun Live c =>
    match c with
    | Call.Alloc _ Pointer => if Pointer = 0 then Live else Live ++ [Pointer]
    | Call.Free Pointer => Live.erase Pointer
    | Call.FreeContext Context _ => if FreeContextReleases then Live.erase Context else Live
    | _ => Live) []

/-- A parser with `Collections` top-level collections, report lengths 8 (input), 0 (output)
and 3 (feature), a context of 4 bytes, and an allocator that never fails: the
concrete input of the examples. -/
def sampleParser (Collections : Nat) : HID_PARSER where
  ParseReportDescriptor := fun _ _ => HIDPARSER_STATUS.SUCCESS
  NumberOfTopCollections := Collections
  GetReportLength := fun t =>
    match t with
    | HID_REPORT_TYPE_INPUT => 8
    | HID_REPORT_TYPE_OUTPUT => 0
    | HID_REPORT_TYPE_FEATURE => 3
  GetCollectionUsagePage := fun i _ _ => (HIDPARSER_STATUS.SUCCESS, 6 + i, 1)
  GetContextSize := 4
  ParserContext := fun i => 10 + i
  AllocSucceeds := fun _ _ => true
  sizeofCollectionDesc := 32
  sizeofReportIDs := 8
  FreshCollectionDesc := fun _ => ⟨0, 0, 0, 0, 0, 0, 0, 0⟩
  FreshReportIDs := fun _ => ⟨0, 0, 0, 0, 0⟩

/-- A memory in which nothing has happened yet; the caller's record holds
arbitrary values. -/
def emptyMemory : Memory :=
  { Calls := [], Allocations := 0, Description := ⟨77, 77, 77, 77⟩,
    CollectionDescArray := [], ReportIDsArray := [], Blobs := [] }

/-! ## Report-type dispatchers

The type-specific routines (`HidParser_GetSpecificValueCapsWithReport`, ...) are not
in `hidparser.c`: each is a parameter, a function from its arguments and the state
`σ` of everything it may touch (the output buffers among them) to its status and
the state it leaves. -/

/-- Public report type `HIDP_REPORT_TYPE`: its three enumerators, and `Other` for
every other value. -/
inductive HIDP_REPORT_TYPE where
  | HidP_Input
  | HidP_Output
  | HidP_Feature
  | Other (code : Int)
  deriving DecidableEq, Repr

/-- A `LinkCollection` argument: the constant `HIDP_LINK_COLLECTION_UNSPECIFIED`, or
any other value. -/
inductive LINK_COLLECTION where
  | HIDP_LINK_COLLECTION_UNSPECIFIED
  | Specific (LinkCollection : Nat)
  deriving DecidableEq, Repr

/-- Tail shared by the dispatchers (lines 387-398, 579-590, 642-653): success is
returned as `HIDP_STATUS_SUCCESS`, everything else is translated. -/
def finishDispatch {σ : Type} (r : HIDPARSER_STATUS × σ) : NTSTATUS × σ :=
  if r.1 = HIDPARSER_STATUS.SUCCESS then (HIDP_STATUS_SUCCESS, r.2)
  else (TranslateHidParserStatus r.1, r.2)

/-- `HidParser_GetSpecificValueCaps` (lines 338-399). -/
def HidParser_GetSpecificValueCaps {σ : Type} (Checked : Bool)
    (HidParser_GetSpecificValueCapsWithReport :
      HID_REPORT_TYPE → USAGE → USAGE → σ → HIDPARSER_STATUS × σ)
    (ReportType : HIDP_REPORT_TYPE) (UsagePage : USAGE) (LinkCollection : LINK_COLLECTION)
    (Usage : USAGE) (s : σ) : Option (NTSTATUS × σ) :=
  if Checked = true ∧ LinkCollection ≠ LINK_COLLECTION.HIDP_LINK_COLLECTION_UNSPECIFIED then none
  else
    match ReportType with
    | .HidP_Input =>
      some (finishDispatch
        (HidParser_GetSpecificValueCapsWithReport HID_REPORT_TYPE_INPUT UsagePage Usage s))
    | .HidP_Output =>
      some (finishDispatch
        (HidParser_GetSpecificValueCapsWithReport HID_REPORT_TYPE_OUTPUT UsagePage Usage s))
    | .HidP_Feature =>
      some (finishDispatch
        (HidParser_GetSpecificValueCapsWithReport HID_REPORT_TYPE_FEATURE UsagePage Usage s))
    | _ => some (HIDP_STATUS_INVALID_REPORT_TYPE, s)

/-- `HidParser_GetUsages` (lines 530-591). -/
def HidParser_GetUsages {σ : Type} (Checked : Bool)
    (HidParser_GetUsagesWithReport :
      HID_REPORT_TYPE → USAGE → List Nat → Nat → σ → HIDPARSER_STATUS × σ)
    (ReportType : HIDP_REPORT_TYPE) (UsagePage : USAGE) (LinkCollection : LINK_COLLECTION)
    (Report : List Nat) (ReportLength : Nat) (s : σ) : Option (NTSTATUS × σ) :=
  if Checked = true ∧ LinkCollection ≠ LINK_COLLECTION.HIDP_LINK_COLLECTION_UNSPECIFIED then none
  else
    match ReportType with
    | .HidP_Input =>
      some (finishDispatch
        (HidParser_GetUsagesWithReport HID_REPORT_TYPE_INPUT UsagePage Report ReportLength s))
    | .HidP_Output =>
      some (finishDispatch
        (HidParser_GetUsagesWithReport HID_REPORT_TYPE_OUTPUT UsagePage Report ReportLength s))
    | .HidP_Feature =>
      some (finishDispatch
        (HidParser_GetUsagesWithReport HID_REPORT_TYPE_FEATURE UsagePage Report ReportLength s))
    | _ => some (HIDP_STATUS_INVALID_REPORT_TYPE, s)

/-- `HidParser_GetScaledUsageValue` (lines 593-654). -/
def HidParser_GetScaledUsageValue {σ : Type} (Checked : Bool)
    (HidParser_GetScaledUsageValueWithReport :
      HID_REPORT_TYPE → USAGE → USAGE → List Nat → Nat → σ → HIDPARSER_STATUS × σ)
    (ReportType : HIDP_REPORT_TYPE) (UsagePage : USAGE) (LinkCollection : LINK_COLLECTION)
    (Usage : USAGE) (Report : List Nat) (ReportLength : Nat) (s : σ) : Option (NTSTATUS × σ) :=
  if Checked = true ∧ LinkCollection ≠ LINK_COLLECTION.HIDP_LINK_COLLECTION_UNSPECIFIED then none
  else
    match ReportType with
    | .HidP_Input =>
      some (finishDispatch (HidParser_GetScaledUsageValueWithReport HID_REPORT_TYPE_INPUT
        UsagePage Usage Report ReportLength s))
    | .HidP_Output =>
      some (finishDispatch (HidParser_GetScaledUsageValueWithReport HID_REPORT_TYPE_OUTPUT
        UsagePage Usage Report ReportLength s))
    | .HidP_Feature =>
      some (finishDispatch (HidParser_GetScaledUsageValueWithReport HID_REPORT_TYPE_FEATURE
        UsagePage Usage Report ReportLength s))
    | _ => some (HIDP_STATUS_INVALID_REPORT_TYPE, s)

/-- `HidParser_GetUsagesEx` (lines 727-740): `HidParser_GetUsages` with usage page
`HID_USAGE_PAGE_UNDEFINED`, a constant declared outside the given sources and
taken as a parameter. -/
def HidParser_GetUsagesEx {σ : Type} (Checked : Bool) (HID_USAGE_PAGE_UNDEFINED : USAGE)
    (HidParser_GetUsagesWithReport :
      HID_REPORT_TYPE → USAGE → List Nat → Nat → σ → HIDPARSER_STATUS × σ)
    (ReportType : HIDP_REPORT_TYPE) (LinkCollection : LINK_COLLECTION)
    (Report : List Nat) (ReportLength : Nat) (s : σ) : Option (NTSTATUS × σ) :=
  HidParser_GetUsages Checked HidParser_GetUsagesWithReport ReportType HID_USAGE_PAGE_UNDEFINED
    LinkCollection Report ReportLength s

/-! ## Scan-code translation -/

/-- Direction of a key transition, `HIDP_KEYBOARD_DIRECTION`. -/
inductive HIDP_KEYBOARD_DIRECTION where
  | HidP_Keyboard_Break
  | HidP_Keyboard_Make
  deriving DecidableEq, Repr

/-- The `for` loop of `HidParser_TranslateUsageAndPagesToI8042ScanCodes` (lines
671-710), from `Index` on.  `HidParser_TranslateUsage` is not in `hidparser.c` and
is a parameter acting on the state `σ` (modifier state, scan codes inserted so
far, whatever else it touches); the two usage-page constants are parameters as
well.  Yields `some` public status when the loop returns from the function, and
the value of `Status` together with the state. -/
def translateLoop {σ : Type} (HID_USAGE_PAGE_KEYBOARD HID_USAGE_PAGE_CONSUMER : USAGE)
    (HidParser_TranslateUsage : USAGE → HIDP_KEYBOARD_DIRECTION → σ → HIDPARSER_STATUS × σ)
    (ChangedUsageList : List USAGE_AND_PAGE) (UsageListLength : Nat)
    (KeyAction : HIDP_KEYBOARD_DIRECTION) :
    Nat → Nat → HIDPARSER_STATUS → σ → Option (Option NTSTATUS × HIDPARSER_STATUS × σ)
  | 0, Index, Status, s => if Index < UsageListLength then none else some (none, Status, s)
  | fuel + 1, Index, Status, s =>
    if Index < UsageListLength then
      match ChangedUsageList[Index]? with
      | none => none
      | some Entry =>
        let forwarded : Option (HIDPARSER_STATUS × σ) :=
          if Entry.UsagePage = HID_USAGE_PAGE_KEYBOARD then
            some (HidParser_TranslateUsage Entry.Usage KeyAction s)
          else if Entry.UsagePage = HID_USAGE_PAGE_CONSUMER then
            some (HIDPARSER_STATUS.NOT_IMPLEMENTED, s)
          else none
        match forwarded with
        | none => some (some HIDP_STATUS_I8042_TRANS_UNKNOWN, Status, s)
        | some r =>
          if r.1 ≠ HIDPARSER_STATUS.SUCCESS then
            some (some (TranslateHidParserStatus r.1), r.1, r.2)
          else
            translateLoop HID_USAGE_PAGE_KEYBOARD HID_USAGE_PAGE_CONSUMER HidParser_TranslateUsage
              ChangedUsageList UsageListLength KeyAction fuel (Index + 1) r.1 r.2
    else some (none, Status, s)

/-- `HidParser_TranslateUsageAndPagesToI8042ScanCodes` (lines 656-724). -/
def HidParser_TranslateUsageAndPagesToI8042ScanCodes {σ : Type}
    (HID_USAGE_PAGE_KEYBOARD HID_USAGE_PAGE_CONSUMER : USAGE)
    (HidParser_TranslateUsage : USAGE → HIDP_KEYBOARD_DIRECTION → σ → HIDPARSER_STATUS × σ)
    (ChangedUsageList : List USAGE_AND_PAGE) (UsageListLength : Nat)
    (KeyAction : HIDP_KEYBOARD_DIRECTION) (s : σ) : Option (NTSTATUS × σ) :=
  match translateLoop HID_USAGE_PAGE_KEYBOARD HID_USAGE_PAGE_CONSUMER HidParser_TranslateUsage
      ChangedUsageList UsageListLength KeyAction UsageListLength 0 HIDPARSER_STATUS.SUCCESS s with
  | none => none
  | some (some Result, _, s1) => some (Result, s1)
  | some (none, Status, s1) =>
    if Status ≠ HIDPARSER_STATUS.SUCCESS then some (TranslateHidParserStatus Status, s1)
    else some (HIDP_STATUS_SUCCESS, s1)

/-- The state left by forwarding every entry of `Entries`, in order, to
`HidParser_TranslateUsage`. -/
def forwardAll {σ : Type}
    (HidParser_TranslateUsage : USAGE → HIDP_KEYBOARD_DIRECTION → σ → HIDPARSER_STATUS × σ)
    (KeyAction : HIDP_KEYBOARD_DIRECTION) : List USAGE_AND_PAGE → σ → σ
  | [], s => s
  | Entry :: Entries, s =>
    forwardAll HidParser_TranslateUsage KeyAction Entries
      (HidParser_TranslateUsage Entry.Usage KeyAction s).2

/-- Whether `HidParser_TranslateUsage` reports success for every entry of `Entries`
when they are forwarded in order. -/
def acceptsAll {σ : Type}
    (HidParser_TranslateUsage : USAGE → HIDP_KEYBOARD_DIRECTION → σ → HIDPARSER_STATUS × σ)
    (KeyAction : HIDP_KEYBOARD_DIRECTION) : List USAGE_AND_PAGE → σ → Bool
  | [], _ => true
  | Entry :: Entries, s =>
    decide ((HidParser_TranslateUsage Entry.Usage KeyAction s).1 = HIDPARSER_STATUS.SUCCESS) &&
      acceptsAll HidParser_TranslateUsage KeyAction Entries
        (HidParser_TranslateUsage Entry.Usage KeyAction s).2

/-- Index `i` of the description in `m` is fully populated from `Parser`: both
entries carry collection number `i + 1`, the identity entry carries report ID `i`
and the raw report lengths, the capability entry carries the lengths with one
added where they are not zero and the context size, and its blob pointer is not
`NULL` and refers to a blob allocated so far that holds the first
`Parser.GetContextSize` bytes of the parser context. -/
def populated (Parser : HID_PARSER) (m : Memory) (i : Nat) : Prop :=
  ∃ r e, m.ReportIDsArray[i]? = some r ∧ m.CollectionDescArray[i]? = some e ∧
    r.ReportID = i ∧ r.CollectionNumber = i + 1 ∧
    r.InputLength = Parser.GetReportLength HID_REPORT_TYPE_INPUT ∧
    r.OutputLength = Parser.GetReportLength HID_REPORT_TYPE_OUTPUT ∧
    r.FeatureLength = Parser.GetReportLength HID_REPORT_TYPE_FEATURE ∧
    e.CollectionNumber = i + 1 ∧
    e.InputLength = (if Parser.GetReportLength HID_REPORT_TYPE_INPUT = 0 then 0
      else Parser.GetReportLength HID_REPORT_TYPE_INPUT + 1) ∧
    e.OutputLength = (if Parser.GetReportLength HID_REPORT_TYPE_OUTPUT = 0 then 0
      else Parser.GetReportLength HID_REPORT_TYPE_OUTPUT + 1) ∧
    e.FeatureLength = (if Parser.GetReportLength HID_REPORT_TYPE_FEATURE = 0 then 0
      else Parser.GetReportLength HID_REPORT_TYPE_FEATURE + 1) ∧
    e.PreparsedDataLength = Parser.GetContextSize ∧
    e.PreparsedData ≠ 0 ∧ e.PreparsedData ≤ m.Allocations ∧
    m.Blobs.lookup e.PreparsedData
      = some ((List.range Parser.GetContextSize).map Parser.ParserContext)

/-- The memory in which the `for` loop of `HidParser_GetCollectionDescription`
starts when both arrays have been allocated, the call having started in `m`. -/
def loopStart (Parser : HID_PARSER) (m : Memory) : Memory :=
  { Calls := m.Calls ++ [Call.ParseReportDescriptor, Call.NumberOfTopCollections, Call.Zero,
      Call.Alloc (Parser.sizeofCollectionDesc * Parser.NumberOfTopCollections)
        (m.Allocations + 1),
      Call.Alloc (Parser.sizeofReportIDs * Parser.NumberOfTopCollections) (m.Allocations + 2)],
    Allocations := m.Allocations + 2,
    Description := ⟨m.Allocations + 1, 0, m.Allocations + 2, 0⟩,
    CollectionDescArray := (List.range Parser.NumberOfTopCollections).map Parser.FreshCollectionDesc,
    ReportIDsArray := (List.range Parser.NumberOfTopCollections).map Parser.FreshReportIDs,
    Blobs := m.Blobs }

/-- The batch translation as a recursion over the entries: the first entry that is
not a keyboard-page entry accepted by `HidParser_TranslateUsage` decides the
result.  Used to reason about `translateLoop`, which is shown equal to it. -/
def translateAll {σ : Type} (HID_USAGE_PAGE_KEYBOARD HID_USAGE_PAGE_CONSUMER : USAGE)
    (HidParser_TranslateUsage : USAGE → HIDP_KEYBOARD_DIRECTION → σ → HIDPARSER_STATUS × σ)
    (KeyAction : HIDP_KEYBOARD_DIRECTION) : List USAGE_AND_PAGE → σ → NTSTATUS × σ
  | [], s => (HIDP_STATUS_SUCCESS, s)
  | Entry :: Entries, s =>
    if Entry.UsagePage = HID_USAGE_PAGE_KEYBOARD then
      if (HidParser_TranslateUsage Entry.Usage KeyAction s).1 = HIDPARSER_STATUS.SUCCESS then
        translateAll HID_USAGE_PAGE_KEYBOARD HID_USAGE_PAGE_CONSUMER HidParser_TranslateUsage
          KeyAction Entries (HidParser_TranslateUsage Entry.Usage KeyAction s).2
      else
        (TranslateHidParserStatus (HidParser_TranslateUsage Entry.Usage KeyAction s).1,
          (HidParser_TranslateUsage Entry.Usage KeyAction s).2)
    else if Entry.UsagePage = HID_USAGE_PAGE_CONSUMER then (HIDP_STATUS_NOT_IMPLEMENTED, s)
    else (HIDP_STATUS_I8042_TRANS_UNKNOWN, s)

/-- The internal report type a public report type is dispatched to, if any. -/
def internalReportType : HIDP_REPORT_TYPE → Option HID_REPORT_TYPE
  | .HidP_Input => some HID_REPORT_TYPE_INPUT
  | .HidP_Output => some HID_REPORT_TYPE_OUTPUT
  | .HidP_Feature => some HID_REPORT_TYPE_FEATURE
  | .Other _ => none

/-- A stand-in for `HidParser_TranslateUsage` in examples: the state is the list of
usages forwarded so far; usage `99` is rejected with `USAGE_NOT_FOUND` (and
recorded all the same), every other usage is accepted. -/
def sampleTranslateUsage (Usage : USAGE) (_KeyAction : HIDP_KEYBOARD_DIRECTION)
    (s : List USAGE) : HIDPARSER_STATUS × List USAGE :=
  (if Usage = 99 then HIDPARSER_STATUS.USAGE_NOT_FOUND else HIDPARSER_STATUS.SUCCESS,
    s ++ [Usage])

/-- The memory that `HidParser_GetCollectionDescription` leaves when it is run on
`sampleParser 1` in `emptyMemory`. -/
def sampleBuilt : Memory :=
  { Calls := [Call.ParseReportDescriptor, Call.NumberOfTopCollections, Call.Zero,
      Call.Alloc 32 1, Call.Alloc 8 2,
      Call.GetReportLength HID_REPORT_TYPE_INPUT, Call.GetReportLength HID_REPORT_TYPE_OUTPUT,
      Call.GetReportLength HID_REPORT_TYPE_FEATURE, Call.GetCollectionUsagePage 0,
      Call.GetContextSize, Call.Alloc 4 3, Call.Copy 3 4],
    Allocations := 3,
    Description := ⟨1, 1, 2, 1⟩,
    CollectionDescArray := [⟨1, 6, 1, 9, 0, 4, 4, 3⟩],
    ReportIDsArray := [⟨0, 1, 8, 0, 3⟩],
    Blobs := [(3, [10, 11, 12, 13])] }

/-! ## Capability summary and maximal usage list length -/

/-- The fields of `HIDP_CAPS` that `HidParser_GetCaps` assigns. -/
structure HIDP_CAPS where
  Usage : USAGE
  UsagePage : USAGE
  InputReportByteLength : Nat
  OutputReportByteLength : Nat
  FeatureReportByteLength : Nat
  NumberLinkCollectionNodes : Nat
  NumberInputButtonCaps : Nat
  NumberInputValueCaps : Nat
  NumberInputDataIndices : Nat
  NumberOutputButtonCaps : Nat
  NumberOutputValueCaps : Nat
  NumberOutputDataIndices : Nat
  NumberFeatureButtonCaps : Nat
  NumberFeatureValueCaps : Nat
  NumberFeatureDataIndices : Nat
  deriving DecidableEq, Repr

/-- `HidParser_GetCaps` (lines 204-268).  The routines `HidParser_GetTotalCollectionCount`,
`HidParser_GetReportItemTypeCountFromReportType` and
`HidParser_GetReportItemCountFromReportType` are not in `hidparser.c`; what they
answer is a parameter.  The record the caller passes is zeroed first, so that
`HidParser_GetCollectionUsagePage` finds zeros in the two fields it is given. -/
def HidParser_GetCaps (Parser : HID_PARSER) (HidParser_GetTotalCollectionCount : Nat)
    (HidParser_GetReportItemTypeCountFromReportType : HID_REPORT_TYPE → Bool → Nat)
    (HidParser_GetReportItemCountFromReportType : HID_REPORT_TYPE → Nat)
    (_Capabilities : HIDP_CAPS) : NTSTATUS × HIDP_CAPS :=
  let c0 : HIDP_CAPS := ⟨0, 0, 0, 0, 0, 0, 0, 0, 0, 0, 0, 0, 0, 0, 0⟩
  let CollectionNumber := 0
  let page := Parser.GetCollectionUsagePage CollectionNumber c0.Usage c0.UsagePage
  let c1 : HIDP_CAPS :=
    { c0 with Usage := page.2.1, UsagePage := page.2.2,
              InputReportByteLength := Parser.GetReportLength HID_REPORT_TYPE_INPUT,
              OutputReportByteLength := Parser.GetReportLength HID_REPORT_TYPE_OUTPUT,
              FeatureReportByteLength := Parser.GetReportLength HID_REPORT_TYPE_FEATURE }
  let c2 : HIDP_CAPS :=
    { c1 with
      InputReportByteLength :=
        if c1.InputReportByteLength > 0 then c1.InputReportByteLength + 1 else 0,
      OutputReportByteLength :=
        if c1.OutputReportByteLength > 0 then c1.OutputReportByteLength + 1 else 0,
      FeatureReportByteLength :=
        if c1.FeatureReportByteLength > 0 then c1.FeatureReportByteLength + 1 else 0 }
  (HIDP_STATUS_SUCCESS,
    { c2 with
      NumberLinkCollectionNodes := HidParser_GetTotalCollectionCount,
      NumberInputDataIndices :=
        HidParser_GetReportItemTypeCountFromReportType HID_REPORT_TYPE_INPUT true,
      NumberOutputDataIndices :=
        HidParser_GetReportItemTypeCountFromReportType HID_REPORT_TYPE_OUTPUT true,
      NumberFeatureDataIndices :=
        HidParser_GetReportItemTypeCountFromReportType HID_REPORT_TYPE_FEATURE true,
      NumberInputValueCaps :=
        HidParser_GetReportItemTypeCountFromReportType HID_REPORT_TYPE_INPUT false,
      NumberOutputValueCaps :=
        HidParser_GetReportItemTypeCountFromReportType HID_REPORT_TYPE_OUTPUT false,
      NumberFeatureValueCaps :=
        HidParser_GetReportItemTypeCountFromReportType HID_REPORT_TYPE_FEATURE false,
      NumberInputButtonCaps := HidParser_GetReportItemCountFromReportType HID_REPORT_TYPE_INPUT,
      NumberOutputButtonCaps := HidParser_GetReportItemCountFromReportType HID_REPORT_TYPE_OUTPUT,
      NumberFeatureButtonCaps :=
        HidParser_GetReportItemCountFromReportType HID_REPORT_TYPE_FEATURE })

/-- `HidParser_MaxUsageListLength` (lines 270-322).  The constant
`HID_USAGE_PAGE_UNDEFINED` and the routine
`HidParser_GetMaxUsageListLengthWithReportAndPage` are not in `hidparser.c` and are
parameters; the routine acts on the state `σ` of whatever it touches. -/
def HidParser_MaxUsageListLength {σ : Type} (HID_USAGE_PAGE_UNDEFINED : USAGE)
    (HidParser_GetMaxUsageListLengthWithReportAndPage : HID_REPORT_TYPE → USAGE → σ → Nat × σ)
    (ReportType : HIDP_REPORT_TYPE) (UsagePage : USAGE) (s : σ) : Nat × σ :=
  if UsagePage = HID_USAGE_PAGE_UNDEFINED then (0, s)
  else
    match ReportType with
    | .HidP_Input =>
      HidParser_GetMaxUsageListLengthWithReportAndPage HID_REPORT_TYPE_INPUT UsagePage s
    | .HidP_Output =>
      HidParser_GetMaxUsageListLengthWithReportAndPage HID_REPORT_TYPE_OUTPUT UsagePage s
    | .HidP_Feature =>
      HidParser_GetMaxUsageListLengthWithReportAndPage HID_REPORT_TYPE_FEATURE UsagePage s
    | _ => (0, s)

/-- The addresses of the blocks that the `Alloc` calls among `Calls` returned, in
order; failed allocations are left out. -/
def allocated : List Call → List Nat
  | [] => []
  | Call.Alloc _ Pointer :: Calls =>
    if Pointer = 0 then allocated Calls else Pointer :: allocated Calls
  | _ :: Calls => allocated Calls

/-- Whether `c` hands a block back: a `Free`, `FreeContext` or `ExFreePool` call. -/
def Call.releases : Call → Bool
  | Call.Free _ => true
  | Call.FreeContext _ _ => true
  | Call.ExFreePool _ => true
  | _ => false
/-! ## Auxiliary facts about lists and buffers -/

section Aux

variable {α : Type}

theorem drop_take_cons (L : List α) (N i : Nat) (hi : i < N) (hN : N ≤ L.length) :
    (L.take N).drop i = L[i] :: (L.take N).drop (i + 1) := by
  have h : i < (L.take N).length := by simp; omega
  rw [List.drop_eq_getElem_cons h, List.getElem_take]

theorem drop_take_self (L : List α) (N : Nat) : (L.take N).drop N = [] := by
  simp [List.drop_eq_nil_iff]

theorem effective_length_le (isEnd : α → Bool) (N : Nat) (L : List α) :
    (effective isEnd N L).length ≤ N := by
  unfold effective
  have h1 := (List.takeWhile_sublist (l := L.take N) (fun x => !isEnd x)).length_le
  have h2 : (L.take N).length ≤ N := by simp
  omega

theorem absentFrom_length_le [DecidableEq α] (isEnd : α → Bool) (N : Nat) (A B : List α) :
    (absentFrom isEnd N A B).length ≤ N := by
  unfold absentFrom
  have h1 := List.length_filter_le (fun x => decide (x ∉ effective isEnd N B)) (effective isEnd N A)
  have h2 := effective_length_le isEnd N A
  omega

theorem zeroFilled_length (zero : α) (N : Nat) (l : List α) (h : l.length ≤ N) :
    (zeroFilled zero N l).length = N := by
  simp [zeroFilled]; omega

end Aux

/-! ## The inner loops decide membership among the effective entries -/

theorem searchUsage_eq (L : List USAGE) (N : Nat) (c : USAGE) (hN : N ≤ L.length) :
    ∀ (fuel i : Nat), i < N → N - i ≤ fuel →
      searchUsage L N c fuel i
        = some (decide (c ∈ ((L.take N).drop i).takeWhile (fun x => !isZeroUsage x))) := by
  intro fuel
  induction fuel with
  | zero => intro i hi hf; omega
  | succ fuel ih =>
    intro i hi hf
    have hL : i < L.length := by omega
    rw [searchUsage, List.getElem?_eq_getElem hL, drop_take_cons L N i hi hN,
      List.takeWhile_cons]
    by_cases h0 : L[i] = 0
    · simp [h0, isZeroUsage]
    · by_cases hc : c = L[i]
      · simp [h0, hc, isZeroUsage]
      · by_cases hlt : i + 1 < N
        · simp only [h0, hc, hlt, if_true, if_false]
          rw [ih (i + 1) hlt (by omega)]
          simp [h0, hc, isZeroUsage]
        · have : i + 1 = N := by omega
          subst this
          simp [h0, hc, isZeroUsage, drop_take_self]

theorem searchUsageAndPage_eq (L : List USAGE_AND_PAGE) (N : Nat) (c : USAGE_AND_PAGE)
    (hN : N ≤ L.length) :
    ∀ (fuel i : Nat) (b : Bool), i < N → N - i ≤ fuel →
      searchUsageAndPage L N c fuel i b
        = some (b || decide (c ∈ ((L.take N).drop i).takeWhile
            (fun x => !isZeroUsageAndPage x))) := by
  intro fuel
  induction fuel with
  | zero => intro i b hi hf; omega
  | succ fuel ih =>
    intro i b hi hf
    have hL : i < L.length := by omega
    rw [searchUsageAndPage, List.getElem?_eq_getElem hL, drop_take_cons L N i hi hN,
      List.takeWhile_cons]
    by_cases h0 : L[i].Usage = 0 ∧ L[i].UsagePage = 0
    · simp [h0, isZeroUsageAndPage]
    · have hc : (L[i].Usage = c.Usage ∧ L[i].UsagePage = c.UsagePage) ↔ c = L[i] := by
        constructor
        · intro h; cases c; cases hx : L[i]; simp_all
        · intro h; rw [h]; exact ⟨rfl, rfl⟩
      by_cases hlt : i + 1 < N
      · simp only [h0, hlt, if_true, if_false]
        rw [ih (i + 1) _ hlt (by omega)]
        by_cases hcc : c = L[i]
        · simp [hc, hcc, isZeroUsageAndPage, h0]
        · simp [hc, hcc, isZeroUsageAndPage, h0]
      · have : i + 1 = N := by omega
        subst this
        by_cases hcc : c = L[i]
        · simp [hc, hcc, isZeroUsageAndPage, h0, drop_take_self]
        · simp [hc, hcc, isZeroUsageAndPage, h0, drop_take_self]

/-! ## The outer loops -/

theorem breakLoop_eq_scanLoop (P C : List USAGE) (N : Nat) :
    ∀ (fuel i k : Nat) (out : List USAGE),
      breakLoop P C N fuel i k out
        = scanLoop isZeroUsage (fun c => searchUsage C N c N 0) store P N fuel i k out := by
  intro fuel
  induction fuel with
  | zero => intro i k out; rfl
  | succ fuel ih =>
    intro i k out
    simp only [breakLoop, scanLoop, ih, isZeroUsage, decide_eq_true_eq]
    cases P[i]? with
    | none => rfl
    | some c =>
      simp only
      split
      · rfl
      · cases searchUsage C N c N 0 with
        | none => rfl
        | some b =>
          cases b
          · simp only [Bool.false_eq_true, if_false]
            cases store out k c <;> rfl
          · rfl

theorem makeLoop_eq_scanLoop (P C : List USAGE) (N : Nat) :
    ∀ (fuel i k : Nat) (out : List USAGE),
      makeLoop P C N fuel i k out
        = scanLoop isZeroUsage (fun c => searchUsage P N c N 0) store C N fuel i k out := by
  intro fuel
  induction fuel with
  | zero => intro i k out; rfl
  | succ fuel ih =>
    intro i k out
    simp only [makeLoop, scanLoop, ih, isZeroUsage, decide_eq_true_eq]
    cases C[i]? with
    | none => rfl
    | some c =>
      simp only
      split
      · rfl
      · cases searchUsage P N c N 0 with
        | none => rfl
        | some b =>
          cases b
          · simp only [Bool.false_eq_true, if_false]
            cases store out k c <;> rfl
          · rfl

theorem breakLoopEx_eq_scanLoop (P C : List USAGE_AND_PAGE) (N : Nat) :
    ∀ (fuel i k : Nat) (out : List USAGE_AND_PAGE),
      breakLoopEx P C N fuel i k out
        = scanLoop isZeroUsageAndPage (fun c => searchUsageAndPage C N c N 0 false)
            storeUsageAndPage P N fuel i k out := by
  intro fuel
  induction fuel with
  | zero => intro i k out; rfl
  | succ fuel ih =>
    intro i k out
    simp only [breakLoopEx, scanLoop, ih, isZeroUsageAndPage, decide_eq_true_eq]
    cases P[i]? with
    | none => rfl
    | some c =>
      simp only
      split
      · rfl
      · cases searchUsageAndPage C N c N 0 false with
        | none => rfl
        | some b =>
          cases b
          · simp only [Bool.false_eq_true, if_false]
            cases storeUsageAndPage out k c <;> rfl
          · rfl

theorem makeLoopEx_eq_scanLoop (P C : List USAGE_AND_PAGE) (N : Nat) :
    ∀ (fuel i k : Nat) (out : List USAGE_AND_PAGE),
      makeLoopEx P C N fuel i k out
        = scanLoop isZeroUsageAndPage (fun c => searchUsageAndPage P N c N 0 false)
            storeUsageAndPage C N fuel i k out := by
  intro fuel
  induction fuel with
  | zero => intro i k out; rfl
  | succ fuel ih =>
    intro i k out
    simp only [makeLoopEx, scanLoop, ih, isZeroUsageAndPage, decide_eq_true_eq]
    cases C[i]? with
    | none => rfl
    | some c =>
      simp only
      split
      · rfl
      · cases searchUsageAndPage P N c N 0 false with
        | none => rfl
        | some b =>
          cases b
          · simp only [Bool.false_eq_true, if_false]
            cases storeUsageAndPage out k c <;> rfl
          · rfl

theorem storeUsageAndPage_eq (buf : List USAGE_AND_PAGE) (j : Nat) (v : USAGE_AND_PAGE)
    (hj : j < buf.length) : storeUsageAndPage buf j v = some (buf.set j v) := by
  simp [storeUsageAndPage, store, hj]

theorem store_eq {α : Type} (buf : List α) (j : Nat) (v : α) (hj : j < buf.length) :
    store buf j v = some (buf.set j v) := by
  simp [store, hj]

theorem set_take_drop {α : Type} (out : List α) (k : Nat) (x : α) (found : List α)
    (hk : k < out.length) :
    (out.set k x).take (k + 1) ++ found ++ (out.set k x).drop (k + 1 + found.length)
      = out.take k ++ x :: found ++ out.drop (k + (x :: found).length) := by
  rw [List.set_eq_take_append_cons_drop, if_pos hk]
  have h1 : (List.take k out).length = k := by simp; omega
  have e1 : (out.take k ++ x :: out.drop (k + 1)) = (out.take k ++ [x]) ++ out.drop (k + 1) := by simp
  have h2 : (out.take k ++ [x]).length = k + 1 := by simp; omega
  rw [e1, List.take_left' h2]
  have e2 : k + 1 + found.length = (k + 1) + found.length := rfl
  rw [← List.drop_drop, List.drop_left' h2, List.drop_drop]
  simp
  congr 1
  omega

/-- The scan loop, started at `i` with `k` entries already stored, appends to
the stored entries the non-sentinel-terminated run of `Source` from `i` filtered by
the search. -/
theorem scanLoop_eq {α : Type} (isEnd : α → Bool) (search : α → Option Bool)
    (mem : α → Bool) (put : List α → Nat → α → Option (List α)) (S : List α) (N : Nat)
    (hsearch : ∀ x, search x = some (mem x))
    (hput : ∀ (buf : List α) (j : Nat) (v : α), j < buf.length → put buf j v = some (buf.set j v))
    (hN : N ≤ S.length) :
    ∀ (fuel i k : Nat) (out : List α), i < N → N - i ≤ fuel → k + (N - i) ≤ out.length →
      scanLoop isEnd search put S N fuel i k out
        = some (k + ((((S.take N).drop i).takeWhile (fun x => !isEnd x)).filter
                      (fun x => !mem x)).length,
                out.take k ++ (((S.take N).drop i).takeWhile (fun x => !isEnd x)).filter
                      (fun x => !mem x)
                  ++ out.drop (k + ((((S.take N).drop i).takeWhile (fun x => !isEnd x)).filter
                      (fun x => !mem x)).length)) := by
  intro fuel
  induction fuel with
  | zero => intro i k out hi hf; omega
  | succ fuel ih =>
    intro i k out hi hf hroom
    have hL : i < S.length := by omega
    rw [scanLoop, List.getElem?_eq_getElem hL, drop_take_cons S N i hi hN,
      List.takeWhile_cons]
    simp only [hsearch]
    by_cases h0 : isEnd S[i] = true
    · simp [h0]
    · simp only [h0, Bool.not_eq_true] at *
      by_cases hm : mem S[i] = true
      · simp only [hm, if_true, Bool.not_false, h0,  List.filter_cons, Bool.not_true,
          Bool.false_eq_true, if_false]
        by_cases hlt : i + 1 < N
        · rw [if_pos hlt, ih (i + 1) k out hlt (by omega) (by omega)]
        · have : i + 1 = N := by omega
          subst this
          simp [drop_take_self]
      · simp only [Bool.not_eq_true] at hm
        have hk : k < out.length := by omega
        simp only [hm, h0, hput out k S[i] hk, Option.map_some', Bool.not_false, if_true,
          List.filter_cons, Bool.false_eq_true, if_false]
        by_cases hlt : i + 1 < N
        · rw [if_pos hlt, ih (i + 1) (k + 1) (out.set k S[i]) hlt (by omega)
            (by simp; omega)]
          rw [set_take_drop out k S[i] _ hk]
          simp [Nat.add_assoc, Nat.add_comm 1]
        · have : i + 1 = N := by omega
          subst this
          simp only [drop_take_self, List.takeWhile_nil, List.filter_nil, List.length_cons,
            List.length_nil, lt_self_iff_false, if_false]
          have := set_take_drop out k S[i] [] hk
          simp at this
          simp [this]

/-! ## The two difference routines compute the reference difference -/

theorem zero_tail {α : Type} (z : α) (N : Nat) (found out : List α)
    (hf : found.length ≤ N) (hN : N ≤ out.length) :
    (if found.length < N then
        RtlZeroMemory z (found ++ out.drop found.length) found.length (N - found.length)
      else some (found ++ out.drop found.length))
      = some (zeroFilled z N found ++ out.drop N) := by
  by_cases h : found.length < N
  · rw [if_pos h, RtlZeroMemory, if_pos (by simp; omega)]
    have e : found.length + (N - found.length) = N := by omega
    rw [e, List.take_left, List.drop_append_eq_append_drop, List.drop_drop]
    have e2 : found.length + (N - found.length) = N := by omega
    simp [zeroFilled, e2, List.drop_eq_nil_iff.mpr (Nat.le_of_lt h)]
  · have e : found.length = N := by omega
    simp [zeroFilled, e]

theorem zero_tail_lt {α : Type} (z : α) (N : Nat) (found out : List α)
    (hf : found.length ≤ N) (hN : N ≤ out.length) (h : found.length < N) :
    RtlZeroMemory z (found ++ out.drop found.length) found.length (N - found.length)
      = some (zeroFilled z N found ++ out.drop N) := by
  have := zero_tail z N found out hf hN
  rwa [if_pos h] at this

theorem zero_tail_ge {α : Type} (z : α) (N : Nat) (found out : List α)
    (hf : found.length ≤ N) (hN : N ≤ out.length) (h : ¬ found.length < N) :
    found ++ out.drop found.length = zeroFilled z N found ++ out.drop N := by
  have := zero_tail z N found out hf hN
  rw [if_neg h] at this
  exact Option.some.inj this

theorem filter_not_mem {α : Type} [DecidableEq α] (isEnd : α → Bool) (N : Nat) (A B : List α) :
    ((((A.take N).drop 0).takeWhile (fun x => !isEnd x)).filter
        (fun x => !decide (x ∈ ((B.take N).drop 0).takeWhile (fun x => !isEnd x))))
      = absentFrom isEnd N A B := by
  simp [absentFrom, effective]

/-- Plain variant, any buffers of at least `N` entries: the call succeeds, the
first `N` entries of each output buffer are the zero-filled reference difference
and the entries from `N` on are left as they were. -/
theorem usageListDifference_eq (P C B M : List USAGE) (N : Nat)
    (hP : N ≤ P.length) (hC : N ≤ C.length) (hB : N ≤ B.length) (hM : N ≤ M.length) :
    HidParser_UsageListDifference P C B M N
      = some ⟨HIDP_STATUS_SUCCESS,
          zeroFilled 0 N (absentFrom isZeroUsage N P C) ++ B.drop N,
          zeroFilled 0 N (absentFrom isZeroUsage N C P) ++ M.drop N⟩ := by
  by_cases h0 : N = 0
  · subst h0
    simp [HidParser_UsageListDifference, zeroFilled, absentFrom, effective]
  · have hpos : 0 < N := Nat.pos_of_ne_zero h0
    have hb := scanLoop_eq isZeroUsage (fun c => searchUsage C N c N 0)
      (fun c => decide (c ∈ ((C.take N).drop 0).takeWhile (fun x => !isZeroUsage x)))
      store P N (fun x => searchUsage_eq C N x hC N 0 hpos (by omega))
      (fun buf j v hj => store_eq buf j v hj) hP N 0 0 B hpos (by omega) (by omega)
    have hm := scanLoop_eq isZeroUsage (fun c => searchUsage P N c N 0)
      (fun c => decide (c ∈ ((P.take N).drop 0).takeWhile (fun x => !isZeroUsage x)))
      store C N (fun x => searchUsage_eq P N x hP N 0 hpos (by omega))
      (fun buf j v hj => store_eq buf j v hj) hC N 0 0 M hpos (by omega) (by omega)
    rw [filter_not_mem] at hb hm
    simp only [Nat.zero_add, List.take_zero, List.nil_append] at hb hm
    have lb := absentFrom_length_le isZeroUsage N P C
    have lm := absentFrom_length_le isZeroUsage N C P
    simp only [HidParser_UsageListDifference, breakLoop_eq_scanLoop, makeLoop_eq_scanLoop,
      hb, hm, h0, ne_eq, not_false_eq_true, if_true, Option.bind_eq_bind, Option.some_bind,
      Option.pure_def, bind_pure_comp, Option.map_eq_map, Option.map_some']
    by_cases cb : (absentFrom isZeroUsage N P C).length < N <;>
      by_cases cm : (absentFrom isZeroUsage N C P).length < N <;>
      simp [cb, cm, zero_tail_lt (0 : USAGE) N _ B lb hB, zero_tail_lt (0 : USAGE) N _ M lm hM,
        ← zero_tail_ge (0 : USAGE) N _ B lb hB, ← zero_tail_ge (0 : USAGE) N _ M lm hM]

/-- Pair variant, any buffers of at least `N` entries. -/
theorem usageAndPageListDifference_eq (P C B M : List USAGE_AND_PAGE) (N : Nat)
    (hP : N ≤ P.length) (hC : N ≤ C.length) (hB : N ≤ B.length) (hM : N ≤ M.length) :
    HidParser_UsageAndPageListDifference P C B M N
      = some ⟨HIDP_STATUS_SUCCESS,
          zeroFilled USAGE_AND_PAGE.zero N (absentFrom isZeroUsageAndPage N P C) ++ B.drop N,
          zeroFilled USAGE_AND_PAGE.zero N (absentFrom isZeroUsageAndPage N C P) ++ M.drop N⟩ := by
  by_cases h0 : N = 0
  · subst h0
    simp [HidParser_UsageAndPageListDifference, zeroFilled, absentFrom, effective]
  · have hpos : 0 < N := Nat.pos_of_ne_zero h0
    have hb := scanLoop_eq isZeroUsageAndPage (fun c => searchUsageAndPage C N c N 0 false)
      (fun c => decide (c ∈ ((C.take N).drop 0).takeWhile (fun x => !isZeroUsageAndPage x)))
      storeUsageAndPage P N
      (fun x => by beta_reduce; rw [searchUsageAndPage_eq C N x hC N 0 false hpos (by omega)]; simp)
      (fun buf j v hj => storeUsageAndPage_eq buf j v hj) hP N 0 0 B hpos (by omega) (by omega)
    have hm := scanLoop_eq isZeroUsageAndPage (fun c => searchUsageAndPage P N c N 0 false)
      (fun c => decide (c ∈ ((P.take N).drop 0).takeWhile (fun x => !isZeroUsageAndPage x)))
      storeUsageAndPage C N
      (fun x => by beta_reduce; rw [searchUsageAndPage_eq P N x hP N 0 false hpos (by omega)]; simp)
      (fun buf j v hj => storeUsageAndPage_eq buf j v hj) hC N 0 0 M hpos (by omega) (by omega)
    rw [filter_not_mem] at hb hm
    simp only [Nat.zero_add, List.take_zero, List.nil_append] at hb hm
    have lb := absentFrom_length_le isZeroUsageAndPage N P C
    have lm := absentFrom_length_le isZeroUsageAndPage N C P
    simp only [HidParser_UsageAndPageListDifference, breakLoopEx_eq_scanLoop,
      makeLoopEx_eq_scanLoop, hb, hm, h0, ne_eq, not_false_eq_true, if_true,
      Option.bind_eq_bind, Option.some_bind, Option.pure_def, bind_pure_comp,
      Option.map_eq_map, Option.map_some']
    by_cases cb : (absentFrom isZeroUsageAndPage N P C).length < N <;>
      by_cases cm : (absentFrom isZeroUsageAndPage N C P).length < N <;>
      simp [cb, cm, zero_tail_lt USAGE_AND_PAGE.zero N _ B lb hB, zero_tail_lt USAGE_AND_PAGE.zero N _ M lm hM,
        ← zero_tail_ge USAGE_AND_PAGE.zero N _ B lb hB, ← zero_tail_ge USAGE_AND_PAGE.zero N _ M lm hM]

/-! ## Properties of the reference difference -/

section ReferenceFacts

variable {α : Type}

theorem effective_of_length (isEnd : α → Bool) (N : Nat) (L : List α) (h : L.length = N) :
    effective isEnd N L = L.takeWhile (fun x => !isEnd x) := by
  simp [effective, List.take_of_length_le (Nat.le_of_eq h)]

theorem not_isEnd_of_mem_effective (isEnd : α → Bool) (N : Nat) (L : List α) (x : α)
    (h : x ∈ effective isEnd N L) : isEnd x = false := by
  have := List.mem_takeWhile_imp h
  simpa using this

theorem mem_absentFrom [DecidableEq α] (isEnd : α → Bool) (N : Nat) (A B : List α) (x : α) :
    x ∈ absentFrom isEnd N A B ↔ x ∈ effective isEnd N A ∧ x ∉ effective isEnd N B := by
  simp [absentFrom]

theorem absentFrom_self [DecidableEq α] (isEnd : α → Bool) (N : Nat) (A : List α) :
    absentFrom isEnd N A A = [] := by
  simp [absentFrom, List.filter_eq_nil_iff]

theorem count_absentFrom [DecidableEq α] (isEnd : α → Bool) (N : Nat) (A B : List α) (x : α)
    (hx : x ∉ effective isEnd N B) :
    (absentFrom isEnd N A B).count x = (effective isEnd N A).count x := by
  unfold absentFrom
  exact List.count_filter (by simpa using hx)

theorem mem_zeroFilled (zero : α) (N : Nat) (l : List α) (x : α) (hx : x ≠ zero) :
    x ∈ zeroFilled zero N l ↔ x ∈ l := by
  simp only [zeroFilled, List.mem_append, List.mem_replicate]
  constructor
  · rintro (h | ⟨_, h⟩)
    · exact h
    · exact absurd h hx
  · intro h; exact Or.inl h

theorem count_zeroFilled [DecidableEq α] (zero : α) (N : Nat) (l : List α) (x : α)
    (hx : x ≠ zero) : (zeroFilled zero N l).count x = l.count x := by
  simp [zeroFilled, List.count_replicate, hx, Ne.symm hx]

theorem zeroFilled_nil (zero : α) (N : Nat) : zeroFilled zero N [] = List.replicate N zero := by
  simp [zeroFilled]

theorem getElem?_zeroFilled_lt (zero : α) (N : Nat) (l : List α) (i : Nat)
    (hi : i < l.length) : (zeroFilled zero N l)[i]? = l[i]? := by
  simp [zeroFilled, List.getElem?_append_left hi]

theorem getElem?_zeroFilled_ge (zero : α) (N : Nat) (l : List α) (i : Nat)
    (hi : l.length ≤ i) (hN : i < N) : (zeroFilled zero N l)[i]? = some zero := by
  simp only [zeroFilled]
  rw [List.getElem?_append_right hi]
  simp [List.getElem?_replicate]
  omega

theorem isZeroUsage_not : (fun x : USAGE => !isZeroUsage x) = (fun u => decide (u ≠ 0)) := by
  funext x; simp [isZeroUsage]

theorem isZeroUsageAndPage_not :
    (fun x : USAGE_AND_PAGE => !isZeroUsageAndPage x)
      = (fun e => decide (¬ (e.Usage = 0 ∧ e.UsagePage = 0))) := by
  funext x; simp [isZeroUsageAndPage]

theorem isZeroUsage_false_iff (x : USAGE) : isZeroUsage x = false ↔ x ≠ 0 := by
  simp [isZeroUsage]

theorem isZeroUsageAndPage_false_iff (x : USAGE_AND_PAGE) :
    isZeroUsageAndPage x = false ↔ x ≠ USAGE_AND_PAGE.zero := by
  cases x
  simp [isZeroUsageAndPage, USAGE_AND_PAGE.zero]

end ReferenceFacts

theorem takeWhile_eq_of_agree {α : Type} (isEnd : α → Bool) :
    ∀ (A A1 : List α), agreeToSentinel isEnd A A1 →
      A.takeWhile (fun x => !isEnd x) = A1.takeWhile (fun x => !isEnd x) := by
  intro A
  induction A with
  | nil =>
    intro A1 h
    unfold agreeToSentinel at h
    have h0 := h 0 (by intro j hj; omega)
    cases A1 with
    | nil => rfl
    | cons a as => simp at h0
  | cons a as ih =>
    intro A1 h
    unfold agreeToSentinel at h
    have h0 := h 0 (by intro j hj; omega)
    cases A1 with
    | nil => simp at h0
    | cons b bs =>
      simp at h0
      subst h0
      by_cases hp : isEnd a = true
      · simp [List.takeWhile_cons, hp]
      · simp only [Bool.not_eq_true] at hp
        simp only [List.takeWhile_cons, hp, Bool.not_false, if_true]
        congr 1
        apply ih
        unfold agreeToSentinel
        intro i hi
        have := h (i + 1) (by
          intro j hj
          cases j with
          | zero => exact ⟨a, by simp, hp⟩
          | succ j => simpa using hi j (by omega))
        simpa using this

theorem effective_eq_of_agree {α : Type} (isEnd : α → Bool) (N : Nat) (A A1 : List α)
    (hA : A.length = N) (hA1 : A1.length = N) (h : agreeToSentinel isEnd A A1) :
    effective isEnd N A = effective isEnd N A1 := by
  rw [effective_of_length isEnd N A hA, effective_of_length isEnd N A1 hA1]
  exact takeWhile_eq_of_agree isEnd A A1 h

theorem packedSnapshot_zeroFilled {α : Type} (isEnd : α → Bool) (zero : α) (N : Nat)
    (l rest : List α) (hl : l.length ≤ N) (hne : ∀ x ∈ l, isEnd x = false) :
    packedSnapshot isEnd zero N l.length (zeroFilled zero N l ++ rest) := by
  have hlen := zeroFilled_length zero N l hl
  refine ⟨hl, ?_, ?_⟩
  · intro i hi
    have hi2 : i < (zeroFilled zero N l).length := by omega
    refine ⟨l[i], ?_, hne _ (List.getElem_mem _)⟩
    rw [List.getElem?_append_left hi2, getElem?_zeroFilled_lt zero N l i hi,
      List.getElem?_eq_getElem hi]
  · intro i hk hi
    have hi2 : i < (zeroFilled zero N l).length := by omega
    rw [List.getElem?_append_left hi2, getElem?_zeroFilled_ge zero N l i hk hi]

theorem not_isEnd_of_mem_absentFrom {α : Type} [DecidableEq α] (isEnd : α → Bool) (N : Nat)
    (A B : List α) : ∀ x ∈ absentFrom isEnd N A B, isEnd x = false := by
  intro x hx
  exact not_isEnd_of_mem_effective isEnd N A x ((mem_absentFrom isEnd N A B x).mp hx).1

theorem take_zeroFilled_append {α : Type} (zero : α) (N : Nat) (l rest : List α)
    (hl : l.length ≤ N) : (zeroFilled zero N l ++ rest).take N = zeroFilled zero N l := by
  exact List.take_left' (zeroFilled_length zero N l hl)

theorem drop_zeroFilled_append {α : Type} (zero : α) (N : Nat) (l rest : List α)
    (hl : l.length ≤ N) : (zeroFilled zero N l ++ rest).drop N = rest := by
  exact List.drop_left' (zeroFilled_length zero N l hl)

/-! ## Claims about the usage-transition engine -/

/-- C1. For arrays `Previous`, `Current` of `N` usages and output buffers of `N`
usages, `HidParser_UsageListDifference` succeeds and leaves in `BreakUsageList` the
entries of `Previous` before its first `0` (all of them when there is none) that
do not occur in `Current` before its first `0`, in their order in `Previous`,
followed by zeros up to length `N`; and in `MakeUsageList` the same with the roles
of `Previous` and `Current` exchanged. -/
theorem usageListDifference_spec (N : Nat)
    (Previous Current BreakUsageList MakeUsageList : List USAGE)
    (hP : Previous.length = N) (hC : Current.length = N)
    (hB : BreakUsageList.length = N) (hM : MakeUsageList.length = N) :
    HidParser_UsageListDifference Previous Current BreakUsageList MakeUsageList N
      = some ⟨HIDP_STATUS_SUCCESS,
          zeroFilled 0 N ((Previous.takeWhile (fun u => decide (u ≠ 0))).filter
            (fun u => decide (u ∉ Current.takeWhile (fun u => decide (u ≠ 0))))),
          zeroFilled 0 N ((Current.takeWhile (fun u => decide (u ≠ 0))).filter
            (fun u => decide (u ∉ Previous.takeWhile (fun u => decide (u ≠ 0)))))⟩ := by
  rw [usageListDifference_eq Previous Current BreakUsageList MakeUsageList N
    (Nat.le_of_eq hP.symm) (Nat.le_of_eq hC.symm) (Nat.le_of_eq hB.symm) (Nat.le_of_eq hM.symm)]
  simp only [absentFrom, effective_of_length _ N _ hP, effective_of_length _ N _ hC,
    isZeroUsage_not, List.drop_eq_nil_iff.mpr (Nat.le_of_eq hB),
    List.drop_eq_nil_iff.mpr (Nat.le_of_eq hM), List.append_nil]

/-- Witness of C1 at capacity 4: previous `[5,7,0,9]`, current `[7,8,0,0]`. -/
theorem usageListDifference_spec_witness :
    HidParser_UsageListDifference [5, 7, 0, 9] [7, 8, 0, 0] [1, 1, 1, 1] [2, 2, 2, 2] 4
      = some ⟨HIDP_STATUS_SUCCESS, [5, 0, 0, 0], [8, 0, 0, 0]⟩ :=
  usageListDifference_spec 4 [5, 7, 0, 9] [7, 8, 0, 0] [1, 1, 1, 1] [2, 2, 2, 2] rfl rfl rfl rfl

/-- C2. For arrays `Previous`, `Current` of `N` (usage, usage page) pairs,
`HidParser_UsageAndPageListDifference` succeeds and leaves in `BreakUsageList` the
entries of `Previous` before its first `(0,0)` entry that equal (in both fields)
no entry of `Current` before the first `(0,0)` entry of `Current`, in their order,
followed by `(0,0)` entries up to length `N`; `MakeUsageList` is the same with the
roles exchanged.  An entry with usage `0` and a non-zero page is an ordinary
entry: with previous list `[(0,p), (u,q)]`, `p` and `u` non-zero, and an empty
current list, both entries are reported as broken. -/
theorem usageAndPageListDifference_spec (N : Nat)
    (Previous Current BreakUsageList MakeUsageList : List USAGE_AND_PAGE)
    (hP : Previous.length = N) (hC : Current.length = N)
    (hB : BreakUsageList.length = N) (hM : MakeUsageList.length = N) :
    HidParser_UsageAndPageListDifference Previous Current BreakUsageList MakeUsageList N
      = some ⟨HIDP_STATUS_SUCCESS,
          zeroFilled ⟨0, 0⟩ N
            ((Previous.takeWhile (fun e => decide (¬ (e.Usage = 0 ∧ e.UsagePage = 0)))).filter
              (fun e => decide (e ∉ Current.takeWhile
                (fun e => decide (¬ (e.Usage = 0 ∧ e.UsagePage = 0)))))),
          zeroFilled ⟨0, 0⟩ N
            ((Current.takeWhile (fun e => decide (¬ (e.Usage = 0 ∧ e.UsagePage = 0)))).filter
              (fun e => decide (e ∉ Previous.takeWhile
                (fun e => decide (¬ (e.Usage = 0 ∧ e.UsagePage = 0))))))⟩
    ∧ ∀ (p u q : USAGE) (B M : List USAGE_AND_PAGE), p ≠ 0 → u ≠ 0 →
        B.length = 2 → M.length = 2 →
        HidParser_UsageAndPageListDifference [⟨0, p⟩, ⟨u, q⟩] [⟨0, 0⟩, ⟨0, 0⟩] B M 2
          = some ⟨HIDP_STATUS_SUCCESS, [⟨0, p⟩, ⟨u, q⟩], [⟨0, 0⟩, ⟨0, 0⟩]⟩ := by
  constructor
  · rw [usageAndPageListDifference_eq Previous Current BreakUsageList MakeUsageList N
      (Nat.le_of_eq hP.symm) (Nat.le_of_eq hC.symm) (Nat.le_of_eq hB.symm)
      (Nat.le_of_eq hM.symm)]
    simp only [absentFrom, effective_of_length _ N _ hP, effective_of_length _ N _ hC,
      isZeroUsageAndPage_not, List.drop_eq_nil_iff.mpr (Nat.le_of_eq hB),
      List.drop_eq_nil_iff.mpr (Nat.le_of_eq hM), List.append_nil, USAGE_AND_PAGE.zero]
  · intro p u q B M hp hu hB2 hM2
    rw [usageAndPageListDifference_eq [⟨0, p⟩, ⟨u, q⟩] [⟨0, 0⟩, ⟨0, 0⟩] B M 2
      (by simp) (by simp) (Nat.le_of_eq hB2.symm) (Nat.le_of_eq hM2.symm)]
    simp [absentFrom, effective, isZeroUsageAndPage, zeroFilled, hp, hu,
      List.drop_eq_nil_iff.mpr (Nat.le_of_eq hB2), List.drop_eq_nil_iff.mpr (Nat.le_of_eq hM2),
      USAGE_AND_PAGE.zero]

/-- Witness of C2 at capacity 4; `(0,7)` is an ordinary entry and `(9,9)`, behind
the sentinel, is not looked at. -/
theorem usageAndPageListDifference_spec_witness :
    HidParser_UsageAndPageListDifference
        [⟨0, 7⟩, ⟨5, 7⟩, ⟨0, 0⟩, ⟨9, 9⟩] [⟨5, 7⟩, ⟨5, 7⟩, ⟨1, 0⟩, ⟨0, 0⟩]
        [⟨3, 3⟩, ⟨3, 3⟩, ⟨3, 3⟩, ⟨3, 3⟩] [⟨3, 3⟩, ⟨3, 3⟩, ⟨3, 3⟩, ⟨3, 3⟩] 4
      = some ⟨HIDP_STATUS_SUCCESS, [⟨0, 7⟩, ⟨0, 0⟩, ⟨0, 0⟩, ⟨0, 0⟩],
          [⟨1, 0⟩, ⟨0, 0⟩, ⟨0, 0⟩, ⟨0, 0⟩]⟩ :=
  (usageAndPageListDifference_spec 4
    [⟨0, 7⟩, ⟨5, 7⟩, ⟨0, 0⟩, ⟨9, 9⟩] [⟨5, 7⟩, ⟨5, 7⟩, ⟨1, 0⟩, ⟨0, 0⟩]
    [⟨3, 3⟩, ⟨3, 3⟩, ⟨3, 3⟩, ⟨3, 3⟩] [⟨3, 3⟩, ⟨3, 3⟩, ⟨3, 3⟩, ⟨3, 3⟩] rfl rfl rfl rfl).1

/-- C3. Symmetry law, both variants: for snapshots `A`, `B` of capacity `N` and any
output buffers of `N` entries, both calls succeed and the break list written by
the difference of `(A, B)` is, as a list of `N` entries, the make list written by
the difference of `(B, A)`. -/
theorem difference_symmetry (N : Nat) :
    (∀ (A B Break1 Make1 Break2 Make2 : List USAGE),
      A.length = N → B.length = N → Break1.length = N → Make1.length = N →
      Break2.length = N → Make2.length = N →
      ∃ r1 r2, HidParser_UsageListDifference A B Break1 Make1 N = some r1 ∧
        HidParser_UsageListDifference B A Break2 Make2 N = some r2 ∧
        r1.BreakUsageList = r2.MakeUsageList ∧ r1.BreakUsageList.length = N) ∧
    (∀ (A B Break1 Make1 Break2 Make2 : List USAGE_AND_PAGE),
      A.length = N → B.length = N → Break1.length = N → Make1.length = N →
      Break2.length = N → Make2.length = N →
      ∃ r1 r2, HidParser_UsageAndPageListDifference A B Break1 Make1 N = some r1 ∧
        HidParser_UsageAndPageListDifference B A Break2 Make2 N = some r2 ∧
        r1.BreakUsageList = r2.MakeUsageList ∧ r1.BreakUsageList.length = N) := by
  constructor
  · intro A B Break1 Make1 Break2 Make2 hA hB h1 h2 h3 h4
    refine ⟨_, _, usageListDifference_eq A B Break1 Make1 N (Nat.le_of_eq hA.symm)
      (Nat.le_of_eq hB.symm) (Nat.le_of_eq h1.symm) (Nat.le_of_eq h2.symm),
      usageListDifference_eq B A Break2 Make2 N (Nat.le_of_eq hB.symm)
      (Nat.le_of_eq hA.symm) (Nat.le_of_eq h3.symm) (Nat.le_of_eq h4.symm), ?_, ?_⟩
    · simp [List.drop_eq_nil_iff.mpr (Nat.le_of_eq h1), List.drop_eq_nil_iff.mpr (Nat.le_of_eq h4)]
    · simp [List.drop_eq_nil_iff.mpr (Nat.le_of_eq h1),
        zeroFilled_length 0 N _ (absentFrom_length_le isZeroUsage N A B)]
  · intro A B Break1 Make1 Break2 Make2 hA hB h1 h2 h3 h4
    refine ⟨_, _, usageAndPageListDifference_eq A B Break1 Make1 N (Nat.le_of_eq hA.symm)
      (Nat.le_of_eq hB.symm) (Nat.le_of_eq h1.symm) (Nat.le_of_eq h2.symm),
      usageAndPageListDifference_eq B A Break2 Make2 N (Nat.le_of_eq hB.symm)
      (Nat.le_of_eq hA.symm) (Nat.le_of_eq h3.symm) (Nat.le_of_eq h4.symm), ?_, ?_⟩
    · simp [List.drop_eq_nil_iff.mpr (Nat.le_of_eq h1), List.drop_eq_nil_iff.mpr (Nat.le_of_eq h4)]
    · simp [List.drop_eq_nil_iff.mpr (Nat.le_of_eq h1),
        zeroFilled_length USAGE_AND_PAGE.zero N _
          (absentFrom_length_le isZeroUsageAndPage N A B)]

/-- Witness of C3 at capacity 3, plain variant: the break list of
`([5,7,0], [7,8,9])` is the make list of `([7,8,9], [5,7,0])`. -/
theorem difference_symmetry_witness :
    ∃ r1 r2, HidParser_UsageListDifference [5, 7, 0] [7, 8, 9] [1, 1, 1] [2, 2, 2] 3 = some r1 ∧
      HidParser_UsageListDifference [7, 8, 9] [5, 7, 0] [3, 3, 3] [4, 4, 4] 3 = some r2 ∧
      r1.BreakUsageList = r2.MakeUsageList ∧ r1.BreakUsageList.length = 3 :=
  (difference_symmetry 3).1 [5, 7, 0] [7, 8, 9] [1, 1, 1] [2, 2, 2] [3, 3, 3] [4, 4, 4]
    rfl rfl rfl rfl rfl rfl

/-- C4. Both variants: diffing a snapshot `A` of capacity `N` against itself
succeeds and leaves `N` zero entries in the break list and `N` zero entries in the
make list, whether or not `A` has a sentinel or repeated entries. -/
theorem difference_self (N : Nat) :
    (∀ (A BreakUsageList MakeUsageList : List USAGE),
      A.length = N → BreakUsageList.length = N → MakeUsageList.length = N →
      HidParser_UsageListDifference A A BreakUsageList MakeUsageList N
        = some ⟨HIDP_STATUS_SUCCESS, List.replicate N 0, List.replicate N 0⟩) ∧
    (∀ (A BreakUsageList MakeUsageList : List USAGE_AND_PAGE),
      A.length = N → BreakUsageList.length = N → MakeUsageList.length = N →
      HidParser_UsageAndPageListDifference A A BreakUsageList MakeUsageList N
        = some ⟨HIDP_STATUS_SUCCESS, List.replicate N ⟨0, 0⟩, List.replicate N ⟨0, 0⟩⟩) := by
  constructor
  · intro A Bk Mk hA hB hM
    rw [usageListDifference_eq A A Bk Mk N (Nat.le_of_eq hA.symm) (Nat.le_of_eq hA.symm)
      (Nat.le_of_eq hB.symm) (Nat.le_of_eq hM.symm)]
    simp [absentFrom_self, zeroFilled_nil, List.drop_eq_nil_iff.mpr (Nat.le_of_eq hB),
      List.drop_eq_nil_iff.mpr (Nat.le_of_eq hM)]
  · intro A Bk Mk hA hB hM
    rw [usageAndPageListDifference_eq A A Bk Mk N (Nat.le_of_eq hA.symm)
      (Nat.le_of_eq hA.symm) (Nat.le_of_eq hB.symm) (Nat.le_of_eq hM.symm)]
    simp [absentFrom_self, zeroFilled_nil, List.drop_eq_nil_iff.mpr (Nat.le_of_eq hB),
      List.drop_eq_nil_iff.mpr (Nat.le_of_eq hM), USAGE_AND_PAGE.zero]

/-- Witness of C4 at capacity 4: a snapshot with a repeated entry and no sentinel. -/
theorem difference_self_witness :
    HidParser_UsageListDifference [5, 5, 7, 9] [5, 5, 7, 9] [1, 1, 1, 1] [2, 2, 2, 2] 4
      = some ⟨HIDP_STATUS_SUCCESS, List.replicate 4 0, List.replicate 4 0⟩ :=
  (difference_self 4).1 [5, 5, 7, 9] [1, 1, 1, 1] [2, 2, 2, 2] rfl rfl rfl


/-- C5, counterexample.  At capacity 4 the value `9` occurs in the previous
snapshot `[5,7,0,9]` only after that snapshot's sentinel, and yet it is emitted:
with current snapshot `[9,0,0,0]` the call leaves `[9,0,0,0]` in the make list. -/
theorem sentinel_tail_counterexample :
    (9 ∈ ([5, 7, 0, 9] : List USAGE) ∧
      9 ∉ ([5, 7, 0, 9] : List USAGE).takeWhile (fun u => decide (u ≠ 0))) ∧
    HidParser_UsageListDifference [5, 7, 0, 9] [9, 0, 0, 0] [0, 0, 0, 0] [0, 0, 0, 0] 4
      = some ⟨HIDP_STATUS_SUCCESS, [5, 7, 0, 0], [9, 0, 0, 0]⟩ ∧
    9 ∈ ([9, 0, 0, 0] : List USAGE) := by
  decide

/-- C5, amended.  Both variants: when snapshots `A`, `A1` of capacity `N` agree up
to and including the first sentinel of `A`, and `B`, `B1` likewise, the calls on
`(A1, B1)` and on `(A, B)` succeed with identical break and make lists, whatever
the output buffers held before; and a non-sentinel value that occurs in neither
input before that input's sentinel appears in neither output. -/
theorem sentinel_tail_ignored (N : Nat) :
    (∀ (A A1 B B1 Bk Mk Bk1 Mk1 : List USAGE),
      A.length = N → A1.length = N → B.length = N → B1.length = N →
      Bk.length = N → Mk.length = N → Bk1.length = N → Mk1.length = N →
      agreeToSentinel isZeroUsage A A1 → agreeToSentinel isZeroUsage B B1 →
      ∃ r, HidParser_UsageListDifference A B Bk Mk N = some r ∧
        HidParser_UsageListDifference A1 B1 Bk1 Mk1 N = some r ∧
        ∀ v : USAGE, v ≠ 0 → v ∉ effective isZeroUsage N A → v ∉ effective isZeroUsage N B →
          v ∉ r.BreakUsageList ∧ v ∉ r.MakeUsageList) ∧
    (∀ (A A1 B B1 Bk Mk Bk1 Mk1 : List USAGE_AND_PAGE),
      A.length = N → A1.length = N → B.length = N → B1.length = N →
      Bk.length = N → Mk.length = N → Bk1.length = N → Mk1.length = N →
      agreeToSentinel isZeroUsageAndPage A A1 → agreeToSentinel isZeroUsageAndPage B B1 →
      ∃ r, HidParser_UsageAndPageListDifference A B Bk Mk N = some r ∧
        HidParser_UsageAndPageListDifference A1 B1 Bk1 Mk1 N = some r ∧
        ∀ v : USAGE_AND_PAGE, v ≠ USAGE_AND_PAGE.zero →
          v ∉ effective isZeroUsageAndPage N A → v ∉ effective isZeroUsageAndPage N B →
          v ∉ r.BreakUsageList ∧ v ∉ r.MakeUsageList) := by
  constructor
  · intro A A1 B B1 Bk Mk Bk1 Mk1 hA hA1 hB hB1 hBk hMk hBk1 hMk1 hAA hBB
    refine ⟨_, usageListDifference_eq A B Bk Mk N (Nat.le_of_eq hA.symm)
      (Nat.le_of_eq hB.symm) (Nat.le_of_eq hBk.symm) (Nat.le_of_eq hMk.symm), ?_, ?_⟩
    · rw [usageListDifference_eq A1 B1 Bk1 Mk1 N (Nat.le_of_eq hA1.symm)
        (Nat.le_of_eq hB1.symm) (Nat.le_of_eq hBk1.symm) (Nat.le_of_eq hMk1.symm)]
      simp only [absentFrom, effective_eq_of_agree isZeroUsage N A A1 hA hA1 hAA,
        effective_eq_of_agree isZeroUsage N B B1 hB hB1 hBB,
        List.drop_eq_nil_iff.mpr (Nat.le_of_eq hBk), List.drop_eq_nil_iff.mpr (Nat.le_of_eq hMk),
        List.drop_eq_nil_iff.mpr (Nat.le_of_eq hBk1),
        List.drop_eq_nil_iff.mpr (Nat.le_of_eq hMk1)]
    · intro v hv hvA hvB
      simp only [List.drop_eq_nil_iff.mpr (Nat.le_of_eq hBk),
        List.drop_eq_nil_iff.mpr (Nat.le_of_eq hMk), List.append_nil,
        mem_zeroFilled 0 N _ v hv, mem_absentFrom]
      exact ⟨fun h => hvA h.1, fun h => hvB h.1⟩
  · intro A A1 B B1 Bk Mk Bk1 Mk1 hA hA1 hB hB1 hBk hMk hBk1 hMk1 hAA hBB
    refine ⟨_, usageAndPageListDifference_eq A B Bk Mk N (Nat.le_of_eq hA.symm)
      (Nat.le_of_eq hB.symm) (Nat.le_of_eq hBk.symm) (Nat.le_of_eq hMk.symm), ?_, ?_⟩
    · rw [usageAndPageListDifference_eq A1 B1 Bk1 Mk1 N (Nat.le_of_eq hA1.symm)
        (Nat.le_of_eq hB1.symm) (Nat.le_of_eq hBk1.symm) (Nat.le_of_eq hMk1.symm)]
      simp only [absentFrom, effective_eq_of_agree isZeroUsageAndPage N A A1 hA hA1 hAA,
        effective_eq_of_agree isZeroUsageAndPage N B B1 hB hB1 hBB,
        List.drop_eq_nil_iff.mpr (Nat.le_of_eq hBk), List.drop_eq_nil_iff.mpr (Nat.le_of_eq hMk),
        List.drop_eq_nil_iff.mpr (Nat.le_of_eq hBk1),
        List.drop_eq_nil_iff.mpr (Nat.le_of_eq hMk1)]
    · intro v hv hvA hvB
      simp only [List.drop_eq_nil_iff.mpr (Nat.le_of_eq hBk),
        List.drop_eq_nil_iff.mpr (Nat.le_of_eq hMk), List.append_nil,
        mem_zeroFilled USAGE_AND_PAGE.zero N _ v hv, mem_absentFrom]
      exact ⟨fun h => hvA h.1, fun h => hvB h.1⟩

/-- Witness of the amended C5 at capacity 4: `[5,7,0,9]` behaves exactly as
`[5,7,0,0]` against `[7,8,0,0]`. -/
theorem sentinel_tail_ignored_witness :
    ∃ r, HidParser_UsageListDifference [5, 7, 0, 9] [7, 8, 0, 0] [1, 1, 1, 1] [2, 2, 2, 2] 4
          = some r ∧
      HidParser_UsageListDifference [5, 7, 0, 0] [7, 8, 0, 0] [3, 3, 3, 3] [4, 4, 4, 4] 4
          = some r ∧
      ∀ v : USAGE, v ≠ 0 → v ∉ effective isZeroUsage 4 [5, 7, 0, 9] →
        v ∉ effective isZeroUsage 4 [7, 8, 0, 0] →
        v ∉ r.BreakUsageList ∧ v ∉ r.MakeUsageList :=
  (sentinel_tail_ignored 4).1 [5, 7, 0, 9] [5, 7, 0, 0] [7, 8, 0, 0] [7, 8, 0, 0]
    [1, 1, 1, 1] [2, 2, 2, 2] [3, 3, 3, 3] [4, 4, 4, 4] rfl rfl rfl rfl rfl rfl rfl rfl
    (by
      intro i h
      rcases i with _ | _ | _ | i
      · rfl
      · rfl
      · rfl
      · obtain ⟨x, hx, hz⟩ := h 2 (by omega)
        simp at hx
        subst hx
        simp [isZeroUsage] at hz)
    (by intro i _; rfl)

/-- C6, counterexample.  At capacity 2, with previous snapshot `[5,5]` and current
snapshot `[7,7]`, the usage `5` is an element of the previous snapshot absent from
the current one and appears twice in the break list; likewise `7` appears twice
in the make list. -/
theorem exactly_once_counterexample :
    (5 ∈ ([5, 5] : List USAGE) ∧ 5 ∉ ([7, 7] : List USAGE)) ∧
    HidParser_UsageListDifference [5, 5] [7, 7] [0, 0] [0, 0] 2
      = some ⟨HIDP_STATUS_SUCCESS, [5, 5], [7, 7]⟩ ∧
    ([5, 5] : List USAGE).count 5 = 2 ∧ ([7, 7] : List USAGE).count 7 = 2 := by
  decide

/-- C6, amended.  For snapshots `A`, `B` of capacity `N`, the plain variant
succeeds, and every usage that occurs in `A` before the sentinel of `A` and does
not occur in `B` before the sentinel of `B` appears in the break list exactly as
many times as it occurs in `A` before the sentinel of `A` (hence at least once,
and exactly once when it is not repeated there); symmetrically for `B`, `A` and
the make list. -/
theorem absent_entries_reported (N : Nat) (A B BreakUsageList MakeUsageList : List USAGE)
    (hA : A.length = N) (hB : B.length = N)
    (hBk : BreakUsageList.length = N) (hMk : MakeUsageList.length = N) :
    ∃ r, HidParser_UsageListDifference A B BreakUsageList MakeUsageList N = some r ∧
      (∀ x : USAGE, x ∈ effective isZeroUsage N A → x ∉ effective isZeroUsage N B →
        r.BreakUsageList.count x = (effective isZeroUsage N A).count x ∧
        1 ≤ r.BreakUsageList.count x ∧
        ((effective isZeroUsage N A).count x = 1 → r.BreakUsageList.count x = 1)) ∧
      (∀ x : USAGE, x ∈ effective isZeroUsage N B → x ∉ effective isZeroUsage N A →
        r.MakeUsageList.count x = (effective isZeroUsage N B).count x ∧
        1 ≤ r.MakeUsageList.count x ∧
        ((effective isZeroUsage N B).count x = 1 → r.MakeUsageList.count x = 1)) := by
  refine ⟨_, usageListDifference_eq A B BreakUsageList MakeUsageList N (Nat.le_of_eq hA.symm)
    (Nat.le_of_eq hB.symm) (Nat.le_of_eq hBk.symm) (Nat.le_of_eq hMk.symm), ?_, ?_⟩
  · intro x hxA hxB
    have hx : x ≠ 0 :=
      (isZeroUsage_false_iff x).mp (not_isEnd_of_mem_effective isZeroUsage N A x hxA)
    have hc : (zeroFilled 0 N (absentFrom isZeroUsage N A B) ++ BreakUsageList.drop N).count x
        = (effective isZeroUsage N A).count x := by
      rw [List.drop_eq_nil_iff.mpr (Nat.le_of_eq hBk), List.append_nil,
        count_zeroFilled 0 N _ x hx, count_absentFrom isZeroUsage N A B x hxB]
    refine ⟨hc, ?_, fun h => by rw [hc, h]⟩
    rw [hc]
    exact List.count_pos_iff.mpr hxA
  · intro x hxB hxA
    have hx : x ≠ 0 :=
      (isZeroUsage_false_iff x).mp (not_isEnd_of_mem_effective isZeroUsage N B x hxB)
    have hc : (zeroFilled 0 N (absentFrom isZeroUsage N B A) ++ MakeUsageList.drop N).count x
        = (effective isZeroUsage N B).count x := by
      rw [List.drop_eq_nil_iff.mpr (Nat.le_of_eq hMk), List.append_nil,
        count_zeroFilled 0 N _ x hx, count_absentFrom isZeroUsage N B A x hxA]
    refine ⟨hc, ?_, fun h => by rw [hc, h]⟩
    rw [hc]
    exact List.count_pos_iff.mpr hxB

/-- Witness of the amended C6 at capacity 3: previous `[5,5,6]`, current `[7,0,0]`. -/
theorem absent_entries_reported_witness :
    ∃ r, HidParser_UsageListDifference [5, 5, 6] [7, 0, 0] [1, 1, 1] [2, 2, 2] 3 = some r ∧
      (∀ x : USAGE, x ∈ effective isZeroUsage 3 [5, 5, 6] → x ∉ effective isZeroUsage 3 [7, 0, 0] →
        r.BreakUsageList.count x = (effective isZeroUsage 3 [5, 5, 6]).count x ∧
        1 ≤ r.BreakUsageList.count x ∧
        ((effective isZeroUsage 3 [5, 5, 6]).count x = 1 → r.BreakUsageList.count x = 1)) ∧
      (∀ x : USAGE, x ∈ effective isZeroUsage 3 [7, 0, 0] → x ∉ effective isZeroUsage 3 [5, 5, 6] →
        r.MakeUsageList.count x = (effective isZeroUsage 3 [7, 0, 0]).count x ∧
        1 ≤ r.MakeUsageList.count x ∧
        ((effective isZeroUsage 3 [7, 0, 0]).count x = 1 → r.MakeUsageList.count x = 1)) :=
  absent_entries_reported 3 [5, 5, 6] [7, 0, 0] [1, 1, 1] [2, 2, 2] rfl rfl rfl rfl

/-- C7.  Both variants: for snapshots `A`, `B` of capacity `N` the call succeeds,
and no non-sentinel entry of the break list or of the make list occurs both in
`A` before the sentinel of `A` and in `B` before the sentinel of `B`. -/
theorem outputs_disjoint_from_common (N : Nat) :
    (∀ (A B BreakUsageList MakeUsageList : List USAGE),
      A.length = N → B.length = N → BreakUsageList.length = N → MakeUsageList.length = N →
      ∃ r, HidParser_UsageListDifference A B BreakUsageList MakeUsageList N = some r ∧
        ∀ x : USAGE, x ≠ 0 → (x ∈ r.BreakUsageList ∨ x ∈ r.MakeUsageList) →
          ¬ (x ∈ effective isZeroUsage N A ∧ x ∈ effective isZeroUsage N B)) ∧
    (∀ (A B BreakUsageList MakeUsageList : List USAGE_AND_PAGE),
      A.length = N → B.length = N → BreakUsageList.length = N → MakeUsageList.length = N →
      ∃ r, HidParser_UsageAndPageListDifference A B BreakUsageList MakeUsageList N = some r ∧
        ∀ x : USAGE_AND_PAGE, x ≠ USAGE_AND_PAGE.zero →
          (x ∈ r.BreakUsageList ∨ x ∈ r.MakeUsageList) →
          ¬ (x ∈ effective isZeroUsageAndPage N A ∧ x ∈ effective isZeroUsageAndPage N B)) := by
  constructor
  · intro A B Bk Mk hA hB hBk hMk
    refine ⟨_, usageListDifference_eq A B Bk Mk N (Nat.le_of_eq hA.symm)
      (Nat.le_of_eq hB.symm) (Nat.le_of_eq hBk.symm) (Nat.le_of_eq hMk.symm), ?_⟩
    intro x hx hmem hboth
    simp only [List.drop_eq_nil_iff.mpr (Nat.le_of_eq hBk),
      List.drop_eq_nil_iff.mpr (Nat.le_of_eq hMk), List.append_nil,
      mem_zeroFilled 0 N _ x hx, mem_absentFrom] at hmem
    rcases hmem with h | h
    · exact h.2 hboth.2
    · exact h.2 hboth.1
  · intro A B Bk Mk hA hB hBk hMk
    refine ⟨_, usageAndPageListDifference_eq A B Bk Mk N (Nat.le_of_eq hA.symm)
      (Nat.le_of_eq hB.symm) (Nat.le_of_eq hBk.symm) (Nat.le_of_eq hMk.symm), ?_⟩
    intro x hx hmem hboth
    simp only [List.drop_eq_nil_iff.mpr (Nat.le_of_eq hBk),
      List.drop_eq_nil_iff.mpr (Nat.le_of_eq hMk), List.append_nil,
      mem_zeroFilled USAGE_AND_PAGE.zero N _ x hx, mem_absentFrom] at hmem
    rcases hmem with h | h
    · exact h.2 hboth.2
    · exact h.2 hboth.1

/-- Witness of C7 at capacity 3, pair variant: previous `[(1,7),(2,7),(0,0)]`,
current `[(2,7),(3,7),(0,0)]`. -/
theorem outputs_disjoint_from_common_witness :
    ∃ r, HidParser_UsageAndPageListDifference [⟨1, 7⟩, ⟨2, 7⟩, ⟨0, 0⟩] [⟨2, 7⟩, ⟨3, 7⟩, ⟨0, 0⟩]
          [⟨9, 9⟩, ⟨9, 9⟩, ⟨9, 9⟩] [⟨8, 8⟩, ⟨8, 8⟩, ⟨8, 8⟩] 3 = some r ∧
      ∀ x : USAGE_AND_PAGE, x ≠ USAGE_AND_PAGE.zero →
        (x ∈ r.BreakUsageList ∨ x ∈ r.MakeUsageList) →
        ¬ (x ∈ effective isZeroUsageAndPage 3 [⟨1, 7⟩, ⟨2, 7⟩, ⟨0, 0⟩] ∧
            x ∈ effective isZeroUsageAndPage 3 [⟨2, 7⟩, ⟨3, 7⟩, ⟨0, 0⟩]) :=
  (outputs_disjoint_from_common 3).2 [⟨1, 7⟩, ⟨2, 7⟩, ⟨0, 0⟩] [⟨2, 7⟩, ⟨3, 7⟩, ⟨0, 0⟩]
    [⟨9, 9⟩, ⟨9, 9⟩, ⟨9, 9⟩] [⟨8, 8⟩, ⟨8, 8⟩, ⟨8, 8⟩] rfl rfl rfl rfl

/-- C8.  Both variants: for input arrays and output buffers of at least `N`
entries the call succeeds (so no store fell outside an output buffer, even when
the buffer has exactly `N` entries), and each output is a packed snapshot of
capacity `N`: for some produced count `k ≤ N`, positions below `k` hold
non-sentinel entries and positions `k` to `N - 1` hold the zero entry.  The
first `N` positions do not depend on what the buffer held before, and the
entries from position `N` on are left as they were. -/
theorem outputs_packed (N : Nat) :
    (∀ (A B BreakUsageList MakeUsageList : List USAGE),
      N ≤ A.length → N ≤ B.length → N ≤ BreakUsageList.length → N ≤ MakeUsageList.length →
      ∃ r, HidParser_UsageListDifference A B BreakUsageList MakeUsageList N = some r ∧
        (∃ k, packedSnapshot isZeroUsage 0 N k r.BreakUsageList) ∧
        (∃ k, packedSnapshot isZeroUsage 0 N k r.MakeUsageList) ∧
        r.BreakUsageList.take N = zeroFilled 0 N (absentFrom isZeroUsage N A B) ∧
        r.MakeUsageList.take N = zeroFilled 0 N (absentFrom isZeroUsage N B A) ∧
        r.BreakUsageList.drop N = BreakUsageList.drop N ∧
        r.MakeUsageList.drop N = MakeUsageList.drop N) ∧
    (∀ (A B BreakUsageList MakeUsageList : List USAGE_AND_PAGE),
      N ≤ A.length → N ≤ B.length → N ≤ BreakUsageList.length → N ≤ MakeUsageList.length →
      ∃ r, HidParser_UsageAndPageListDifference A B BreakUsageList MakeUsageList N = some r ∧
        (∃ k, packedSnapshot isZeroUsageAndPage USAGE_AND_PAGE.zero N k r.BreakUsageList) ∧
        (∃ k, packedSnapshot isZeroUsageAndPage USAGE_AND_PAGE.zero N k r.MakeUsageList) ∧
        r.BreakUsageList.take N
          = zeroFilled USAGE_AND_PAGE.zero N (absentFrom isZeroUsageAndPage N A B) ∧
        r.MakeUsageList.take N
          = zeroFilled USAGE_AND_PAGE.zero N (absentFrom isZeroUsageAndPage N B A) ∧
        r.BreakUsageList.drop N = BreakUsageList.drop N ∧
        r.MakeUsageList.drop N = MakeUsageList.drop N) := by
  constructor
  · intro A B Bk Mk hA hB hBk hMk
    refine ⟨_, usageListDifference_eq A B Bk Mk N hA hB hBk hMk,
      ⟨_, packedSnapshot_zeroFilled isZeroUsage 0 N _ _ (absentFrom_length_le isZeroUsage N A B)
        (not_isEnd_of_mem_absentFrom isZeroUsage N A B)⟩,
      ⟨_, packedSnapshot_zeroFilled isZeroUsage 0 N _ _ (absentFrom_length_le isZeroUsage N B A)
        (not_isEnd_of_mem_absentFrom isZeroUsage N B A)⟩,
      take_zeroFilled_append 0 N _ _ (absentFrom_length_le isZeroUsage N A B),
      take_zeroFilled_append 0 N _ _ (absentFrom_length_le isZeroUsage N B A),
      drop_zeroFilled_append 0 N _ _ (absentFrom_length_le isZeroUsage N A B),
      drop_zeroFilled_append 0 N _ _ (absentFrom_length_le isZeroUsage N B A)⟩
  · intro A B Bk Mk hA hB hBk hMk
    refine ⟨_, usageAndPageListDifference_eq A B Bk Mk N hA hB hBk hMk,
      ⟨_, packedSnapshot_zeroFilled isZeroUsageAndPage USAGE_AND_PAGE.zero N _ _
        (absentFrom_length_le isZeroUsageAndPage N A B)
        (not_isEnd_of_mem_absentFrom isZeroUsageAndPage N A B)⟩,
      ⟨_, packedSnapshot_zeroFilled isZeroUsageAndPage USAGE_AND_PAGE.zero N _ _
        (absentFrom_length_le isZeroUsageAndPage N B A)
        (not_isEnd_of_mem_absentFrom isZeroUsageAndPage N B A)⟩,
      take_zeroFilled_append _ N _ _ (absentFrom_length_le isZeroUsageAndPage N A B),
      take_zeroFilled_append _ N _ _ (absentFrom_length_le isZeroUsageAndPage N B A),
      drop_zeroFilled_append _ N _ _ (absentFrom_length_le isZeroUsageAndPage N A B),
      drop_zeroFilled_append _ N _ _ (absentFrom_length_le isZeroUsageAndPage N B A)⟩

/-- Witness of C8 at capacity 3 with output buffers of 4 entries: the fourth
entry of each buffer is left alone. -/
theorem outputs_packed_witness :
    ∃ r, HidParser_UsageListDifference [5, 7, 9] [7, 0, 0] [1, 1, 1, 1] [2, 2, 2, 2] 3 = some r ∧
      (∃ k, packedSnapshot isZeroUsage 0 3 k r.BreakUsageList) ∧
      (∃ k, packedSnapshot isZeroUsage 0 3 k r.MakeUsageList) ∧
      r.BreakUsageList.take 3 = zeroFilled 0 3 (absentFrom isZeroUsage 3 [5, 7, 9] [7, 0, 0]) ∧
      r.MakeUsageList.take 3 = zeroFilled 0 3 (absentFrom isZeroUsage 3 [7, 0, 0] [5, 7, 9]) ∧
      r.BreakUsageList.drop 3 = [1] ∧ r.MakeUsageList.drop 3 = [2] :=
  (outputs_packed 3).1 [5, 7, 9] [7, 0, 0] [1, 1, 1, 1] [2, 2, 2, 2]
    (by decide) (by decide) (by decide) (by decide)

/-- C9.  Both variants: on input arrays and output buffers of at least `N`
entries the call returns, with status `HIDP_STATUS_SUCCESS`; and with `N = 0` it
returns `HIDP_STATUS_SUCCESS` and both output buffers unchanged for any arrays
whatever, empty ones included, so that no entry is read. -/
theorem difference_never_fails :
    (∀ (N : Nat) (A B BreakUsageList MakeUsageList : List USAGE),
      N ≤ A.length → N ≤ B.length → N ≤ BreakUsageList.length → N ≤ MakeUsageList.length →
      ∃ r, HidParser_UsageListDifference A B BreakUsageList MakeUsageList N = some r ∧
        r.Status = HIDP_STATUS_SUCCESS) ∧
    (∀ (N : Nat) (A B BreakUsageList MakeUsageList : List USAGE_AND_PAGE),
      N ≤ A.length → N ≤ B.length → N ≤ BreakUsageList.length → N ≤ MakeUsageList.length →
      ∃ r, HidParser_UsageAndPageListDifference A B BreakUsageList MakeUsageList N = some r ∧
        r.Status = HIDP_STATUS_SUCCESS) ∧
    (∀ (A B BreakUsageList MakeUsageList : List USAGE),
      HidParser_UsageListDifference A B BreakUsageList MakeUsageList 0
        = some ⟨HIDP_STATUS_SUCCESS, BreakUsageList, MakeUsageList⟩) ∧
    (∀ (A B BreakUsageList MakeUsageList : List USAGE_AND_PAGE),
      HidParser_UsageAndPageListDifference A B BreakUsageList MakeUsageList 0
        = some ⟨HIDP_STATUS_SUCCESS, BreakUsageList, MakeUsageList⟩) := by
  refine ⟨?_, ?_, ?_, ?_⟩
  · intro N A B Bk Mk hA hB hBk hMk
    exact ⟨_, usageListDifference_eq A B Bk Mk N hA hB hBk hMk, rfl⟩
  · intro N A B Bk Mk hA hB hBk hMk
    exact ⟨_, usageAndPageListDifference_eq A B Bk Mk N hA hB hBk hMk, rfl⟩
  · intro A B Bk Mk
    simp [HidParser_UsageListDifference]
  · intro A B Bk Mk
    simp [HidParser_UsageAndPageListDifference]

/-- Witness of C9 at capacity 2, plain variant. -/
theorem difference_never_fails_witness :
    ∃ r, HidParser_UsageListDifference [5, 7] [7, 8] [1, 1] [2, 2] 2 = some r ∧
      r.Status = HIDP_STATUS_SUCCESS :=
  difference_never_fails.1 2 [5, 7] [7, 8] [1, 1] [2, 2]
    (by decide) (by decide) (by decide) (by decide)

/-! ## Claims about the status translator -/

/-- C10.  `TranslateHidParserStatus` maps the nine listed parser statuses as the
table states; in particular `COLLECTION_NOT_FOUND` is mapped to
`HIDP_STATUS_NOT_IMPLEMENTED`. -/
theorem translate_table :
    TranslateHidParserStatus .INSUFFICIENT_RESOURCES = HIDP_STATUS_INTERNAL_ERROR ∧
    TranslateHidParserStatus .NOT_IMPLEMENTED = HIDP_STATUS_NOT_IMPLEMENTED ∧
    TranslateHidParserStatus .REPORT_NOT_FOUND = HIDP_STATUS_REPORT_DOES_NOT_EXIST ∧
    TranslateHidParserStatus .INVALID_REPORT_LENGTH = HIDP_STATUS_INVALID_REPORT_LENGTH ∧
    TranslateHidParserStatus .INVALID_REPORT_TYPE = HIDP_STATUS_INVALID_REPORT_TYPE ∧
    TranslateHidParserStatus .BUFFER_TOO_SMALL = HIDP_STATUS_BUFFER_TOO_SMALL ∧
    TranslateHidParserStatus .USAGE_NOT_FOUND = HIDP_STATUS_USAGE_NOT_FOUND ∧
    TranslateHidParserStatus .I8042_TRANS_UNKNOWN = HIDP_STATUS_I8042_TRANS_UNKNOWN ∧
    TranslateHidParserStatus .COLLECTION_NOT_FOUND = HIDP_STATUS_NOT_IMPLEMENTED :=
  ⟨rfl, rfl, rfl, rfl, rfl, rfl, rfl, rfl, rfl⟩

/-- C11.  `TranslateHidParserStatus` is a total function: it yields a public status
for every value of the internal status type, and every value other than the nine
of its table, `SUCCESS` and the values without a name among them, yields
`HIDP_STATUS_NOT_IMPLEMENTED`. -/
theorem translate_total (Status : HIDPARSER_STATUS) :
    (∃ Result, TranslateHidParserStatus Status = Result) ∧
    (Status ∉ [HIDPARSER_STATUS.INSUFFICIENT_RESOURCES, HIDPARSER_STATUS.NOT_IMPLEMENTED,
        HIDPARSER_STATUS.REPORT_NOT_FOUND, HIDPARSER_STATUS.INVALID_REPORT_LENGTH,
        HIDPARSER_STATUS.INVALID_REPORT_TYPE, HIDPARSER_STATUS.BUFFER_TOO_SMALL,
        HIDPARSER_STATUS.USAGE_NOT_FOUND, HIDPARSER_STATUS.I8042_TRANS_UNKNOWN,
        HIDPARSER_STATUS.COLLECTION_NOT_FOUND] →
      TranslateHidParserStatus Status = HIDP_STATUS_NOT_IMPLEMENTED) := by
  refine ⟨⟨_, rfl⟩, ?_⟩
  intro h
  cases Status <;> first | rfl | (exact absurd (by decide) h)

/-- Witness of C11: a status value without a name. -/
theorem translate_total_witness :
    TranslateHidParserStatus (HIDPARSER_STATUS.UNRECOGNIZED 77) = HIDP_STATUS_NOT_IMPLEMENTED :=
  (translate_total (HIDPARSER_STATUS.UNRECOGNIZED 77)).2 (by decide)

/-! ## Claims about collection descriptions -/

/-- C12.  When the descriptor parses and the parser reports no top-level
collection, `HidParser_GetCollectionDescription` returns `STATUS_NO_DATA_DETECTED`;
it has called the parse routine and the collection count routine and nothing
else, the allocator in particular not, and has left the memory as it was; and
`STATUS_NO_DATA_DETECTED` is not the status a collection-not-found parser status
translates to. -/
theorem no_collections_no_data (Checked : Bool) (Parser : HID_PARSER) (ReportDesc : List Nat)
    (DescLength : Nat) (m : Memory)
    (hparse : Parser.ParseReportDescriptor ReportDesc DescLength = HIDPARSER_STATUS.SUCCESS)
    (hcount : Parser.NumberOfTopCollections = 0) :
    HidParser_GetCollectionDescription Checked Parser ReportDesc DescLength m
      = some (STATUS_NO_DATA_DETECTED,
          { m with Calls := m.Calls ++ [Call.ParseReportDescriptor, Call.NumberOfTopCollections] })
    ∧ STATUS_NO_DATA_DETECTED ≠ TranslateHidParserStatus HIDPARSER_STATUS.COLLECTION_NOT_FOUND := by
  constructor
  · simp [HidParser_GetCollectionDescription, hparse, hcount, Memory.log]
  · decide

/-- Witness of C12: the sample parser with no collection. -/
theorem no_collections_no_data_witness :
    HidParser_GetCollectionDescription true (sampleParser 0) [5, 1] 2 emptyMemory
      = some (STATUS_NO_DATA_DETECTED,
          { emptyMemory with Calls := emptyMemory.Calls ++
              [Call.ParseReportDescriptor, Call.NumberOfTopCollections] })
    ∧ STATUS_NO_DATA_DETECTED ≠ TranslateHidParserStatus HIDPARSER_STATUS.COLLECTION_NOT_FOUND :=
  no_collections_no_data true (sampleParser 0) [5, 1] 2 emptyMemory rfl rfl

/-- C17.  When the external parser fails on the descriptor with a status `s` other
than success, `HidParser_GetCollectionDescription` returns
`TranslateHidParserStatus s`; it has called the parse routine and the debug
callback and nothing else (no allocation, no collection count query), and the
caller's record and the rest of the memory are as they were. -/
theorem parse_failure_returns (Checked : Bool) (Parser : HID_PARSER) (ReportDesc : List Nat)
    (DescLength : Nat) (m : Memory)
    (hparse : Parser.ParseReportDescriptor ReportDesc DescLength ≠ HIDPARSER_STATUS.SUCCESS) :
    HidParser_GetCollectionDescription Checked Parser ReportDesc DescLength m
      = some (TranslateHidParserStatus (Parser.ParseReportDescriptor ReportDesc DescLength),
          { m with Calls := m.Calls ++ [Call.ParseReportDescriptor, Call.Debug] }) := by
  simp [HidParser_GetCollectionDescription, hparse, Memory.log]

/-- Witness of C17: a parser that reports `INVALID_REPORT_LENGTH`. -/
theorem parse_failure_returns_witness :
    HidParser_GetCollectionDescription true
        { sampleParser 1 with
          ParseReportDescriptor := fun _ _ => HIDPARSER_STATUS.INVALID_REPORT_LENGTH }
        [5, 1] 2 emptyMemory
      = some (HIDP_STATUS_INVALID_REPORT_LENGTH,
          { emptyMemory with Calls := emptyMemory.Calls ++
              [Call.ParseReportDescriptor, Call.Debug] }) :=
  parse_failure_returns true
    { sampleParser 1 with
      ParseReportDescriptor := fun _ _ => HIDPARSER_STATUS.INVALID_REPORT_LENGTH }
    [5, 1] 2 emptyMemory (by decide)

/-- C16.  Let the descriptor parse and the parser report at least one collection.
If the allocation of the capability array fails, `HidParser_GetCollectionDescription`
returns `STATUS_INSUFFICIENT_RESOURCES` having called `Parser->Free` not at all, and
the record holds two `NULL` pointers.  If that allocation succeeds and the
allocation of the identity array fails, it returns `STATUS_INSUFFICIENT_RESOURCES`
having passed the capability array to `Parser->Free` once.  In both cases no
block allocated by the call is outstanding. -/
theorem array_allocation_failure (Checked FreeContextReleases : Bool) (Parser : HID_PARSER)
    (ReportDesc : List Nat) (DescLength : Nat) (m : Memory)
    (hparse : Parser.ParseReportDescriptor ReportDesc DescLength = HIDPARSER_STATUS.SUCCESS)
    (hcount : Parser.NumberOfTopCollections ≠ 0)
    (hassert : Checked = true → Parser.NumberOfTopCollections ≤ 1) :
    (Parser.AllocSucceeds m.Allocations
        (Parser.sizeofCollectionDesc * Parser.NumberOfTopCollections) = false →
      HidParser_GetCollectionDescription Checked Parser ReportDesc DescLength m
        = some (STATUS_INSUFFICIENT_RESOURCES,
            { m with
              Calls := m.Calls ++ [Call.ParseReportDescriptor, Call.NumberOfTopCollections,
                Call.Zero,
                Call.Alloc (Parser.sizeofCollectionDesc * Parser.NumberOfTopCollections) 0],
              Allocations := m.Allocations + 1,
              Description := ⟨0, 0, 0, 0⟩, CollectionDescArray := [], ReportIDsArray := [] })
      ∧ outstanding FreeContextReleases [Call.ParseReportDescriptor, Call.NumberOfTopCollections, Call.Zero,
          Call.Alloc (Parser.sizeofCollectionDesc * Parser.NumberOfTopCollections) 0] = []) ∧
    (Parser.AllocSucceeds m.Allocations
        (Parser.sizeofCollectionDesc * Parser.NumberOfTopCollections) = true →
      Parser.AllocSucceeds (m.Allocations + 1)
        (Parser.sizeofReportIDs * Parser.NumberOfTopCollections) = false →
      HidParser_GetCollectionDescription Checked Parser ReportDesc DescLength m
        = some (STATUS_INSUFFICIENT_RESOURCES,
            { m with
              Calls := m.Calls ++ [Call.ParseReportDescriptor, Call.NumberOfTopCollections,
                Call.Zero,
                Call.Alloc (Parser.sizeofCollectionDesc * Parser.NumberOfTopCollections)
                  (m.Allocations + 1),
                Call.Alloc (Parser.sizeofReportIDs * Parser.NumberOfTopCollections) 0,
                Call.Free (m.Allocations + 1)],
              Allocations := m.Allocations + 2,
              Description := ⟨m.Allocations + 1, 0, 0, 0⟩,
              CollectionDescArray := [], ReportIDsArray := [] })
      ∧ outstanding FreeContextReleases [Call.ParseReportDescriptor, Call.NumberOfTopCollections, Call.Zero,
          Call.Alloc (Parser.sizeofCollectionDesc * Parser.NumberOfTopCollections)
            (m.Allocations + 1),
          Call.Alloc (Parser.sizeofReportIDs * Parser.NumberOfTopCollections) 0,
          Call.Free (m.Allocations + 1)] = []) := by
  constructor
  · intro hfail
    constructor
    · simp [HidParser_GetCollectionDescription, hparse, hcount, Alloc, hfail, Memory.log]
      exact hassert
    · simp [outstanding]
  · intro hok hfail
    constructor
    · simp [HidParser_GetCollectionDescription, hparse, hcount, Alloc, hok, hfail,
        Memory.log]
      exact hassert
    · simp [outstanding]

/-- Witness of C16: the second allocation of the call fails. -/
theorem array_allocation_failure_witness :
    HidParser_GetCollectionDescription true
        { sampleParser 1 with AllocSucceeds := fun n _ => decide (n = 0) } [5, 1] 2 emptyMemory
      = some (STATUS_INSUFFICIENT_RESOURCES,
          { emptyMemory with
            Calls := [Call.ParseReportDescriptor, Call.NumberOfTopCollections, Call.Zero,
              Call.Alloc 32 1, Call.Alloc 8 0, Call.Free 1],
            Allocations := 2,
            Description := ⟨1, 0, 0, 0⟩, CollectionDescArray := [], ReportIDsArray := [] })
      ∧ outstanding true [Call.ParseReportDescriptor, Call.NumberOfTopCollections, Call.Zero,
          Call.Alloc 32 1, Call.Alloc 8 0, Call.Free 1] = [] :=
  (array_allocation_failure true true
    { sampleParser 1 with AllocSucceeds := fun n _ => decide (n = 0) } [5, 1] 2 emptyMemory
    rfl (by decide) (fun _ => by decide)).2 (by decide) (by decide)

/-! ## The population loop -/

theorem prepend_length (d : Nat) :
    (if d > 0 then d + 1 else 0) = (if d = 0 then 0 else d + 1) := by
  cases d <;> simp

theorem populateEntry_spec (Parser : HID_PARSER) (Index : Nat) (m : Memory)
    (hr : Index < m.ReportIDsArray.length) (he : Index < m.CollectionDescArray.length) :
    ∃ res m1, populateEntry Parser Index m = some (res, m1) ∧
      m1.Description = m.Description ∧ (∃ more, m1.Calls = m.Calls ++ more) ∧
      m1.ReportIDsArray.length = m.ReportIDsArray.length ∧
      m1.CollectionDescArray.length = m.CollectionDescArray.length ∧
      (∀ i, i ≠ Index → populated Parser m i → populated Parser m1 i) ∧
      (res = none → populated Parser m1 Index) ∧
      (∀ st, res = some st → st = STATUS_INSUFFICIENT_RESOURCES) ∧
      (Parser.AllocSucceeds m.Allocations Parser.GetContextSize = true → res = none) := by
  unfold populateEntry
  rw [List.getElem?_eq_getElem hr, List.getElem?_eq_getElem he]
  simp only [Alloc]
  by_cases hok : Parser.AllocSucceeds m.Allocations Parser.GetContextSize = true
  · simp only [hok, if_true, Nat.succ_ne_zero, if_false]
    refine ⟨_, _, rfl, rfl, ⟨_, by simp; rfl⟩, by simp, by simp, ?_, ?_, by simp, by simp⟩
    · rintro i hi ⟨r, e, h1, h2, h3, h4, h5, h6, h7, h8, h9, h10, h11, h12, h13, h14, h15⟩
      refine ⟨r, e, ?_, ?_, h3, h4, h5, h6, h7, h8, h9, h10, h11, h12, h13, ?_, ?_⟩
      · simpa [List.getElem?_set_ne (Ne.symm hi)] using h1
      · simpa [List.getElem?_set_ne (Ne.symm hi)] using h2
      · simp only; omega
      · have hne : (e.PreparsedData == m.Allocations + 1) = false := by
          simp only [beq_eq_false_iff_ne, ne_eq]; omega
        simp only [List.lookup_cons, hne]
        exact h15
    · intro _
      refine ⟨_, _, by simp [List.getElem?_set_self hr]; rfl, by simp [List.getElem?_set_self he]; rfl,
        ?_⟩
      simp [prepend_length]
  · simp only [Bool.not_eq_true] at hok
    simp only [hok, Bool.false_eq_true, if_false, if_true]
    refine ⟨_, _, rfl, rfl, ⟨_, by simp; rfl⟩, by simp, by simp, ?_, by simp, by simp, by simp [hok]⟩
    rintro i hi ⟨r, e, h1, h2, h3, h4, h5, h6, h7, h8, h9, h10, h11, h12, h13, h14, h15⟩
    refine ⟨r, e, ?_, ?_, h3, h4, h5, h6, h7, h8, h9, h10, h11, h12, h13, ?_, h15⟩
    · simpa [List.getElem?_set_ne (Ne.symm hi)] using h1
    · simpa [List.getElem?_set_ne (Ne.symm hi)] using h2
    · simp only; omega

theorem populateLoop_spec (Parser : HID_PARSER) (c : Nat) :
    ∀ (fuel Index : Nat) (m : Memory), c - Index ≤ fuel →
      m.ReportIDsArray.length = c → m.CollectionDescArray.length = c →
      (∀ i, i < Index → populated Parser m i) →
      ∃ res m1, populateLoop Parser c fuel Index m = some (res, m1) ∧
        m1.Description = m.Description ∧ (∃ more, m1.Calls = m.Calls ++ more) ∧
        m1.ReportIDsArray.length = c ∧ m1.CollectionDescArray.length = c ∧
        (res = none → ∀ i, i < c → populated Parser m1 i) ∧
        (∀ st, res = some st → st = STATUS_INSUFFICIENT_RESOURCES) ∧
        ((∀ n, Parser.AllocSucceeds n Parser.GetContextSize = true) → res = none) := by
  intro fuel
  induction fuel with
  | zero =>
    intro Index m hf hr he hp
    have hge : ¬ Index < c := by omega
    refine ⟨none, m, by simp [populateLoop, hge], rfl, ⟨[], by simp⟩, hr, he, ?_, by simp,
      fun _ => rfl⟩
    intro _ i hi
    exact hp i (by omega)
  | succ fuel ih =>
    intro Index m hf hr he hp
    by_cases hlt : Index < c
    · obtain ⟨res, m1, h1, hd, ⟨more, hc⟩, hr1, he1, hkeep, hnew, hst, hgood⟩ :=
        populateEntry_spec Parser Index m (by omega) (by omega)
      cases res with
      | some st =>
        refine ⟨some st, m1, by simp [populateLoop, hlt, h1], hd, ⟨more, hc⟩, by omega, by omega,
          by simp, ?_, ?_⟩
        · intro st1 h
          exact hst st1 h
        · intro hall
          exact hgood (hall _)
      | none =>
        obtain ⟨res2, m2, h2, hd2, ⟨more2, hc2⟩, hr2, he2, hall, hst2, hgood2⟩ :=
          ih (Index + 1) m1 (by omega) (by omega) (by omega) (by
            intro i hi
            by_cases hiI : i = Index
            · subst hiI; exact hnew rfl
            · exact hkeep i hiI (hp i (by omega)))
        refine ⟨res2, m2, by simp [populateLoop, hlt, h1, h2], hd2.trans hd,
          ⟨more ++ more2, by rw [hc2, hc, List.append_assoc]⟩, hr2, he2, hall, hst2, hgood2⟩
    · refine ⟨none, m, by simp [populateLoop, hlt], rfl, ⟨[], by simp⟩, hr, he, ?_, by simp,
        fun _ => rfl⟩
      intro _ i hi
      exact hp i (by omega)

theorem getCollectionDescription_eq_loop (Checked : Bool) (Parser : HID_PARSER)
    (ReportDesc : List Nat) (DescLength : Nat) (m : Memory)
    (hparse : Parser.ParseReportDescriptor ReportDesc DescLength = HIDPARSER_STATUS.SUCCESS)
    (hcount : Parser.NumberOfTopCollections ≠ 0)
    (hassert : Checked = true → Parser.NumberOfTopCollections ≤ 1)
    (h1 : Parser.AllocSucceeds m.Allocations
      (Parser.sizeofCollectionDesc * Parser.NumberOfTopCollections) = true)
    (h2 : Parser.AllocSucceeds (m.Allocations + 1)
      (Parser.sizeofReportIDs * Parser.NumberOfTopCollections) = true) :
    HidParser_GetCollectionDescription Checked Parser ReportDesc DescLength m
      = match populateLoop Parser Parser.NumberOfTopCollections Parser.NumberOfTopCollections 0
          (loopStart Parser m) with
        | none => none
        | some (some Status, m5) => some (Status, m5)
        | some (none, m5) =>
          some (STATUS_SUCCESS,
            { m5 with Description :=
                { m5.Description with
                  CollectionDescLength := Parser.NumberOfTopCollections,
                  ReportIDsLength := Parser.NumberOfTopCollections } }) := by
  have hnot : ¬ (Checked = true ∧ ¬ Parser.NumberOfTopCollections ≤ 1) :=
    fun h => h.2 (hassert h.1)
  simp only [HidParser_GetCollectionDescription, hparse, ne_eq, not_true_eq_false, if_false,
    hnot, hcount, Alloc, Memory.log, h1, h2, if_true, Nat.succ_ne_zero, List.append_assoc,
    List.singleton_append, List.cons_append, List.nil_append]
  rfl

theorem translate_ne_success (Status : HIDPARSER_STATUS) :
    TranslateHidParserStatus Status ≠ STATUS_SUCCESS ∧
    TranslateHidParserStatus Status ≠ HIDP_STATUS_SUCCESS := by
  cases Status <;> simp [TranslateHidParserStatus]

theorem array_alloc_fails (Checked : Bool) (Parser : HID_PARSER)
    (ReportDesc : List Nat) (DescLength : Nat) (m : Memory)
    (hparse : Parser.ParseReportDescriptor ReportDesc DescLength = HIDPARSER_STATUS.SUCCESS)
    (hcount : Parser.NumberOfTopCollections ≠ 0)
    (hassert : Checked = true → Parser.NumberOfTopCollections ≤ 1) :
    (Parser.AllocSucceeds m.Allocations
        (Parser.sizeofCollectionDesc * Parser.NumberOfTopCollections) = false →
      HidParser_GetCollectionDescription Checked Parser ReportDesc DescLength m
        = some (STATUS_INSUFFICIENT_RESOURCES,
            { m with
              Calls := m.Calls ++ [Call.ParseReportDescriptor, Call.NumberOfTopCollections,
                Call.Zero,
                Call.Alloc (Parser.sizeofCollectionDesc * Parser.NumberOfTopCollections) 0],
              Allocations := m.Allocations + 1,
              Description := ⟨0, 0, 0, 0⟩, CollectionDescArray := [], ReportIDsArray := [] })) ∧
    (Parser.AllocSucceeds m.Allocations
        (Parser.sizeofCollectionDesc * Parser.NumberOfTopCollections) = true →
      Parser.AllocSucceeds (m.Allocations + 1)
        (Parser.sizeofReportIDs * Parser.NumberOfTopCollections) = false →
      HidParser_GetCollectionDescription Checked Parser ReportDesc DescLength m
        = some (STATUS_INSUFFICIENT_RESOURCES,
            { m with
              Calls := m.Calls ++ [Call.ParseReportDescriptor, Call.NumberOfTopCollections,
                Call.Zero,
                Call.Alloc (Parser.sizeofCollectionDesc * Parser.NumberOfTopCollections)
                  (m.Allocations + 1),
                Call.Alloc (Parser.sizeofReportIDs * Parser.NumberOfTopCollections) 0,
                Call.Free (m.Allocations + 1)],
              Allocations := m.Allocations + 2,
              Description := ⟨m.Allocations + 1, 0, 0, 0⟩,
              CollectionDescArray := [], ReportIDsArray := [] })) := by
  constructor
  · intro hfail
    simp [HidParser_GetCollectionDescription, hparse, hcount, Alloc, hfail, Memory.log]
    exact hassert
  · intro hok hfail
    simp [HidParser_GetCollectionDescription, hparse, hcount, Alloc, hok, hfail, Memory.log]
    exact hassert

theorem getCollectionDescription_success_inv (Checked : Bool) (Parser : HID_PARSER)
    (ReportDesc : List Nat) (DescLength : Nat) (m m1 : Memory)
    (h : HidParser_GetCollectionDescription Checked Parser ReportDesc DescLength m
      = some (STATUS_SUCCESS, m1)) :
    Parser.ParseReportDescriptor ReportDesc DescLength = HIDPARSER_STATUS.SUCCESS ∧
    Parser.NumberOfTopCollections ≠ 0 ∧
    m1.Description = ⟨m.Allocations + 1, Parser.NumberOfTopCollections, m.Allocations + 2,
      Parser.NumberOfTopCollections⟩ ∧
    m1.ReportIDsArray.length = Parser.NumberOfTopCollections ∧
    m1.CollectionDescArray.length = Parser.NumberOfTopCollections ∧
    (∀ i, i < Parser.NumberOfTopCollections → populated Parser m1 i) ∧
    ∃ more, m1.Calls = (loopStart Parser m).Calls ++ more := by
  by_cases hparse : Parser.ParseReportDescriptor ReportDesc DescLength = HIDPARSER_STATUS.SUCCESS
  swap
  · simp [HidParser_GetCollectionDescription, hparse] at h
    exact absurd h.1 (translate_ne_success _).1
  by_cases hassert : Checked = true → Parser.NumberOfTopCollections ≤ 1
  swap
  · have hbad : Checked = true ∧ ¬ Parser.NumberOfTopCollections ≤ 1 := by
      by_contra hc
      exact hassert (fun ht => by_contra (fun hn => hc ⟨ht, hn⟩))
    simp [HidParser_GetCollectionDescription, hparse, hbad] at h
  by_cases hcount : Parser.NumberOfTopCollections = 0
  · simp [HidParser_GetCollectionDescription, hparse, hcount] at h
  by_cases h1 : Parser.AllocSucceeds m.Allocations
      (Parser.sizeofCollectionDesc * Parser.NumberOfTopCollections) = true
  swap
  · have hx := (array_alloc_fails Checked Parser ReportDesc DescLength m hparse hcount hassert).1
      (by simpa using h1)
    rw [hx] at h
    simp at h
  by_cases h2 : Parser.AllocSucceeds (m.Allocations + 1)
      (Parser.sizeofReportIDs * Parser.NumberOfTopCollections) = true
  swap
  · have hx := (array_alloc_fails Checked Parser ReportDesc DescLength m hparse hcount hassert).2
      h1 (by simpa using h2)
    rw [hx] at h
    simp at h
  rw [getCollectionDescription_eq_loop Checked Parser ReportDesc DescLength m hparse hcount hassert
    h1 h2] at h
  obtain ⟨res, m5, hl, hd, ⟨more, hc⟩, hr, he, hall, hst, _⟩ :=
    populateLoop_spec Parser Parser.NumberOfTopCollections Parser.NumberOfTopCollections 0
      (loopStart Parser m) (by omega) (by simp [loopStart]) (by simp [loopStart])
      (by intro i hi; omega)
  rw [hl] at h
  cases res with
  | some st =>
    simp only [Option.some.injEq, Prod.mk.injEq] at h
    have := hst st rfl
    rw [this] at h
    exact absurd h.1 (by decide)
  | none =>
    simp only [Option.some.injEq, Prod.mk.injEq, true_and] at h
    subst h
    refine ⟨hparse, hcount, ?_, hr, he, hall rfl, ⟨more, hc⟩⟩
    simp [hd, loopStart]

theorem getCollectionDescription_succeeds (Checked : Bool) (Parser : HID_PARSER)
    (ReportDesc : List Nat) (DescLength : Nat) (m : Memory)
    (hparse : Parser.ParseReportDescriptor ReportDesc DescLength = HIDPARSER_STATUS.SUCCESS)
    (hcount : Parser.NumberOfTopCollections ≠ 0)
    (hassert : Checked = true → Parser.NumberOfTopCollections ≤ 1)
    (halloc : ∀ n Size, Parser.AllocSucceeds n Size = true) :
    ∃ m1, HidParser_GetCollectionDescription Checked Parser ReportDesc DescLength m
      = some (STATUS_SUCCESS, m1) := by
  rw [getCollectionDescription_eq_loop Checked Parser ReportDesc DescLength m hparse hcount
    hassert (halloc _ _) (halloc _ _)]
  obtain ⟨res, m5, hl, _, _, _, _, _, _, hgood⟩ :=
    populateLoop_spec Parser Parser.NumberOfTopCollections Parser.NumberOfTopCollections 0
      (loopStart Parser m) (by omega) (by simp [loopStart]) (by simp [loopStart])
      (by intro i hi; omega)
  have hres := hgood (fun n => halloc n _)
  subst hres
  rw [hl]
  exact ⟨_, rfl⟩

/-! ## The scan-code translation loop -/

theorem translateLoop_eq {σ : Type} (K C : USAGE)
    (W : USAGE → HIDP_KEYBOARD_DIRECTION → σ → HIDPARSER_STATUS × σ)
    (L : List USAGE_AND_PAGE) (N : Nat) (KeyAction : HIDP_KEYBOARD_DIRECTION)
    (hN : N ≤ L.length) :
    ∀ (fuel Index : Nat) (s : σ), Index ≤ N → N - Index ≤ fuel →
      (match translateLoop K C W L N KeyAction fuel Index HIDPARSER_STATUS.SUCCESS s with
        | none => none
        | some (some Result, _, s1) => some (Result, s1)
        | some (none, Status, s1) =>
          if Status ≠ HIDPARSER_STATUS.SUCCESS then some (TranslateHidParserStatus Status, s1)
          else some (HIDP_STATUS_SUCCESS, s1))
        = some (translateAll K C W KeyAction ((L.take N).drop Index) s) := by
  intro fuel
  induction fuel with
  | zero =>
    intro Index s hle hf
    have hI : Index = N := by omega
    subst hI
    simp [translateLoop, drop_take_self, translateAll]
  | succ fuel ih =>
    intro Index s hle hf
    by_cases hlt : Index < N
    · have hL : Index < L.length := by omega
      rw [drop_take_cons L N Index hlt hN]
      simp only [translateLoop, hlt, if_true, List.getElem?_eq_getElem hL, translateAll]
      by_cases hk : L[Index].UsagePage = K
      · simp only [hk, if_true]
        by_cases hs : (W L[Index].Usage KeyAction s).1 = HIDPARSER_STATUS.SUCCESS
        · simp only [hs, ne_eq, not_true_eq_false, if_false, if_true]
          exact ih (Index + 1) (W L[Index].Usage KeyAction s).2 (by omega) (by omega)
        · simp [hs]
      · by_cases hc : L[Index].UsagePage = C
        · have hck : ¬ C = K := by rw [← hc]; exact hk
          simp [hc, hck, TranslateHidParserStatus]
        · simp [hk, hc]
    · have hI : Index = N := by omega
      subst hI
      simp [translateLoop, drop_take_self, translateAll]

theorem translateUsageAndPages_eq {σ : Type} (K C : USAGE)
    (W : USAGE → HIDP_KEYBOARD_DIRECTION → σ → HIDPARSER_STATUS × σ)
    (L : List USAGE_AND_PAGE) (N : Nat) (KeyAction : HIDP_KEYBOARD_DIRECTION) (s : σ)
    (hN : N ≤ L.length) :
    HidParser_TranslateUsageAndPagesToI8042ScanCodes K C W L N KeyAction s
      = some (translateAll K C W KeyAction (L.take N) s) := by
  have h := translateLoop_eq K C W L N KeyAction hN N 0 s (by omega) (by omega)
  simp only [List.drop_zero] at h
  rw [← h]
  unfold HidParser_TranslateUsageAndPagesToI8042ScanCodes
  rfl

theorem translateAll_unknown {σ : Type} (K C : USAGE)
    (W : USAGE → HIDP_KEYBOARD_DIRECTION → σ → HIDPARSER_STATUS × σ)
    (KeyAction : HIDP_KEYBOARD_DIRECTION) (e : USAGE_AND_PAGE) (rest : List USAGE_AND_PAGE)
    (hk : e.UsagePage ≠ K) (hc : e.UsagePage ≠ C) :
    ∀ (pre : List USAGE_AND_PAGE) (s : σ), (∀ x ∈ pre, x.UsagePage = K) →
      acceptsAll W KeyAction pre s = true →
      translateAll K C W KeyAction (pre ++ e :: rest) s
        = (HIDP_STATUS_I8042_TRANS_UNKNOWN, forwardAll W KeyAction pre s) := by
  intro pre
  induction pre with
  | nil =>
    intro s _ _
    simp [translateAll, hk, hc, forwardAll]
  | cons x xs ih =>
    intro s hpage hacc
    simp only [acceptsAll, Bool.and_eq_true, decide_eq_true_eq] at hacc
    have hx : x.UsagePage = K := hpage x (List.mem_cons_self _ _)
    simp only [List.cons_append, translateAll, hx, if_true, hacc.1, forwardAll]
    exact ih _ (fun y hy => hpage y (List.mem_cons_of_mem _ hy)) hacc.2

theorem translateAll_success_iff {σ : Type} (K C : USAGE)
    (W : USAGE → HIDP_KEYBOARD_DIRECTION → σ → HIDPARSER_STATUS × σ)
    (KeyAction : HIDP_KEYBOARD_DIRECTION) :
    ∀ (L : List USAGE_AND_PAGE) (s : σ),
      (translateAll K C W KeyAction L s).1 = HIDP_STATUS_SUCCESS ↔
        ((∀ x ∈ L, x.UsagePage = K) ∧ acceptsAll W KeyAction L s = true) := by
  intro L
  induction L with
  | nil => intro s; simp [translateAll, acceptsAll]
  | cons x xs ih =>
    intro s
    by_cases hk : x.UsagePage = K
    · by_cases hs : (W x.Usage KeyAction s).1 = HIDPARSER_STATUS.SUCCESS
      · simp only [translateAll, hk, if_true, hs, acceptsAll, decide_True, Bool.true_and,
          List.mem_cons, forall_eq_or_imp, true_and]
        exact ih _
      · simp only [translateAll, hk, if_true, hs, if_false, acceptsAll, decide_False,
          Bool.false_and, Bool.false_eq_true, and_false, iff_false]
        exact (translate_ne_success _).2
    · have hno : ¬ ∀ y ∈ x :: xs, y.UsagePage = K := fun h => hk (h x (List.mem_cons_self _ _))
      have hval : (translateAll K C W KeyAction (x :: xs) s).1 ≠ HIDP_STATUS_SUCCESS := by
        rw [translateAll, if_neg hk]
        split <;> simp
      exact ⟨fun h => absurd h hval, fun h => absurd h.1 hno⟩

theorem translateAll_first_error {σ : Type} (K C : USAGE)
    (W : USAGE → HIDP_KEYBOARD_DIRECTION → σ → HIDPARSER_STATUS × σ)
    (KeyAction : HIDP_KEYBOARD_DIRECTION) (e : USAGE_AND_PAGE) (rest : List USAGE_AND_PAGE) :
    ∀ (pre : List USAGE_AND_PAGE) (s : σ), (∀ x ∈ pre, x.UsagePage = K) →
      acceptsAll W KeyAction pre s = true →
      ¬ (e.UsagePage = K ∧
          (W e.Usage KeyAction (forwardAll W KeyAction pre s)).1 = HIDPARSER_STATUS.SUCCESS) →
      translateAll K C W KeyAction (pre ++ e :: rest) s
        = (if e.UsagePage = K then
            (TranslateHidParserStatus (W e.Usage KeyAction (forwardAll W KeyAction pre s)).1,
              (W e.Usage KeyAction (forwardAll W KeyAction pre s)).2)
          else if e.UsagePage = C then
            (HIDP_STATUS_NOT_IMPLEMENTED, forwardAll W KeyAction pre s)
          else (HIDP_STATUS_I8042_TRANS_UNKNOWN, forwardAll W KeyAction pre s)) := by
  intro pre
  induction pre with
  | nil =>
    intro s _ _ hbad
    simp only [forwardAll] at hbad ⊢
    by_cases hk : e.UsagePage = K
    · have hs : ¬ (W e.Usage KeyAction s).1 = HIDPARSER_STATUS.SUCCESS := fun h => hbad ⟨hk, h⟩
      simp [translateAll, hk, hs]
    · simp [translateAll, hk]
  | cons x xs ih =>
    intro s hpage hacc hbad
    simp only [acceptsAll, Bool.and_eq_true, decide_eq_true_eq] at hacc
    have hx : x.UsagePage = K := hpage x (List.mem_cons_self _ _)
    simp only [List.cons_append, translateAll, hx, if_true, hacc.1, forwardAll]
    exact ih _ (fun y hy => hpage y (List.mem_cons_of_mem _ hy)) hacc.2 hbad

/-- C13.  Whenever `HidParser_GetCollectionDescription` returns `STATUS_SUCCESS`, for
every collection index `i` below the collection count the identity entry holds
the three report lengths as the parser gave them, and the capability entry holds
each of them with one added when it is not zero, and zero when it is zero. -/
theorem report_lengths_stored (Checked : Bool) (Parser : HID_PARSER) (ReportDesc : List Nat)
    (DescLength : Nat) (m m1 : Memory)
    (h : HidParser_GetCollectionDescription Checked Parser ReportDesc DescLength m
      = some (STATUS_SUCCESS, m1))
    (i : Nat) (hi : i < Parser.NumberOfTopCollections) :
    ∃ r e, m1.ReportIDsArray[i]? = some r ∧ m1.CollectionDescArray[i]? = some e ∧
      r.InputLength = Parser.GetReportLength HID_REPORT_TYPE_INPUT ∧
      r.OutputLength = Parser.GetReportLength HID_REPORT_TYPE_OUTPUT ∧
      r.FeatureLength = Parser.GetReportLength HID_REPORT_TYPE_FEATURE ∧
      e.InputLength = (if Parser.GetReportLength HID_REPORT_TYPE_INPUT = 0 then 0
        else Parser.GetReportLength HID_REPORT_TYPE_INPUT + 1) ∧
      e.OutputLength = (if Parser.GetReportLength HID_REPORT_TYPE_OUTPUT = 0 then 0
        else Parser.GetReportLength HID_REPORT_TYPE_OUTPUT + 1) ∧
      e.FeatureLength = (if Parser.GetReportLength HID_REPORT_TYPE_FEATURE = 0 then 0
        else Parser.GetReportLength HID_REPORT_TYPE_FEATURE + 1) := by
  obtain ⟨_, _, _, _, _, hall, _⟩ :=
    getCollectionDescription_success_inv Checked Parser ReportDesc DescLength m m1 h
  obtain ⟨r, e, h1, h2, _, _, h5, h6, h7, _, h9, h10, h11, _⟩ := hall i hi
  exact ⟨r, e, h1, h2, h5, h6, h7, h9, h10, h11⟩

/-- Witness of C13: raw input length 8 gives 8 in the identity entry and 9 in the
capability entry, raw output length 0 gives 0 in both. -/
theorem report_lengths_stored_witness :
    ∃ r e, sampleBuilt.ReportIDsArray[0]? = some r ∧ sampleBuilt.CollectionDescArray[0]? = some e ∧
      r.InputLength = 8 ∧ r.OutputLength = 0 ∧ r.FeatureLength = 3 ∧
      e.InputLength = 9 ∧ e.OutputLength = 0 ∧ e.FeatureLength = 4 :=
  report_lengths_stored true (sampleParser 1) [5, 1] 2 emptyMemory sampleBuilt (by decide) 0
    (by decide)

/-- C18.  Whenever `HidParser_GetCollectionDescription` returns `STATUS_SUCCESS`, with
`c` the collection count of the parser: `CollectionDescLength` and
`ReportIDsLength` are `c`, both arrays have `c` entries, and every index below `c`
is populated: both entries carry collection number `i + 1`, the identity entry
report ID `i`, the blob pointer is not `NULL`, `PreparsedDataLength` is the context
size of the parser and the blob holds that many bytes of the parser context.
And the call does return `STATUS_SUCCESS` when the descriptor parses, there is a
collection, the assertion holds and no allocation fails. -/
theorem success_fully_populated (Checked : Bool) (Parser : HID_PARSER) (ReportDesc : List Nat)
    (DescLength : Nat) (m : Memory) :
    (∀ m1, HidParser_GetCollectionDescription Checked Parser ReportDesc DescLength m
        = some (STATUS_SUCCESS, m1) →
      m1.Description.CollectionDescLength = Parser.NumberOfTopCollections ∧
      m1.Description.ReportIDsLength = Parser.NumberOfTopCollections ∧
      m1.Description.CollectionDesc ≠ 0 ∧ m1.Description.ReportIDs ≠ 0 ∧
      m1.CollectionDescArray.length = Parser.NumberOfTopCollections ∧
      m1.ReportIDsArray.length = Parser.NumberOfTopCollections ∧
      ∀ i, i < Parser.NumberOfTopCollections → populated Parser m1 i) ∧
    (Parser.ParseReportDescriptor ReportDesc DescLength = HIDPARSER_STATUS.SUCCESS →
      Parser.NumberOfTopCollections ≠ 0 →
      (Checked = true → Parser.NumberOfTopCollections ≤ 1) →
      (∀ n Size, Parser.AllocSucceeds n Size = true) →
      ∃ m1, HidParser_GetCollectionDescription Checked Parser ReportDesc DescLength m
        = some (STATUS_SUCCESS, m1)) := by
  constructor
  · intro m1 h
    obtain ⟨_, _, hd, hr, he, hall, _⟩ :=
      getCollectionDescription_success_inv Checked Parser ReportDesc DescLength m m1 h
    refine ⟨by simp [hd], by simp [hd], by simp [hd], by simp [hd], he, hr, hall⟩
  · intro hparse hcount hassert halloc
    exact getCollectionDescription_succeeds Checked Parser ReportDesc DescLength m hparse hcount
      hassert halloc

/-- Witness of C18: the build on the sample parser with one collection. -/
theorem success_fully_populated_witness :
    sampleBuilt.Description.CollectionDescLength = 1 ∧
    sampleBuilt.Description.ReportIDsLength = 1 ∧
    sampleBuilt.Description.CollectionDesc ≠ 0 ∧ sampleBuilt.Description.ReportIDs ≠ 0 ∧
    sampleBuilt.CollectionDescArray.length = 1 ∧
    sampleBuilt.ReportIDsArray.length = 1 ∧
    ∀ i, i < 1 → populated (sampleParser 1) sampleBuilt i :=
  (success_fully_populated true (sampleParser 1) [5, 1] 2 emptyMemory).1 sampleBuilt (by decide)

/-- C15, counterexample.  With a parser that reports two top-level collections, a
build with assertions does not return; a build without assertions returns
`STATUS_SUCCESS` having requested both arrays for two entries (`2 * 32` and `2 * 8`
bytes) and having written the capability and the identity entry at index 1. -/
theorem several_collections_counterexample :
    (sampleParser 2).NumberOfTopCollections = 2 ∧
    HidParser_GetCollectionDescription true (sampleParser 2) [5, 1] 2 emptyMemory = none ∧
    ∃ m1, HidParser_GetCollectionDescription false (sampleParser 2) [5, 1] 2 emptyMemory
        = some (STATUS_SUCCESS, m1) ∧
      Call.Alloc (2 * 32) 1 ∈ m1.Calls ∧ Call.Alloc (2 * 8) 2 ∈ m1.Calls ∧
      m1.CollectionDescArray[1]? = some ⟨1, 7, 2, 9, 0, 4, 4, 4⟩ ∧
      (sampleParser 2).FreshCollectionDesc 1 ≠ ⟨1, 7, 2, 9, 0, 4, 4, 4⟩ ∧
      m1.ReportIDsArray[1]? = some ⟨1, 2, 8, 0, 3⟩ ∧
      (sampleParser 2).FreshReportIDs 1 ≠ ⟨1, 2, 8, 0, 3⟩ :=
  ⟨rfl, by decide, _, rfl, by decide, by decide, by decide, by decide, by decide, by decide⟩

/-- C15, amended.  When the descriptor parses and the parser reports `c > 1`
top-level collections: a build with assertions stops at
`ASSERT(CollectionCount <= 1)`; a build without assertions requests the
capability array and the identity array for `c` entries each, and whenever it
returns `STATUS_SUCCESS` both arrays have exactly `c` entries, every index below
`c` is populated and, the stores being confined to the arrays, no entry at an
index from `c` on is written; it does return `STATUS_SUCCESS` when no allocation
fails. -/
theorem several_collections_all_populated (Parser : HID_PARSER) (ReportDesc : List Nat)
    (DescLength : Nat) (m : Memory)
    (hparse : Parser.ParseReportDescriptor ReportDesc DescLength = HIDPARSER_STATUS.SUCCESS)
    (hmany : 1 < Parser.NumberOfTopCollections) :
    HidParser_GetCollectionDescription true Parser ReportDesc DescLength m = none ∧
    (∀ m1, HidParser_GetCollectionDescription false Parser ReportDesc DescLength m
        = some (STATUS_SUCCESS, m1) →
      (∃ more, m1.Calls = m.Calls ++ [Call.ParseReportDescriptor, Call.NumberOfTopCollections,
        Call.Zero,
        Call.Alloc (Parser.sizeofCollectionDesc * Parser.NumberOfTopCollections)
          (m.Allocations + 1),
        Call.Alloc (Parser.sizeofReportIDs * Parser.NumberOfTopCollections)
          (m.Allocations + 2)] ++ more) ∧
      m1.CollectionDescArray.length = Parser.NumberOfTopCollections ∧
      m1.ReportIDsArray.length = Parser.NumberOfTopCollections ∧
      ∀ i, i < Parser.NumberOfTopCollections → populated Parser m1 i) ∧
    ((∀ n Size, Parser.AllocSucceeds n Size = true) →
      ∃ m1, HidParser_GetCollectionDescription false Parser ReportDesc DescLength m
        = some (STATUS_SUCCESS, m1)) := by
  refine ⟨?_, ?_, ?_⟩
  · have hbad : ¬ Parser.NumberOfTopCollections ≤ 1 := by omega
    simp [HidParser_GetCollectionDescription, hparse, hbad]
  · intro m1 h
    obtain ⟨_, _, _, hr, he, hall, hcalls⟩ :=
      getCollectionDescription_success_inv false Parser ReportDesc DescLength m m1 h
    exact ⟨hcalls, he, hr, hall⟩
  · intro halloc
    exact getCollectionDescription_succeeds false Parser ReportDesc DescLength m hparse
      (by omega) (by simp) halloc

/-- Witness of the amended C15: the sample parser with two collections. -/
theorem several_collections_all_populated_witness :
    HidParser_GetCollectionDescription true (sampleParser 2) [5, 1] 2 emptyMemory = none ∧
    ∃ m1, HidParser_GetCollectionDescription false (sampleParser 2) [5, 1] 2 emptyMemory
      = some (STATUS_SUCCESS, m1) :=
  ⟨(several_collections_all_populated (sampleParser 2) [5, 1] 2 emptyMemory rfl (by decide)).1,
    (several_collections_all_populated (sampleParser 2) [5, 1] 2 emptyMemory rfl (by decide)).2.2
      (fun _ _ => rfl)⟩

/-- C14, the code at a concrete input.  The build on the sample parser with one
collection makes three `Parser->Alloc` calls, returning the addresses 1 (capability
array), 2 (identity array) and 3 (blob of 4 bytes).  The release calls
`HidParser_FreeContext` once, for the blob with its recorded length, then
`Parser->Free` for the capability array, then `ExFreePool` for the identity array:
the injected allocator never gets the identity array (address 2) back, whether
or not `HidParser_FreeContext` hands the blob back to it. -/
theorem release_bypasses_allocator :
    HidParser_GetCollectionDescription true (sampleParser 1) [5, 1] 2 emptyMemory
      = some (STATUS_SUCCESS, sampleBuilt) ∧
    HidParser_FreeCollectionDescription sampleBuilt
      = some { sampleBuilt with
          Calls := sampleBuilt.Calls ++ [Call.FreeContext 3 4, Call.Free 1, Call.ExFreePool 2],
          CollectionDescArray := [], ReportIDsArray := [] } ∧
    outstanding true (sampleBuilt.Calls ++ [Call.FreeContext 3 4, Call.Free 1, Call.ExFreePool 2])
      = [2] ∧
    outstanding false (sampleBuilt.Calls ++ [Call.FreeContext 3 4, Call.Free 1, Call.ExFreePool 2])
      = [2, 3] := by
  refine ⟨by decide, by decide, by decide, by decide⟩

/-! ## Claims about the dispatchers -/

/-- C19.  With the link collection unspecified, `HidParser_GetSpecificValueCaps`,
`HidParser_GetUsages`, `HidParser_GetScaledUsageValue` and `HidParser_GetUsagesEx`
have one shape.  For a report type other than input, output and feature the
result is `HIDP_STATUS_INVALID_REPORT_TYPE` and the state is the initial one,
whatever the internal routine is.  Otherwise the state is the one that a single
application of the internal routine to the initial state leaves, the routine
being given the matching internal report type and the arguments of the call,
and the result is `HIDP_STATUS_SUCCESS` when the routine reports success and the
translation of its status otherwise. -/
theorem dispatch_shape {σ : Type} (Checked : Bool) (ReportType : HIDP_REPORT_TYPE)
    (UsagePage Usage : USAGE) (Report : List Nat) (ReportLength : Nat) (s : σ) :
    (∀ W : HID_REPORT_TYPE → USAGE → USAGE → σ → HIDPARSER_STATUS × σ,
      HidParser_GetSpecificValueCaps Checked W ReportType UsagePage
          LINK_COLLECTION.HIDP_LINK_COLLECTION_UNSPECIFIED Usage s
        = some (match internalReportType ReportType with
            | none => (HIDP_STATUS_INVALID_REPORT_TYPE, s)
            | some T =>
              (if (W T UsagePage Usage s).1 = HIDPARSER_STATUS.SUCCESS then HIDP_STATUS_SUCCESS
                else TranslateHidParserStatus (W T UsagePage Usage s).1,
               (W T UsagePage Usage s).2))) ∧
    (∀ W : HID_REPORT_TYPE → USAGE → List Nat → Nat → σ → HIDPARSER_STATUS × σ,
      HidParser_GetUsages Checked W ReportType UsagePage
          LINK_COLLECTION.HIDP_LINK_COLLECTION_UNSPECIFIED Report ReportLength s
        = some (match internalReportType ReportType with
            | none => (HIDP_STATUS_INVALID_REPORT_TYPE, s)
            | some T =>
              (if (W T UsagePage Report ReportLength s).1 = HIDPARSER_STATUS.SUCCESS
                then HIDP_STATUS_SUCCESS
                else TranslateHidParserStatus (W T UsagePage Report ReportLength s).1,
               (W T UsagePage Report ReportLength s).2))) ∧
    (∀ W : HID_REPORT_TYPE → USAGE → USAGE → List Nat → Nat → σ → HIDPARSER_STATUS × σ,
      HidParser_GetScaledUsageValue Checked W ReportType UsagePage
          LINK_COLLECTION.HIDP_LINK_COLLECTION_UNSPECIFIED Usage Report ReportLength s
        = some (match internalReportType ReportType with
            | none => (HIDP_STATUS_INVALID_REPORT_TYPE, s)
            | some T =>
              (if (W T UsagePage Usage Report ReportLength s).1 = HIDPARSER_STATUS.SUCCESS
                then HIDP_STATUS_SUCCESS
                else TranslateHidParserStatus (W T UsagePage Usage Report ReportLength s).1,
               (W T UsagePage Usage Report ReportLength s).2))) ∧
    (∀ (Undefined : USAGE)
        (W : HID_REPORT_TYPE → USAGE → List Nat → Nat → σ → HIDPARSER_STATUS × σ),
      HidParser_GetUsagesEx Checked Undefined W ReportType
          LINK_COLLECTION.HIDP_LINK_COLLECTION_UNSPECIFIED Report ReportLength s
        = some (match internalReportType ReportType with
            | none => (HIDP_STATUS_INVALID_REPORT_TYPE, s)
            | some T =>
              (if (W T Undefined Report ReportLength s).1 = HIDPARSER_STATUS.SUCCESS
                then HIDP_STATUS_SUCCESS
                else TranslateHidParserStatus (W T Undefined Report ReportLength s).1,
               (W T Undefined Report ReportLength s).2))) := by
  refine ⟨?_, ?_, ?_, ?_⟩
  · intro W
    cases ReportType <;>
      simp only [HidParser_GetSpecificValueCaps, internalReportType, finishDispatch, ne_eq,
        not_true_eq_false, and_false, if_false] <;> split <;> rfl
  · intro W
    cases ReportType <;>
      simp only [HidParser_GetUsages, internalReportType, finishDispatch, ne_eq,
        not_true_eq_false, and_false, if_false] <;> split <;> rfl
  · intro W
    cases ReportType <;>
      simp only [HidParser_GetScaledUsageValue, internalReportType, finishDispatch, ne_eq,
        not_true_eq_false, and_false, if_false] <;> split <;> rfl
  · intro Undefined W
    cases ReportType <;>
      simp only [HidParser_GetUsagesEx, HidParser_GetUsages, internalReportType, finishDispatch,
        ne_eq, not_true_eq_false, and_false, if_false] <;> split <;> rfl

/-- C20.  Let the entries of the batch at the indices below `i` be keyboard-page
entries which `HidParser_TranslateUsage` accepts when they are forwarded in order,
and let the entry at index `i < UsageListLength` have a usage page that is neither
the keyboard page nor the consumer page.  Then
`HidParser_TranslateUsageAndPagesToI8042ScanCodes` returns
`HIDP_STATUS_I8042_TRANS_UNKNOWN`, and the state (modifier state, inserted scan
codes) is the one left by forwarding the entries `0` to `i - 1`, once each and in
order: nothing is rolled back. -/
theorem unknown_page_no_rollback {σ : Type} (HID_USAGE_PAGE_KEYBOARD HID_USAGE_PAGE_CONSUMER : USAGE)
    (HidParser_TranslateUsage : USAGE → HIDP_KEYBOARD_DIRECTION → σ → HIDPARSER_STATUS × σ)
    (ChangedUsageList : List USAGE_AND_PAGE) (UsageListLength : Nat)
    (KeyAction : HIDP_KEYBOARD_DIRECTION) (s : σ) (i : Nat) (Entry : USAGE_AND_PAGE)
    (hN : UsageListLength ≤ ChangedUsageList.length) (hi : i < UsageListLength)
    (hkeyboard : ∀ x ∈ ChangedUsageList.take i, x.UsagePage = HID_USAGE_PAGE_KEYBOARD)
    (haccepted : acceptsAll HidParser_TranslateUsage KeyAction (ChangedUsageList.take i) s = true)
    (hentry : ChangedUsageList[i]? = some Entry)
    (hk : Entry.UsagePage ≠ HID_USAGE_PAGE_KEYBOARD)
    (hc : Entry.UsagePage ≠ HID_USAGE_PAGE_CONSUMER) :
    HidParser_TranslateUsageAndPagesToI8042ScanCodes HID_USAGE_PAGE_KEYBOARD
        HID_USAGE_PAGE_CONSUMER HidParser_TranslateUsage ChangedUsageList UsageListLength
        KeyAction s
      = some (HIDP_STATUS_I8042_TRANS_UNKNOWN,
          forwardAll HidParser_TranslateUsage KeyAction (ChangedUsageList.take i) s) := by
  rw [translateUsageAndPages_eq _ _ _ _ _ _ _ hN]
  have hlen : i < ChangedUsageList.length := by omega
  have hE : ChangedUsageList[i] = Entry := by
    rw [List.getElem?_eq_getElem hlen] at hentry
    exact Option.some.inj hentry
  have hsplit : ChangedUsageList.take UsageListLength
      = ChangedUsageList.take i ++ Entry :: (ChangedUsageList.take UsageListLength).drop (i + 1) := by
    have h1 : ChangedUsageList.take i = (ChangedUsageList.take UsageListLength).take i := by
      rw [List.take_take, Nat.min_eq_left (by omega)]
    rw [h1, ← hE, ← drop_take_cons ChangedUsageList UsageListLength i hi hN, List.take_append_drop]
  rw [hsplit]
  exact congrArg some
    (translateAll_unknown _ _ _ _ Entry _ hk hc (ChangedUsageList.take i) s hkeyboard haccepted)

/-- Witness of C20: keyboard page 7, consumer page 12; one keyboard-page usage
followed by one usage of the unknown page 9.  The keyboard usage has been
forwarded. -/
theorem unknown_page_no_rollback_witness :
    HidParser_TranslateUsageAndPagesToI8042ScanCodes 7 12 sampleTranslateUsage
        [⟨4, 7⟩, ⟨5, 9⟩] 2 HIDP_KEYBOARD_DIRECTION.HidP_Keyboard_Make []
      = some (HIDP_STATUS_I8042_TRANS_UNKNOWN,
          forwardAll sampleTranslateUsage HIDP_KEYBOARD_DIRECTION.HidP_Keyboard_Make
            (List.take 1 [⟨4, 7⟩, ⟨5, 9⟩]) []) ∧
    forwardAll sampleTranslateUsage HIDP_KEYBOARD_DIRECTION.HidP_Keyboard_Make
      (List.take 1 [⟨4, 7⟩, ⟨5, 9⟩]) [] = [4] :=
  ⟨unknown_page_no_rollback 7 12 sampleTranslateUsage [⟨4, 7⟩, ⟨5, 9⟩] 2
    HIDP_KEYBOARD_DIRECTION.HidP_Keyboard_Make [] 1 ⟨5, 9⟩ (by decide) (by decide)
    (by decide) (by decide) rfl (by decide) (by decide), by decide⟩

/-- C21.  `HidParser_TranslateUsageAndPagesToI8042ScanCodes` fails fast.  Its result
is `HIDP_STATUS_SUCCESS` exactly when every entry of the batch (there may be none)
is a keyboard-page entry that `HidParser_TranslateUsage` accepts.  When the
entries below index `i` are such entries and the entry at index `i` is not, the
result is decided by that entry: the translated status when it is a
keyboard-page entry which is rejected, `HIDP_STATUS_NOT_IMPLEMENTED` when it is a
consumer-page entry, `HIDP_STATUS_I8042_TRANS_UNKNOWN` for any other page; result
and state are the same for every batch with these first `i + 1` entries, so no
later entry is examined or forwarded. -/
theorem translation_fails_fast {σ : Type} (K C : USAGE)
    (W : USAGE → HIDP_KEYBOARD_DIRECTION → σ → HIDPARSER_STATUS × σ)
    (KeyAction : HIDP_KEYBOARD_DIRECTION) (s : σ) :
    (∀ (L : List USAGE_AND_PAGE) (N : Nat), N ≤ L.length →
      ∃ r, HidParser_TranslateUsageAndPagesToI8042ScanCodes K C W L N KeyAction s = some r ∧
        (r.1 = HIDP_STATUS_SUCCESS ↔
          ((∀ x ∈ L.take N, x.UsagePage = K) ∧ acceptsAll W KeyAction (L.take N) s = true))) ∧
    (∀ (pre rest : List USAGE_AND_PAGE) (e : USAGE_AND_PAGE),
      (∀ x ∈ pre, x.UsagePage = K) → acceptsAll W KeyAction pre s = true →
      ¬ (e.UsagePage = K ∧
          (W e.Usage KeyAction (forwardAll W KeyAction pre s)).1 = HIDPARSER_STATUS.SUCCESS) →
      HidParser_TranslateUsageAndPagesToI8042ScanCodes K C W (pre ++ e :: rest)
          (pre ++ e :: rest).length KeyAction s
        = some
            (if e.UsagePage = K then
              (TranslateHidParserStatus (W e.Usage KeyAction (forwardAll W KeyAction pre s)).1,
                (W e.Usage KeyAction (forwardAll W KeyAction pre s)).2)
            else if e.UsagePage = C then
              (HIDP_STATUS_NOT_IMPLEMENTED, forwardAll W KeyAction pre s)
            else (HIDP_STATUS_I8042_TRANS_UNKNOWN, forwardAll W KeyAction pre s))) := by
  constructor
  · intro L N hN
    refine ⟨_, translateUsageAndPages_eq K C W L N KeyAction s hN, ?_⟩
    exact translateAll_success_iff K C W KeyAction (L.take N) s
  · intro pre rest e hpage hacc hbad
    rw [translateUsageAndPages_eq K C W _ _ KeyAction s (Nat.le_refl _), List.take_length]
    exact congrArg some (translateAll_first_error K C W KeyAction e rest pre s hpage hacc hbad)

/-- Witness of C21: keyboard page 7, consumer page 12; the second entry is a
keyboard-page entry that is rejected, and the third entry is not forwarded. -/
theorem translation_fails_fast_witness :
    HidParser_TranslateUsageAndPagesToI8042ScanCodes 7 12 sampleTranslateUsage
        [⟨4, 7⟩, ⟨99, 7⟩, ⟨5, 7⟩] 3
        HIDP_KEYBOARD_DIRECTION.HidP_Keyboard_Make []
      = some (HIDP_STATUS_USAGE_NOT_FOUND, [4, 99]) :=
  (translation_fails_fast 7 12 sampleTranslateUsage HIDP_KEYBOARD_DIRECTION.HidP_Keyboard_Make
    []).2 [⟨4, 7⟩] [⟨5, 7⟩] ⟨99, 7⟩ (by decide) (by decide) (by decide)

/-- C22.  `HidParser_MaxUsageListLength` returns 0 and leaves the state of the
parser routine untouched, whatever that routine is, when the usage page is
`HID_USAGE_PAGE_UNDEFINED` (for every report type) and when the report type is
not input, output or feature; for a defined usage page and one of these three
report types it returns what `HidParser_GetMaxUsageListLengthWithReportAndPage`
answers for the matching internal report type and that page. -/
theorem max_usage_list_length {σ : Type} (Undefined : USAGE)
    (W : HID_REPORT_TYPE → USAGE → σ → Nat × σ) (s : σ) :
    (∀ ReportType : HIDP_REPORT_TYPE,
      HidParser_MaxUsageListLength Undefined W ReportType Undefined s = (0, s)) ∧
    (∀ (UsagePage : USAGE) (code : Int),
      HidParser_MaxUsageListLength Undefined W (HIDP_REPORT_TYPE.Other code) UsagePage s = (0, s)) ∧
    (∀ (ReportType : HIDP_REPORT_TYPE) (T : HID_REPORT_TYPE) (UsagePage : USAGE),
      UsagePage ≠ Undefined → internalReportType ReportType = some T →
      HidParser_MaxUsageListLength Undefined W ReportType UsagePage s = W T UsagePage s) := by
  refine ⟨?_, ?_, ?_⟩
  · intro ReportType
    simp [HidParser_MaxUsageListLength]
  · intro UsagePage code
    simp [HidParser_MaxUsageListLength]
  · intro ReportType T UsagePage hne hT
    cases ReportType <;> simp [internalReportType] at hT <;> subst hT <;>
      simp [HidParser_MaxUsageListLength, hne]

/-- Witness of C22: undefined page 0, a routine that answers 5 and counts its
calls; output reports on usage page 7. -/
theorem max_usage_list_length_witness :
    HidParser_MaxUsageListLength 0 (fun _ _ (n : Nat) => (5, n + 1))
      HIDP_REPORT_TYPE.HidP_Output 7 0 = (5, 1) :=
  (max_usage_list_length 0 (fun _ _ (n : Nat) => (5, n + 1)) 0).2.2
    HIDP_REPORT_TYPE.HidP_Output HID_REPORT_TYPE_OUTPUT 7 (by decide) rfl

/-- C23.  `HidParser_GetCaps` returns `HIDP_STATUS_SUCCESS` whatever the record held
before, and fills it as follows: usage and usage page are what
`HidParser_GetCollectionUsagePage` leaves for collection 0 in the zeroed fields;
each report byte length is the raw length of the parser with one added when it
is not zero, and zero otherwise; `NumberLinkCollectionNodes` is the total
collection count; for each report type the data index count is the counting
routine called with `TRUE` and the value caps count the same routine called with
`FALSE`. -/
theorem caps_filled (Parser : HID_PARSER) (Total : Nat)
    (ItemTypeCount : HID_REPORT_TYPE → Bool → Nat) (ItemCount : HID_REPORT_TYPE → Nat)
    (Capabilities : HIDP_CAPS) :
    ∃ c, HidParser_GetCaps Parser Total ItemTypeCount ItemCount Capabilities
        = (HIDP_STATUS_SUCCESS, c) ∧
      c.Usage = (Parser.GetCollectionUsagePage 0 0 0).2.1 ∧
      c.UsagePage = (Parser.GetCollectionUsagePage 0 0 0).2.2 ∧
      c.InputReportByteLength = (if Parser.GetReportLength HID_REPORT_TYPE_INPUT = 0 then 0
        else Parser.GetReportLength HID_REPORT_TYPE_INPUT + 1) ∧
      c.OutputReportByteLength = (if Parser.GetReportLength HID_REPORT_TYPE_OUTPUT = 0 then 0
        else Parser.GetReportLength HID_REPORT_TYPE_OUTPUT + 1) ∧
      c.FeatureReportByteLength = (if Parser.GetReportLength HID_REPORT_TYPE_FEATURE = 0 then 0
        else Parser.GetReportLength HID_REPORT_TYPE_FEATURE + 1) ∧
      c.NumberLinkCollectionNodes = Total ∧
      c.NumberInputDataIndices = ItemTypeCount HID_REPORT_TYPE_INPUT true ∧
      c.NumberOutputDataIndices = ItemTypeCount HID_REPORT_TYPE_OUTPUT true ∧
      c.NumberFeatureDataIndices = ItemTypeCount HID_REPORT_TYPE_FEATURE true ∧
      c.NumberInputValueCaps = ItemTypeCount HID_REPORT_TYPE_INPUT false ∧
      c.NumberOutputValueCaps = ItemTypeCount HID_REPORT_TYPE_OUTPUT false ∧
      c.NumberFeatureValueCaps = ItemTypeCount HID_REPORT_TYPE_FEATURE false := by
  refine ⟨_, rfl, rfl, rfl, ?_, ?_, ?_, rfl, rfl, rfl, rfl, rfl, rfl, rfl⟩
  · exact prepend_length _
  · exact prepend_length _
  · exact prepend_length _

/-- C27.  `TranslateHidParserStatus` returns `HIDP_STATUS_SUCCESS` for no input; the
internal success status is not in its table and is translated to
`HIDP_STATUS_NOT_IMPLEMENTED`, while the tail of the dispatchers, which tests for
internal success first, turns it into `HIDP_STATUS_SUCCESS`. -/
theorem translate_never_success :
    (∀ Status : HIDPARSER_STATUS, TranslateHidParserStatus Status ≠ HIDP_STATUS_SUCCESS) ∧
    TranslateHidParserStatus HIDPARSER_STATUS.SUCCESS = HIDP_STATUS_NOT_IMPLEMENTED ∧
    (finishDispatch (HIDPARSER_STATUS.SUCCESS, ())).1 = HIDP_STATUS_SUCCESS :=
  ⟨fun Status => (translate_ne_success Status).2, rfl, rfl⟩

/-! ## The outputs of a difference, read as snapshots -/

theorem effective_zeroFilled {α : Type} (isEnd : α → Bool) (zero : α) (N : Nat)
    (l rest : List α) (hl : l.length ≤ N) (hne : ∀ x ∈ l, isEnd x = false)
    (hz : isEnd zero = true) :
    effective isEnd N (zeroFilled zero N l ++ rest) = l := by
  unfold effective
  rw [take_zeroFilled_append zero N l rest hl]
  unfold zeroFilled
  rw [List.takeWhile_append_of_pos (by intro a ha; simp [hne a ha])]
  cases h : N - l.length with
  | zero => simp
  | succ n => simp [List.replicate_succ, List.takeWhile_cons, hz]

theorem zeroFilled_split {α : Type} (zero : α) (N : Nat) (l : List α) (hl : l.length < N) :
    zeroFilled zero N l = l ++ zero :: List.replicate (N - l.length - 1) zero := by
  unfold zeroFilled
  have h : N - l.length = (N - l.length - 1) + 1 := by omega
  rw [h, List.replicate_succ]
  simp

theorem translate_padded_output {σ : Type} (K C : USAGE)
    (W : USAGE → HIDP_KEYBOARD_DIRECTION → σ → HIDPARSER_STATUS × σ)
    (KeyAction : HIDP_KEYBOARD_DIRECTION) (s : σ) (N : Nat) (l : List USAGE_AND_PAGE)
    (hK : K ≠ 0) (hC : C ≠ 0) (hl : l.length < N)
    (hpage : ∀ x ∈ l, x.UsagePage = K) (hacc : acceptsAll W KeyAction l s = true) :
    HidParser_TranslateUsageAndPagesToI8042ScanCodes K C W
        (zeroFilled USAGE_AND_PAGE.zero N l) N KeyAction s
      = some (HIDP_STATUS_I8042_TRANS_UNKNOWN, forwardAll W KeyAction l s) := by
  have hlen := zeroFilled_length USAGE_AND_PAGE.zero N l (Nat.le_of_lt hl)
  rw [translateUsageAndPages_eq K C W _ N KeyAction s (Nat.le_of_eq hlen.symm),
    List.take_of_length_le (Nat.le_of_eq hlen), zeroFilled_split _ N l hl]
  exact congrArg some
    (translateAll_unknown K C W KeyAction USAGE_AND_PAGE.zero _
      (by simpa [USAGE_AND_PAGE.zero] using Ne.symm hK)
      (by simpa [USAGE_AND_PAGE.zero] using Ne.symm hC) l s hpage hacc)

/-- C25.  Both variants: for snapshots `A`, `B` of capacity `N` the call succeeds,
and with every list read as the set of its entries before its sentinel, an entry
is in `B` exactly when it is in `A` and not in the break list, or in the make
list; and no entry is in both the break list and the make list. -/
theorem transitions_reconstruct (N : Nat) :
    (∀ (A B BreakUsageList MakeUsageList : List USAGE),
      A.length = N → B.length = N → BreakUsageList.length = N → MakeUsageList.length = N →
      ∃ r, HidParser_UsageListDifference A B BreakUsageList MakeUsageList N = some r ∧
        (∀ x : USAGE, x ∈ effective isZeroUsage N B ↔
          ((x ∈ effective isZeroUsage N A ∧ x ∉ effective isZeroUsage N r.BreakUsageList) ∨
            x ∈ effective isZeroUsage N r.MakeUsageList)) ∧
        (∀ x : USAGE, ¬ (x ∈ effective isZeroUsage N r.BreakUsageList ∧
          x ∈ effective isZeroUsage N r.MakeUsageList))) ∧
    (∀ (A B BreakUsageList MakeUsageList : List USAGE_AND_PAGE),
      A.length = N → B.length = N → BreakUsageList.length = N → MakeUsageList.length = N →
      ∃ r, HidParser_UsageAndPageListDifference A B BreakUsageList MakeUsageList N = some r ∧
        (∀ x : USAGE_AND_PAGE, x ∈ effective isZeroUsageAndPage N B ↔
          ((x ∈ effective isZeroUsageAndPage N A ∧
              x ∉ effective isZeroUsageAndPage N r.BreakUsageList) ∨
            x ∈ effective isZeroUsageAndPage N r.MakeUsageList)) ∧
        (∀ x : USAGE_AND_PAGE, ¬ (x ∈ effective isZeroUsageAndPage N r.BreakUsageList ∧
          x ∈ effective isZeroUsageAndPage N r.MakeUsageList))) := by
  constructor
  · intro A B Bk Mk hA hB hBk hMk
    refine ⟨_, usageListDifference_eq A B Bk Mk N (Nat.le_of_eq hA.symm)
      (Nat.le_of_eq hB.symm) (Nat.le_of_eq hBk.symm) (Nat.le_of_eq hMk.symm), ?_, ?_⟩
    · intro x
      simp only [effective_zeroFilled isZeroUsage 0 N _ _ (absentFrom_length_le isZeroUsage N _ _)
        (not_isEnd_of_mem_absentFrom isZeroUsage N _ _) rfl, mem_absentFrom]
      by_cases h1 : x ∈ effective isZeroUsage N A <;>
        by_cases h2 : x ∈ effective isZeroUsage N B <;> simp [h1, h2]
    · intro x
      simp only [effective_zeroFilled isZeroUsage 0 N _ _ (absentFrom_length_le isZeroUsage N _ _)
        (not_isEnd_of_mem_absentFrom isZeroUsage N _ _) rfl, mem_absentFrom]
      intro h
      exact h.1.2 h.2.1
  · intro A B Bk Mk hA hB hBk hMk
    refine ⟨_, usageAndPageListDifference_eq A B Bk Mk N (Nat.le_of_eq hA.symm)
      (Nat.le_of_eq hB.symm) (Nat.le_of_eq hBk.symm) (Nat.le_of_eq hMk.symm), ?_, ?_⟩
    · intro x
      simp only [effective_zeroFilled isZeroUsageAndPage USAGE_AND_PAGE.zero N _ _
        (absentFrom_length_le isZeroUsageAndPage N _ _)
        (not_isEnd_of_mem_absentFrom isZeroUsageAndPage N _ _) rfl, mem_absentFrom]
      by_cases h1 : x ∈ effective isZeroUsageAndPage N A <;>
        by_cases h2 : x ∈ effective isZeroUsageAndPage N B <;> simp [h1, h2]
    · intro x
      simp only [effective_zeroFilled isZeroUsageAndPage USAGE_AND_PAGE.zero N _ _
        (absentFrom_length_le isZeroUsageAndPage N _ _)
        (not_isEnd_of_mem_absentFrom isZeroUsageAndPage N _ _) rfl, mem_absentFrom]
      intro h
      exact h.1.2 h.2.1

/-- Witness of C25 at capacity 4, plain variant: previous `[5,7,0,9]`, current
`[7,8,0,0]`. -/
theorem transitions_reconstruct_witness :
    ∃ r, HidParser_UsageListDifference [5, 7, 0, 9] [7, 8, 0, 0] [1, 1, 1, 1] [2, 2, 2, 2] 4
        = some r ∧
      (∀ x : USAGE, x ∈ effective isZeroUsage 4 [7, 8, 0, 0] ↔
        ((x ∈ effective isZeroUsage 4 [5, 7, 0, 9] ∧
            x ∉ effective isZeroUsage 4 r.BreakUsageList) ∨
          x ∈ effective isZeroUsage 4 r.MakeUsageList)) ∧
      (∀ x : USAGE, ¬ (x ∈ effective isZeroUsage 4 r.BreakUsageList ∧
        x ∈ effective isZeroUsage 4 r.MakeUsageList)) :=
  (transitions_reconstruct 4).1 [5, 7, 0, 9] [7, 8, 0, 0] [1, 1, 1, 1] [2, 2, 2, 2]
    rfl rfl rfl rfl

/-- C26.  Let the keyboard page and the consumer page both differ from 0, and let
`N ≥ 1`.  For snapshots `A`, `B` of capacity `N` the pair variant succeeds, and for
each of its two output lists: if the entries before its sentinel are fewer than
`N`, are all keyboard-page entries and are accepted by `HidParser_TranslateUsage`,
then `HidParser_TranslateUsageAndPagesToI8042ScanCodes` on that list with
`UsageListLength = N` forwards these entries and returns
`HIDP_STATUS_I8042_TRANS_UNKNOWN`: the zero padding is not taken as the end of
the list.  In particular, on the outputs of the difference of `A` with itself
it returns that status with the state untouched. -/
theorem zero_padding_is_translated {σ : Type} (K C : USAGE)
    (W : USAGE → HIDP_KEYBOARD_DIRECTION → σ → HIDPARSER_STATUS × σ)
    (KeyAction : HIDP_KEYBOARD_DIRECTION) (s : σ) (N : Nat)
    (hK : K ≠ 0) (hC : C ≠ 0) (hN : 1 ≤ N) :
    (∀ (A B BreakUsageList MakeUsageList : List USAGE_AND_PAGE),
      A.length = N → B.length = N → BreakUsageList.length = N → MakeUsageList.length = N →
      ∃ r, HidParser_UsageAndPageListDifference A B BreakUsageList MakeUsageList N = some r ∧
        ∀ out, out = r.BreakUsageList ∨ out = r.MakeUsageList →
          (effective isZeroUsageAndPage N out).length < N →
          (∀ x ∈ effective isZeroUsageAndPage N out, x.UsagePage = K) →
          acceptsAll W KeyAction (effective isZeroUsageAndPage N out) s = true →
          HidParser_TranslateUsageAndPagesToI8042ScanCodes K C W out N KeyAction s
            = some (HIDP_STATUS_I8042_TRANS_UNKNOWN,
                forwardAll W KeyAction (effective isZeroUsageAndPage N out) s)) ∧
    (∀ (A BreakUsageList MakeUsageList : List USAGE_AND_PAGE),
      A.length = N → BreakUsageList.length = N → MakeUsageList.length = N →
      ∃ r, HidParser_UsageAndPageListDifference A A BreakUsageList MakeUsageList N = some r ∧
        HidParser_TranslateUsageAndPagesToI8042ScanCodes K C W r.BreakUsageList N KeyAction s
          = some (HIDP_STATUS_I8042_TRANS_UNKNOWN, s) ∧
        HidParser_TranslateUsageAndPagesToI8042ScanCodes K C W r.MakeUsageList N KeyAction s
          = some (HIDP_STATUS_I8042_TRANS_UNKNOWN, s)) := by
  constructor
  · intro A B Bk Mk hA hB hBk hMk
    refine ⟨_, usageAndPageListDifference_eq A B Bk Mk N (Nat.le_of_eq hA.symm)
      (Nat.le_of_eq hB.symm) (Nat.le_of_eq hBk.symm) (Nat.le_of_eq hMk.symm), ?_⟩
    intro out hout
    simp only [List.drop_eq_nil_iff.mpr (Nat.le_of_eq hBk),
      List.drop_eq_nil_iff.mpr (Nat.le_of_eq hMk), List.append_nil] at hout
    rcases hout with h | h <;> subst h
    · have he := effective_zeroFilled isZeroUsageAndPage USAGE_AND_PAGE.zero N
        (absentFrom isZeroUsageAndPage N A B) [] (absentFrom_length_le isZeroUsageAndPage N A B)
        (not_isEnd_of_mem_absentFrom isZeroUsageAndPage N A B) rfl
      rw [List.append_nil] at he
      rw [he]
      intro hl hpage hacc
      exact translate_padded_output K C W KeyAction s N _ hK hC hl hpage hacc
    · have he := effective_zeroFilled isZeroUsageAndPage USAGE_AND_PAGE.zero N
        (absentFrom isZeroUsageAndPage N B A) [] (absentFrom_length_le isZeroUsageAndPage N B A)
        (not_isEnd_of_mem_absentFrom isZeroUsageAndPage N B A) rfl
      rw [List.append_nil] at he
      rw [he]
      intro hl hpage hacc
      exact translate_padded_output K C W KeyAction s N _ hK hC hl hpage hacc
  · intro A Bk Mk hA hBk hMk
    refine ⟨_, usageAndPageListDifference_eq A A Bk Mk N (Nat.le_of_eq hA.symm)
      (Nat.le_of_eq hA.symm) (Nat.le_of_eq hBk.symm) (Nat.le_of_eq hMk.symm), ?_, ?_⟩
    · simp only [List.drop_eq_nil_iff.mpr (Nat.le_of_eq hBk), List.append_nil, absentFrom_self]
      exact translate_padded_output K C W KeyAction s N [] hK hC (by simpa using hN)
        (by simp) rfl
    · simp only [List.drop_eq_nil_iff.mpr (Nat.le_of_eq hMk), List.append_nil, absentFrom_self]
      exact translate_padded_output K C W KeyAction s N [] hK hC (by simpa using hN)
        (by simp) rfl

/-- Witness of C26: keyboard page 7, consumer page 12, capacity 2; the difference
of `[(4,7),(0,0)]` with itself, whose outputs are all zero. -/
theorem zero_padding_is_translated_witness :
    ∃ r, HidParser_UsageAndPageListDifference [⟨4, 7⟩, ⟨0, 0⟩] [⟨4, 7⟩, ⟨0, 0⟩]
          [⟨9, 9⟩, ⟨9, 9⟩] [⟨8, 8⟩, ⟨8, 8⟩] 2 = some r ∧
      HidParser_TranslateUsageAndPagesToI8042ScanCodes 7 12 sampleTranslateUsage
          r.BreakUsageList 2 HIDP_KEYBOARD_DIRECTION.HidP_Keyboard_Make []
        = some (HIDP_STATUS_I8042_TRANS_UNKNOWN, []) ∧
      HidParser_TranslateUsageAndPagesToI8042ScanCodes 7 12 sampleTranslateUsage
          r.MakeUsageList 2 HIDP_KEYBOARD_DIRECTION.HidP_Keyboard_Make []
        = some (HIDP_STATUS_I8042_TRANS_UNKNOWN, []) :=
  (zero_padding_is_translated 7 12 sampleTranslateUsage HIDP_KEYBOARD_DIRECTION.HidP_Keyboard_Make
    [] 2 (by decide) (by decide) (by decide)).2 [⟨4, 7⟩, ⟨0, 0⟩]
    [⟨9, 9⟩, ⟨9, 9⟩] [⟨8, 8⟩, ⟨8, 8⟩] rfl rfl rfl

/-! ## Blob allocation failure inside the population loop -/

theorem allocated_append (xs ys : List Call) :
    allocated (xs ++ ys) = allocated xs ++ allocated ys := by
  induction xs with
  | nil => rfl
  | cons c cs ih =>
    cases c with
    | Alloc Size Pointer =>
      simp only [List.cons_append, allocated]
      split
      · exact ih
      · exact congrArg (List.cons Pointer) ih
    | _ =>
      simp only [List.cons_append, allocated]
      exact ih

theorem outstanding_of_no_release (FreeContextReleases : Bool) (Calls : List Call)
    (h : ∀ c ∈ Calls, c.releases = false) :
    outstanding FreeContextReleases Calls = allocated Calls := by
  unfold outstanding
  suffices hs : ∀ (cs : List Call) (Live : List Nat), (∀ c ∈ cs, c.releases = false) →
      cs.foldl (fun Live c =>
        match c with
        | Call.Alloc _ Pointer => if Pointer = 0 then Live else Live ++ [Pointer]
        | Call.Free Pointer => Live.erase Pointer
        | Call.FreeContext Context _ => if FreeContextReleases then Live.erase Context else Live
        | _ => Live) Live = Live ++ allocated cs by
    simpa using hs Calls [] h
  intro cs
  induction cs with
  | nil => intro Live _; simp [allocated]
  | cons c cs ih =>
    intro Live hc
    have hrest : ∀ d ∈ cs, d.releases = false := fun d hd => hc d (List.mem_cons_of_mem _ hd)
    have hhead := hc c (List.mem_cons_self _ _)
    cases c with
    | Alloc Size Pointer =>
      simp only [List.foldl_cons, allocated, ih _ hrest]
      split <;> simp
    | Free Pointer => simp [Call.releases] at hhead
    | FreeContext Context ContextLength => simp [Call.releases] at hhead
    | ExFreePool Pointer => simp [Call.releases] at hhead
    | _ => simp only [List.foldl_cons, allocated, ih _ hrest]

theorem populateEntry_trace (Parser : HID_PARSER) (Index : Nat) (m : Memory)
    (hr : Index < m.ReportIDsArray.length) (he : Index < m.CollectionDescArray.length) :
    ∃ res m1 more, populateEntry Parser Index m = some (res, m1) ∧
      m1.Calls = m.Calls ++ more ∧ m1.Allocations = m.Allocations + 1 ∧
      m1.Description = m.Description ∧
      m1.ReportIDsArray.length = m.ReportIDsArray.length ∧
      m1.CollectionDescArray.length = m.CollectionDescArray.length ∧
      (∀ c ∈ more, c.releases = false) ∧
      (Parser.AllocSucceeds m.Allocations Parser.GetContextSize = true →
        res = none ∧ allocated more = [m.Allocations + 1]) ∧
      (Parser.AllocSucceeds m.Allocations Parser.GetContextSize = false →
        res = some STATUS_INSUFFICIENT_RESOURCES ∧ allocated more = []) := by
  unfold populateEntry
  rw [List.getElem?_eq_getElem hr, List.getElem?_eq_getElem he]
  simp only [Alloc]
  by_cases hok : Parser.AllocSucceeds m.Allocations Parser.GetContextSize = true
  · simp only [hok, if_true, Nat.succ_ne_zero, if_false]
    refine ⟨_, _, _, rfl, by simp; rfl, rfl, rfl, by simp, by simp, ?_, ?_, by simp⟩
    · intro c hc
      simp at hc
      rcases hc with h | h | h | h | h | h | h <;> subst h <;> rfl
    · intro _
      exact ⟨rfl, by simp [allocated]⟩
  · simp only [Bool.not_eq_true] at hok
    simp only [hok, Bool.false_eq_true, if_false, if_true]
    refine ⟨_, _, _, rfl, by simp; rfl, rfl, rfl, by simp, by simp, ?_, by simp, ?_⟩
    · intro c hc
      simp at hc
      rcases hc with h | h | h | h | h | h <;> subst h <;> rfl
    · intro _
      exact ⟨rfl, by simp [allocated]⟩

theorem populateLoop_fails (Parser : HID_PARSER) (c k : Nat) (hk : k < c) :
    ∀ (fuel Index : Nat) (m : Memory), Index ≤ k → c - Index ≤ fuel →
      m.ReportIDsArray.length = c → m.CollectionDescArray.length = c →
      (∀ j, j < k - Index →
        Parser.AllocSucceeds (m.Allocations + j) Parser.GetContextSize = true) →
      Parser.AllocSucceeds (m.Allocations + (k - Index)) Parser.GetContextSize = false →
      ∃ m1 more, populateLoop Parser c fuel Index m
          = some (some STATUS_INSUFFICIENT_RESOURCES, m1) ∧
        m1.Calls = m.Calls ++ more ∧ m1.Description = m.Description ∧
        m1.CollectionDescArray.length = c ∧
        (∀ d ∈ more, d.releases = false) ∧
        allocated more = List.range' (m.Allocations + 1) (k - Index) := by
  intro fuel
  induction fuel with
  | zero => intro Index m hle hf; omega
  | succ fuel ih =>
    intro Index m hle hf hr he hgood hbad
    have hlt : Index < c := by omega
    obtain ⟨res, m1, more, h1, hc, ha, hd, hr1, he1, hnorel, hok, hfail⟩ :=
      populateEntry_trace Parser Index m (by omega) (by omega)
    by_cases hIk : Index = k
    · subst hIk
      simp only [Nat.sub_self, Nat.add_zero] at hbad
      obtain ⟨hres, hal⟩ := hfail hbad
      subst hres
      refine ⟨m1, more, by simp [populateLoop, hlt, h1], hc, hd, by omega, hnorel, ?_⟩
      simp [hal]
    · have hpos : 0 < k - Index := by omega
      obtain ⟨hres, hal⟩ := hok (by simpa using hgood 0 hpos)
      subst hres
      obtain ⟨m2, more2, h2, hc2, hd2, he2, hnorel2, hal2⟩ :=
        ih (Index + 1) m1 (by omega) (by omega) (by omega) (by omega)
          (by
            intro j hj
            have := hgood (j + 1) (by omega)
            rw [ha]
            rw [show m.Allocations + 1 + j = m.Allocations + (j + 1) by omega]
            exact this)
          (by
            rw [ha]
            rw [show m.Allocations + 1 + (k - (Index + 1)) = m.Allocations + (k - Index) by omega]
            exact hbad)
      refine ⟨m2, more ++ more2, by simp [populateLoop, hlt, h1, h2],
        by rw [hc2, hc, List.append_assoc], hd2.trans hd, he2, ?_, ?_⟩
      · intro d hd
        rcases List.mem_append.mp hd with h | h
        · exact hnorel d h
        · exact hnorel2 d h
      · rw [allocated_append, hal, hal2, ha]
        have hs : k - Index = (k - (Index + 1)) + 1 := by omega
        rw [hs, List.range'_succ]
        simp

/-- C24.  Let the descriptor parse, both arrays be allocated, the blob allocations
for the collection indices below `k` succeed and the one for index `k` fail.
Then `HidParser_GetCollectionDescription` returns `STATUS_INSUFFICIENT_RESOURCES`
and has handed no block back: the capability array, the identity array and the
`k` blobs are outstanding.  `CollectionDescLength` and `ReportIDsLength` are still 0,
so that `HidParser_FreeCollectionDescription` on that record calls
`HidParser_FreeContext` not at all: it releases the two arrays and no blob. -/
theorem blob_allocation_failure (Checked FreeContextReleases : Bool) (Parser : HID_PARSER)
    (ReportDesc : List Nat) (DescLength : Nat) (m : Memory) (k : Nat)
    (hparse : Parser.ParseReportDescriptor ReportDesc DescLength = HIDPARSER_STATUS.SUCCESS)
    (hassert : Checked = true → Parser.NumberOfTopCollections ≤ 1)
    (hk : k < Parser.NumberOfTopCollections)
    (h1 : Parser.AllocSucceeds m.Allocations
      (Parser.sizeofCollectionDesc * Parser.NumberOfTopCollections) = true)
    (h2 : Parser.AllocSucceeds (m.Allocations + 1)
      (Parser.sizeofReportIDs * Parser.NumberOfTopCollections) = true)
    (hblobs : ∀ j, j < k →
      Parser.AllocSucceeds (m.Allocations + 2 + j) Parser.GetContextSize = true)
    (hfail : Parser.AllocSucceeds (m.Allocations + 2 + k) Parser.GetContextSize = false) :
    ∃ m1 NewCalls,
      HidParser_GetCollectionDescription Checked Parser ReportDesc DescLength m
        = some (STATUS_INSUFFICIENT_RESOURCES, m1) ∧
      m1.Calls = m.Calls ++ NewCalls ∧
      (∀ c ∈ NewCalls, c.releases = false) ∧
      outstanding FreeContextReleases NewCalls
        = [m.Allocations + 1, m.Allocations + 2] ++ List.range' (m.Allocations + 3) k ∧
      m1.Description = ⟨m.Allocations + 1, 0, m.Allocations + 2, 0⟩ ∧
      HidParser_FreeCollectionDescription m1
        = some { m1 with
            Calls := m1.Calls ++ [Call.Free (m.Allocations + 1),
              Call.ExFreePool (m.Allocations + 2)],
            CollectionDescArray := [], ReportIDsArray := [] } := by
  obtain ⟨m1, more, hl, hc, hd, _, hnorel, hal⟩ :=
    populateLoop_fails Parser Parser.NumberOfTopCollections k hk Parser.NumberOfTopCollections 0
      (loopStart Parser m) (by omega) (by omega) (by simp [loopStart]) (by simp [loopStart])
      (by
        intro j hj
        have := hblobs j (by omega)
        simpa [loopStart] using this)
      (by simpa [loopStart] using hfail)
  have hnew : ∀ c ∈ [Call.ParseReportDescriptor, Call.NumberOfTopCollections, Call.Zero,
      Call.Alloc (Parser.sizeofCollectionDesc * Parser.NumberOfTopCollections)
        (m.Allocations + 1),
      Call.Alloc (Parser.sizeofReportIDs * Parser.NumberOfTopCollections)
        (m.Allocations + 2)] ++ more, c.releases = false := by
    intro c hcmem
    rcases List.mem_append.mp hcmem with h | h
    · simp at h
      rcases h with h | h | h | h | h <;> subst h <;> rfl
    · exact hnorel c h
  have hdesc : m1.Description = ⟨m.Allocations + 1, 0, m.Allocations + 2, 0⟩ := by
    rw [hd]; rfl
  refine ⟨m1, _, ?_, ?_, hnew, ?_, hdesc, ?_⟩
  · rw [getCollectionDescription_eq_loop Checked Parser ReportDesc DescLength m hparse
      (by omega) hassert h1 h2, hl]
  · rw [hc]
    simp [loopStart]
  · rw [outstanding_of_no_release FreeContextReleases _ hnew, allocated_append, hal]
    simp [allocated, loopStart]
  · simp [HidParser_FreeCollectionDescription, freeContextLoop, hdesc, Memory.log]

/-- Witness of C24: two collections, no assertions, and an allocator whose fourth
allocation fails: the blob allocation for index 1. -/
theorem blob_allocation_failure_witness :
    ∃ m1 NewCalls,
      HidParser_GetCollectionDescription false
          { sampleParser 2 with AllocSucceeds := fun n _ => decide (n < 3) } [5, 1] 2 emptyMemory
        = some (STATUS_INSUFFICIENT_RESOURCES, m1) ∧
      m1.Calls = emptyMemory.Calls ++ NewCalls ∧
      (∀ c ∈ NewCalls, c.releases = false) ∧
      outstanding true NewCalls = [1, 2] ++ List.range' 3 1 ∧
      m1.Description = ⟨1, 0, 2, 0⟩ ∧
      HidParser_FreeCollectionDescription m1
        = some { m1 with
            Calls := m1.Calls ++ [Call.Free 1, Call.ExFreePool 2],
            CollectionDescArray := [], ReportIDsArray := [] } :=
  blob_allocation_failure false true
    { sampleParser 2 with AllocSucceeds := fun n _ => decide (n < 3) } [5, 1] 2 emptyMemory 1
    rfl (by simp) (by decide) (by decide) (by decide)
    (by intro j hj; have h0 : j = 0 := by omega
        subst h0; decide)
    (by decide)
end HidParser
